import Mathlib

/-!
# jedisocks server: framed tunnel de-multiplexer

A shallow embedding of `src/server.c`.  Bytes are natural numbers below 256,
buffers are lists of bytes, and every libuv callback of the C file is a pure
function on the tunnel state (`server_ctx_t`), which owns its sessions
(`remote_ctx_t`) through the session tree `remote_map`.  A C pointer to a session
is represented by the session's key in that tree.  `assert(0)` aborts the
process and is modelled by the result `none`; `server_read_cb_dispatch_steps`
also keeps the state in which the dispatch of a frame is aborted.

Fields marked "ghost" do not exist in the C structures: they record the calls
the code makes into libuv (buffers handed to `uv_write`, connection attempts,
name lookups) and the frames dispatched to a session, so that what the code
emits can be stated.  Timers appear only through the callback
`remote_timeout_cb`; logging and the freeing of buffers are left out.
-/

namespace Jedisocks

/-! ## Constants and helper macros of the headers -/

/-- Modelled from the spec: `ID_LEN` of `server.h` (absent), the width of the session id field. -/
def ID_LEN : Nat := 4

/-- Modelled from the spec: `RSV_LEN` of `server.h` (absent), the width of the cmd byte. -/
def RSV_LEN : Nat := 1

/-- Modelled from the spec: `DATALEN_LEN` of `server.h` (absent), the width of the length field. -/
def DATALEN_LEN : Nat := 2

/-- Modelled from the spec: `HDRLEN` of `server.h` (absent), the 7-byte header. -/
def HDRLEN : Nat := 7

/-- Modelled from the spec: `EXP_TO_RECV_LEN` of `server.h` (absent), what the header stage waits for (HDR). -/
def EXP_TO_RECV_LEN : Nat := 7

/-- Modelled from the spec: `ATYP_LEN` of `server.h` (absent). -/
def ATYP_LEN : Nat := 1

/-- Modelled from the spec: `ADDRLEN_LEN` of `server.h` (absent). -/
def ADDRLEN_LEN : Nat := 1

/-- Modelled from the spec: `PORT_LEN` of `server.h` (absent). -/
def PORT_LEN : Nat := 2

/-- Modelled from the spec: `CTL_INIT` of `server.h` (absent), wire value 0x01. -/
def CTL_INIT : Nat := 1

/-- Modelled from the spec: `CTL_NORMAL` of `server.h` (absent), wire value 0x02. -/
def CTL_NORMAL : Nat := 2

/-- Modelled from the spec: `CTL_CLOSE` of `server.h` (absent), wire value 0x04. -/
def CTL_CLOSE : Nat := 4

/-- Modelled from the spec: `CTL_CLOSE_ACK` of `server.h` (absent), wire value 0x05. -/
def CTL_CLOSE_ACK : Nat := 5

/-- The libuv status `UV_ECANCELED` (`-ECANCELED` on Linux). -/
def UV_ECANCELED : Int := -125

/-- The object bytes of `htonl(x)`: the 32-bit value `x`, most significant byte first. -/
def htonl (x : Nat) : List Nat :=
  [x / 16777216 % 256, x / 65536 % 256, x / 256 % 256, x % 256]

/-- The object bytes of `htons(x)`: the 16-bit value `x`, most significant byte first. -/
def htons (x : Nat) : List Nat :=
  [x / 256 % 256, x % 256]

/-- The value `ntohl` gives for four object bytes. -/
def ntohl (b : List Nat) : Nat :=
  ((b.getD 0 0 * 256 + b.getD 1 0) * 256 + b.getD 2 0) * 256 + b.getD 3 0

/-- The value `ntohs` gives for two object bytes. -/
def ntohs (b : List Nat) : Nat :=
  b.getD 0 0 * 256 + b.getD 1 0

/-- The C call `memcpy(dst + off, src, |src|)` on a zero-initialised buffer of
which `dst` lists the bytes written so far. -/
def memcpy_at (dst : List Nat) (off : Nat) (src : List Nat) : List Nat :=
  dst.take off ++ List.replicate (off - dst.length) 0 ++ src ++ dst.drop (off + src.length)

/-- The `len` bytes of `src` from offset `off` on (bytes never written read as 0). -/
def get_bytes (src : List Nat) (off len : Nat) : List Nat :=
  (src.drop off).take len ++ List.replicate (len - ((src.drop off).take len).length) 0

/-- Modelled from the spec: the macro `set_header(container, value, length, offset)` of `utils.h`
(absent): copy `length` bytes of the value to `container + offset` and advance the offset. -/
def set_header (container value : List Nat) (length offset : Nat) : List Nat × Nat :=
  (memcpy_at container offset (value.take length), offset + length)

/-- Modelled from the spec: the macro `set_payload(container, value, length, offset)` of `utils.h`
(absent): as `set_header`, for the body of a frame. -/
def set_payload (container value : List Nat) (length offset : Nat) : List Nat × Nat :=
  (memcpy_at container offset (value.take length), offset + length)

/-- Modelled from the spec: the macro `get_header(dest, src, length, offset)` of `utils.h`
(absent): copy `length` bytes from `src + offset` and advance the offset. -/
def get_header (src : List Nat) (length offset : Nat) : List Nat × Nat :=
  (get_bytes src offset length, offset + length)

/-- Modelled from the spec: the macro `get_payload(dest, src, length, offset)` of `utils.h`
(absent): as `get_header`, for the payload of an INIT body. -/
def get_payload (src : List Nat) (length offset : Nat) : List Nat × Nat :=
  (get_bytes src offset length, offset + length)

/-- Modelled from the spec: the macro `get_id(ctx, dest, src, length, offset)` of `utils.h`
(absent): read the big-endian session id at `src + offset` and advance the offset. -/
def get_id (src : List Nat) (length offset : Nat) : Nat × Nat :=
  (ntohl (get_bytes src offset length), offset + length)

/-- The three `set_header` calls that `remote_read_cb` (lines 168-176) and
`send_control_packet` (lines 99-108) both make on a fresh packet buffer:
`htonl(session_id)`, the `rsv` byte, the 16-bit `datalen` in network order.
Returns the buffer and the offset reached. -/
def write_header (session_id rsv datalen : Nat) : List Nat × Nat :=
  let offset := 0
  let pkt_buf : List Nat := []
  let session_id_tmp := htonl (session_id % 4294967296)
  let (pkt_buf, offset) := set_header pkt_buf session_id_tmp ID_LEN offset
  let (pkt_buf, offset) := set_header pkt_buf [rsv % 256] RSV_LEN offset
  let (pkt_buf, offset) := set_header pkt_buf (htons (datalen % 65536)) DATALEN_LEN offset
  (pkt_buf, offset)

/-- The header decoder of `server_read_cb` (lines 393-397): session id, `rsv`,
and `datalen` through `ntohs`, read from `packet_buf` at `offset`.
Returns the triple and the offset reached. -/
def read_header (packet_buf : List Nat) (offset : Nat) : (Nat × Nat × Nat) × Nat :=
  let (session_id, offset) := get_id packet_buf ID_LEN offset
  let (rsv, offset) := get_header packet_buf RSV_LEN offset
  let (datalen, offset) := get_header packet_buf DATALEN_LEN offset
  ((session_id, rsv.getD 0 0, ntohs datalen), offset)


/-! ## Data model -/

/-- The frame being parsed (`ctx->packet`, type declared in the absent `server.h`). -/
structure packet_t where
  session_id : Nat
  rsv : Nat
  datalen : Nat
  atyp : Nat
  addrlen : Nat
  payloadlen : Nat
  offset : Nat
deriving DecidableEq

/-- An element of a session's `send_queue`. -/
structure pending_packet_t where
  data : List Nat
  payloadlen : Nat
deriving DecidableEq

/-- An upstream session (`remote_ctx_t`).  `host` lists the first `addrlen`
bytes of the C array `host`.  `server_ctx` is true while the
back-reference to the tunnel is not NULL; `handle_closing` is what
`uv_is_closing(&handle)` returns (true from `uv_close` on); `handle_reading`
follows `uv_read_start` / `uv_read_stop`; `freed` is set by `free(remote_ctx)`
when the session stays in the tree of a torn-down tunnel.
Ghost: `tx` lists the buffers handed to `uv_write` on the upstream handle, in
call order; `rx` lists (cmd, payload) of the frames dispatched to the session,
in dispatch order; `inflight` counts upstream writes issued and not yet
completed; `connect_reqs` counts calls of `uv_tcp_connect`; `dns_reqs` counts
calls of `uv_getaddrinfo`. -/
structure remote_ctx_t where
  session_id : Nat
  host : List Nat
  addrlen : Nat
  port : List Nat
  resolved : Nat
  connected : Nat
  closing : Nat
  ctl_cmd : Nat
  send_queue : List pending_packet_t
  server_ctx : Bool
  handle_closing : Bool
  handle_reading : Bool
  freed : Bool
  tx : List (List Nat)
  rx : List (Nat × List Nat)
  inflight : Nat
  connect_reqs : Nat
  dns_reqs : Nat
deriving DecidableEq

/-- A tunnel (`server_ctx_t`).  `packet_buf` lists the bytes of the reassembly
buffer written since the last reset; `remote_map` is the session tree, kept in
increasing order of session id.  Ghost: `tx` lists the buffers handed to
`uv_write` on the tunnel handle, in call order. -/
structure server_ctx_t where
  packet_buf : List Nat
  buf_len : Nat
  expect_to_recv : Nat
  stage : Nat
  reset : Nat
  packet : packet_t
  remote_map : List remote_ctx_t
  handle_closing : Bool
  handle_reading : Bool
  tx : List (List Nat)
deriving DecidableEq

/-- The zeroed `packet_t`. -/
def packet_zero : packet_t :=
  { session_id := 0, rsv := 0, datalen := 0, atyp := 0, addrlen := 0, payloadlen := 0, offset := 0 }

/-- The tunnel state `server_accept_cb` leaves (lines 333-346): `calloc`,
`expect_to_recv = HDRLEN`, `RB_INIT`, `uv_read_start`. -/
def server_accept_cb : server_ctx_t :=
  { packet_buf := [], buf_len := 0, expect_to_recv := HDRLEN, stage := 0, reset := 0,
    packet := packet_zero, remote_map := [], handle_closing := false, handle_reading := true,
    tx := [] }

/-! ## Session tree (`RB_*` of the BSD tree macros, keyed by `session_cmp`) -/

/-- The lookup `RB_FIND(remote_map_tree, &map, &find_ctx)` with `find_ctx.session_id = sid`. -/
def RB_FIND (m : List remote_ctx_t) (sid : Nat) : Option remote_ctx_t :=
  m.find? (fun r => r.session_id == sid)

/-- The tree after `RB_INSERT(remote_map_tree, &map, elm)`: `elm` is linked at
its place in key order unless an element with the same key is present (then the
tree is unchanged and the macro returns that element, see `RB_FIND`). -/
def RB_INSERT : List remote_ctx_t → remote_ctx_t → List remote_ctx_t
  | [], elm => [elm]
  | x :: xs, elm =>
    if elm.session_id < x.session_id then elm :: x :: xs
    else if elm.session_id = x.session_id then x :: xs
    else x :: RB_INSERT xs elm

/-- The tree after `RB_REMOVE(remote_map_tree, &map, elm)` for the element with key `sid`. -/
def RB_REMOVE (m : List remote_ctx_t) (sid : Nat) : List remote_ctx_t :=
  m.filter (fun r => r.session_id != sid)

/-- A write through a session pointer: apply `f` to the session with key `sid`. -/
def update_remote (m : List remote_ctx_t) (sid : Nat) (f : remote_ctx_t → remote_ctx_t) :
    List remote_ctx_t :=
  m.map (fun r => if r.session_id = sid then f r else r)

/-! ## Helper macros acting on the state -/

/-- Modelled from the spec: the macro `packetnbuf_reset(ctx)` of `utils.h` (absent): the parser
is put back to READING_HEADER with an empty reassembly buffer and a cleared
packet; `reset` is set, so that the following reads of the same frame do not
reset again (the code clears `reset` itself when a frame is finished). -/
def packetnbuf_reset (ctx : server_ctx_t) : server_ctx_t :=
  { ctx with packet_buf := [], buf_len := 0, stage := 0, reset := 1, packet := packet_zero }

/-- Modelled from the spec: the macro `HANDLECLOSE(handle, cb)` of `utils.h` (absent) on a
session handle: `uv_close` unless the handle is already closing. -/
def HANDLECLOSE (r : remote_ctx_t) : remote_ctx_t :=
  if !r.handle_closing then { r with handle_closing := true, handle_reading := false } else r

/-- The call `uv_close((uv_handle_t*)&remote_ctx->handle, remote_after_close_cb)`: the handle
is closing from now on and reads stop; the callback runs in a later loop turn. -/
def uv_close_remote (r : remote_ctx_t) : remote_ctx_t :=
  { r with handle_closing := true, handle_reading := false }

/-- Modelled from the spec: the macros `ALLOCATE_W_REQ` and `UV_WRITE_CHECK` of `utils.h` (absent)
around `uv_write` on the upstream handle, as used at lines 226-232, 260-266 and
456-462: the head of `send_queue` is handed to `uv_write` (its `data`, for
`payloadlen` bytes) and unlinked from the queue.  `uv_write` is taken to accept
the request (return 0), where `UV_WRITE_CHECK` has nothing to do. -/
def write_head (r : remote_ctx_t) : remote_ctx_t :=
  match r.send_queue with
  | [] => r
  | packet :: rest =>
    { r with tx := r.tx ++ [packet.data.take packet.payloadlen], inflight := r.inflight + 1,
             send_queue := rest }

/-- Modelled from the spec: the macro `ALLOCATE_PACKET(pending_packet, payloadlen)` of `utils.h`
(absent) followed by the copy into its `data`: a queue element of `payloadlen` bytes. -/
def ALLOCATE_PACKET (data : List Nat) (payloadlen : Nat) : pending_packet_t :=
  { data := data, payloadlen := payloadlen }

/-! ## Callbacks -/

/-- The function `send_control_packet` (lines 97-112): a 7-byte frame
`session_id | cmd | 0` handed to `uv_write` on the tunnel (`datalen` is 0, the
same two bytes in host and in network order). -/
def send_control_packet (session_id : Nat) (ctx : server_ctx_t) (cmd : Nat) : server_ctx_t :=
  let datalen := 0
  let rsv := cmd
  let (pkt_buf, _) := write_header session_id rsv datalen
  { ctx with tx := ctx.tx ++ [pkt_buf.take HDRLEN] }

/-- The function `server_exception` (lines 74-95). -/
def server_exception (ctx : server_ctx_t) : server_ctx_t :=
  let ctx := { ctx with handle_reading := false }
  if !ctx.handle_closing then
    let each := fun (remote_ctx : remote_ctx_t) =>
      let remote_ctx := { remote_ctx with handle_reading := false }
      let remote_ctx := { remote_ctx with server_ctx := false }
      if !remote_ctx.handle_closing && remote_ctx.resolved == 1 then
        uv_close_remote remote_ctx
      else remote_ctx
    { ctx with remote_map := ctx.remote_map.map each, handle_closing := true }
  else ctx

/-- The function `remote_timeout_cb` (lines 48-60) for the session with key `sid`. -/
def remote_timeout_cb (ctx : server_ctx_t) (sid : Nat) : server_ctx_t :=
  { ctx with remote_map := update_remote ctx.remote_map sid (fun remote_ctx =>
      if !remote_ctx.handle_closing then
        if remote_ctx.resolved = 1 then uv_close_remote remote_ctx
        else { remote_ctx with closing := 1 }
      else remote_ctx) }

/-- The function `remote_after_close_cb` (lines 114-139) for the session with key `sid`. -/
def remote_after_close_cb (ctx : server_ctx_t) (sid : Nat) : server_ctx_t :=
  match RB_FIND ctx.remote_map sid with
  | none => ctx
  | some remote_ctx =>
    if remote_ctx.server_ctx then
      let ctx := { ctx with remote_map := RB_REMOVE ctx.remote_map sid }
      if CTL_CLOSE = remote_ctx.ctl_cmd then
        send_control_packet remote_ctx.session_id ctx CTL_CLOSE_ACK
      else if CTL_NORMAL = remote_ctx.ctl_cmd then
        send_control_packet remote_ctx.session_id ctx CTL_CLOSE
      else ctx
    else
      { ctx with remote_map := update_remote ctx.remote_map sid (fun r =>
          { r with send_queue := [], freed := true }) }

/-- The function `remote_read_cb` (lines 148-183) for the session with key `sid`:
`nread` is the result of the read and `buf` the bytes read. -/
def remote_read_cb (ctx : server_ctx_t) (sid : Nat) (nread : Int) (buf : List Nat) : server_ctx_t :=
  match RB_FIND ctx.remote_map sid with
  | none => ctx
  | some remote_ctx =>
    if nread ≤ 0 then
      if nread = 0 then ctx
      else
        { ctx with remote_map := update_remote ctx.remote_map sid (fun r =>
            HANDLECLOSE { r with connected := 0 }) }
    else
      if !remote_ctx.server_ctx then ctx
      else
        let packet_len := ID_LEN + RSV_LEN + DATALEN_LEN + nread.toNat
        let rsv := CTL_NORMAL
        let (pkt_buf, offset) := write_header remote_ctx.session_id rsv nread.toNat
        let (pkt_buf, _) := set_payload pkt_buf buf nread.toNat offset
        { ctx with tx := ctx.tx ++ [pkt_buf.take packet_len] }

/-- The function `server_write_cb` (lines 185-204). -/
def server_write_cb (ctx : server_ctx_t) (status : Int) : server_ctx_t :=
  if status ≠ 0 then
    if status ≠ UV_ECANCELED then
      if !ctx.handle_closing then server_exception ctx else ctx
    else ctx
  else ctx

/-- The function `remote_write_cb` (lines 206-242) for the session with key `sid`;
the completed request leaves the ghost count `inflight`. -/
def remote_write_cb (ctx : server_ctx_t) (sid : Nat) (status : Int) : server_ctx_t :=
  { ctx with remote_map := update_remote ctx.remote_map sid (fun remote_ctx =>
      let remote_ctx := { remote_ctx with inflight := remote_ctx.inflight - 1 }
      if status ≠ 0 then
        if status ≠ UV_ECANCELED then HANDLECLOSE { remote_ctx with connected := 0 }
        else remote_ctx
      else write_head remote_ctx) }

/-- The function `remote_on_connect_cb` (lines 244-270) for the session with key `sid`. -/
def remote_on_connect_cb (ctx : server_ctx_t) (sid : Nat) (status : Int) : server_ctx_t :=
  { ctx with remote_map := update_remote ctx.remote_map sid (fun remote_ctx =>
      if status ≠ 0 then
        if status ≠ UV_ECANCELED then HANDLECLOSE remote_ctx else remote_ctx
      else
        let remote_ctx := { remote_ctx with connected := 1 }
        let remote_ctx := { remote_ctx with handle_reading := true }
        write_head remote_ctx) }

/-- The function `try_to_connect_remote` (lines 272-284): one `uv_tcp_connect` request. -/
def try_to_connect_remote (remote_ctx : remote_ctx_t) : remote_ctx_t :=
  { remote_ctx with connect_reqs := remote_ctx.connect_reqs + 1 }

/-- The function `remote_addr_resolved_cb` (lines 286-326) for the session with
key `sid`: `status` is the lookup status, `ai_family` (2 for AF_INET, 10 for
AF_INET6) and `addr` the first result, `r` what `uv_tcp_connect` returns. -/
def remote_addr_resolved_cb (ctx : server_ctx_t) (sid : Nat) (status : Int) (ai_family : Nat)
    (addr : List Nat) (r : Int) : server_ctx_t :=
  { ctx with remote_map := update_remote ctx.remote_map sid (fun remote_ctx =>
      if status < 0 then
        if status ≠ UV_ECANCELED then HANDLECLOSE { remote_ctx with resolved := 0 }
        else remote_ctx
      else if remote_ctx.closing = 1 then
        HANDLECLOSE { remote_ctx with resolved := 0 }
      else
        let remote_ctx := { remote_ctx with resolved := 1 }
        let remote_ctx :=
          if ai_family = 2 then { remote_ctx with host := get_bytes addr 0 4, addrlen := 4 }
          else if ai_family = 10 then { remote_ctx with host := get_bytes addr 0 16, addrlen := 16 }
          else remote_ctx
        let remote_ctx := try_to_connect_remote remote_ctx
        if r ≠ 0 then HANDLECLOSE remote_ctx else remote_ctx) }


/-- The zeroed session `calloc(1, sizeof(remote_ctx_t))` gives (line 480). -/
def remote_ctx_zero : remote_ctx_t :=
  { session_id := 0, host := [], addrlen := 0, port := [], resolved := 0, connected := 0,
    closing := 0, ctl_cmd := 0, send_queue := [], server_ctx := false, handle_closing := false,
    handle_reading := false, freed := false, tx := [], rx := [], inflight := 0,
    connect_reqs := 0, dns_reqs := 0 }

/-- Lines 401-424 of `server_read_cb`: the header just decoded has `rsv == CTL_CLOSE`. -/
def server_read_cb_close (ctx : server_ctx_t) : server_ctx_t :=
  let ctx :=
    match RB_FIND ctx.remote_map ctx.packet.session_id with
    | some _ =>
      { ctx with remote_map := update_remote ctx.remote_map ctx.packet.session_id (fun exist_ctx =>
            let exist_ctx := { exist_ctx with ctl_cmd := CTL_CLOSE }
            let exist_ctx := { exist_ctx with handle_reading := false }
            if !exist_ctx.handle_closing then
              if exist_ctx.resolved = 1 then uv_close_remote exist_ctx
              else { exist_ctx with closing := 1 }
            else exist_ctx) }
    | none => send_control_packet ctx.packet.session_id ctx CTL_CLOSE_ACK
  let ctx := { ctx with reset := 0 }
  { ctx with expect_to_recv := EXP_TO_RECV_LEN }

/-- Modelled from the spec: `payloadlen` of `packet_t` (`server.h`, absent) is a 16-bit
unsigned field, as `datalen` is (spec: u16).  This is the value the assignment
`payloadlen = a - b` of line 496 stores in it: the difference modulo 2^16, so
`1 - 4` is stored as 65533. -/
def u16_sub (a b : Nat) : Nat :=
  (((a : Int) - (b : Int)) % 65536).toNat

/-- Lines 480-529 of `server_read_cb`: no session has the id of the complete
frame and its `rsv` is not `CTL_NORMAL`; a session is built from the body and
inserted.  The session is written here in its final state before `RB_INSERT`
(the C code goes on writing through the pointer after the insertion).
The queue element holds the `payloadlen` bytes found after the port, where
`payloadlen` is `datalen - (4 + addrlen)` modulo 2^16 (line 496): when the
body is shorter than the address and port it announces, that is a block of
up to 65535 bytes reaching past the frame.
Ghost: `rx` starts with the cmd of the frame and the payload of the wire
format, the bytes of the body that follow the address and port (none when the
body is shorter than that). -/
def server_read_cb_create (ctx : server_ctx_t) : Option server_ctx_t :=
  let remote_ctx : remote_ctx_t := { remote_ctx_zero with ctl_cmd := CTL_NORMAL, server_ctx := true }
  let (atyp, offset) := get_header ctx.packet_buf ATYP_LEN ctx.packet.offset
  let (addrlen, offset) := get_header ctx.packet_buf ADDRLEN_LEN offset
  let packet : packet_t := { ctx.packet with atyp := atyp.getD 0 0, addrlen := addrlen.getD 0 0 }
  let remote_ctx := { remote_ctx with addrlen := packet.addrlen }
  let (host, offset) := get_header ctx.packet_buf packet.addrlen offset
  let remote_ctx := { remote_ctx with host := host }
  let (port, offset) := get_header ctx.packet_buf PORT_LEN offset
  let remote_ctx := { remote_ctx with port := port }
  let packet : packet_t := { packet with
    payloadlen := u16_sub packet.datalen (ATYP_LEN + ADDRLEN_LEN + packet.addrlen + PORT_LEN) }
  let (data, offset) := get_payload ctx.packet_buf packet.payloadlen offset
  let pkt_to_send := ALLOCATE_PACKET data packet.payloadlen
  let packet : packet_t := { packet with offset := offset }
  let remote_ctx : remote_ctx_t := { remote_ctx with session_id := packet.session_id }
  if (RB_FIND ctx.remote_map remote_ctx.session_id).isSome then none
  else
    let remote_ctx : remote_ctx_t := { remote_ctx with
      send_queue := remote_ctx.send_queue ++ [pkt_to_send],
      rx := [(packet.rsv, get_bytes ctx.packet_buf (HDRLEN + 4 + ctx.packet_buf.getD (HDRLEN + 1) 0)
                (packet.datalen - (4 + ctx.packet_buf.getD (HDRLEN + 1) 0)))] }
    let remote_ctx :=
      if packet.atyp = 3 then { remote_ctx with dns_reqs := remote_ctx.dns_reqs + 1 }
      else if packet.atyp = 1 then try_to_connect_remote { remote_ctx with resolved := 1 }
      else remote_ctx
    some { ctx with packet := packet, remote_map := RB_INSERT ctx.remote_map remote_ctx }

/-- Lines 436-530 of `server_read_cb`: a complete frame (`buf_len == datalen + HDRLEN`).
Ghost: the session found gets (cmd, the `datalen` bytes after the header)
appended to `rx`. -/
def server_read_cb_dispatch (ctx : server_ctx_t) : Option server_ctx_t :=
  let ctx := { ctx with reset := 0 }
  let ctx := { ctx with expect_to_recv := HDRLEN }
  match RB_FIND ctx.remote_map ctx.packet.session_id with
  | some _ =>
    if ctx.packet.rsv = CTL_INIT then none
    else
      let packet := { ctx.packet with payloadlen := ctx.packet.datalen }
      let (data, offset) := get_header ctx.packet_buf packet.payloadlen packet.offset
      let pkt_to_send := ALLOCATE_PACKET data packet.payloadlen
      let packet := { packet with offset := offset }
      some { ctx with
        packet := packet,
        remote_map := update_remote ctx.remote_map ctx.packet.session_id (fun exist_ctx =>
          let exist_ctx := { exist_ctx with
            send_queue := exist_ctx.send_queue ++ [pkt_to_send],
            rx := exist_ctx.rx ++ [(ctx.packet.rsv, get_bytes ctx.packet_buf HDRLEN ctx.packet.datalen)] }
          if exist_ctx.resolved = 1 ∧ exist_ctx.connected = 1 then write_head exist_ctx
          else exist_ctx) }
  | none =>
    if ctx.packet.rsv = CTL_NORMAL then some { ctx with reset := 0 }
    else server_read_cb_create ctx

/-- Lines 372-547 of `server_read_cb`: a read of `nread > 0` bytes `buf`.
The result `none` is a failed `assert`. -/
def server_read_cb_data (ctx : server_ctx_t) (nread : Nat) (buf : List Nat) :
    Option server_ctx_t :=
  let ctx :=
    if ctx.reset = 0 then
      let ctx := packetnbuf_reset ctx
      { ctx with packet := { ctx.packet with offset := 0 } }
    else ctx
  let ctx := { ctx with packet_buf := memcpy_at ctx.packet_buf ctx.buf_len (buf.take nread) }
  let ctx := { ctx with buf_len := ctx.buf_len + nread }
  if ctx.stage = 0 then
    if ctx.buf_len ≥ EXP_TO_RECV_LEN then
      if ctx.buf_len > EXP_TO_RECV_LEN then none
      else
        let (hdr, offset) := read_header ctx.packet_buf ctx.packet.offset
        let ctx := { ctx with packet := { ctx.packet with
          session_id := hdr.1, rsv := hdr.2.1, datalen := hdr.2.2, offset := offset } }
        let ctx := { ctx with expect_to_recv := ctx.packet.datalen }
        let ctx := { ctx with stage := 1 }
        if ctx.packet.rsv = CTL_CLOSE then some (server_read_cb_close ctx)
        else some ctx
    else some { ctx with expect_to_recv := HDRLEN - ctx.buf_len }
  else if ctx.stage = 1 then
    if ctx.buf_len = ctx.packet.datalen + HDRLEN then server_read_cb_dispatch ctx
    else if ctx.buf_len < ctx.packet.datalen + HDRLEN then
      some { ctx with expect_to_recv := HDRLEN + ctx.packet.datalen - ctx.buf_len }
    else none
  else none

/-- The function `server_read_cb` (lines 358-549): `nread` is the result of the
read on the tunnel and `buf` the bytes read.  The result `none` is a failed `assert`. -/
def server_read_cb (ctx : server_ctx_t) (nread : Int) (buf : List Nat) : Option server_ctx_t :=
  if nread ≤ 0 then
    if nread = 0 then some ctx
    else if !ctx.handle_closing then some (server_exception ctx)
    else some ctx
  else server_read_cb_data ctx nread.toNat buf

/-- The buffer size `server_alloc_cb` (lines 350-355) offers for the next read. -/
def server_alloc_cb (ctx : server_ctx_t) : Nat :=
  ctx.expect_to_recv

/-! ## The reactor -/

/-- One read on the tunnel delivering exactly the bytes `chunk`. -/
def recv (ctx : server_ctx_t) (chunk : List Nat) : Option server_ctx_t :=
  server_read_cb ctx (chunk.length : Int) chunk

/-- Successive reads on the tunnel, stopping at a failed `assert`. -/
def recv_all : server_ctx_t → List (List Nat) → Option server_ctx_t
  | ctx, [] => some ctx
  | ctx, chunk :: rest =>
    match recv ctx chunk with
    | none => none
    | some ctx1 => recv_all ctx1 rest

/-- Every read of the sequence is non-empty and fits the buffer `server_alloc_cb`
offered for it (nothing is asked of the reads that follow a failed `assert`). -/
def reads_capped : server_ctx_t → List (List Nat) → Bool
  | _, [] => true
  | ctx, chunk :: rest =>
    decide (1 ≤ chunk.length) && (decide (chunk.length ≤ server_alloc_cb ctx) &&
      match recv ctx chunk with
      | none => true
      | some ctx1 => reads_capped ctx1 rest)

/-- A callback the event loop runs on a tunnel. -/
inductive event where
  | server_read (nread : Int) (buf : List Nat)
  | server_written (status : Int)
  | remote_read (sid : Nat) (nread : Int) (buf : List Nat)
  | remote_written (sid : Nat) (status : Int)
  | remote_connected (sid : Nat) (status : Int)
  | remote_resolved (sid : Nat) (status : Int) (ai_family : Nat) (addr : List Nat) (r : Int)
  | remote_timeout (sid : Nat)
  | remote_closed (sid : Nat)

/-- One turn of the event loop. -/
def step (ctx : server_ctx_t) : event → Option server_ctx_t
  | .server_read nread buf => server_read_cb ctx nread buf
  | .server_written status => some (server_write_cb ctx status)
  | .remote_read sid nread buf => some (remote_read_cb ctx sid nread buf)
  | .remote_written sid status => some (remote_write_cb ctx sid status)
  | .remote_connected sid status => some (remote_on_connect_cb ctx sid status)
  | .remote_resolved sid status ai_family addr r =>
      some (remote_addr_resolved_cb ctx sid status ai_family addr r)
  | .remote_timeout sid => some (remote_timeout_cb ctx sid)
  | .remote_closed sid => some (remote_after_close_cb ctx sid)

/-- A run of the event loop, stopping at a failed `assert`. -/
def run : server_ctx_t → List event → Option server_ctx_t
  | ctx, [] => some ctx
  | ctx, e :: es =>
    match step ctx e with
    | none => none
    | some ctx1 => run ctx1 es

/-! ## Intermediate parser states -/

/-- The parser state while the header is being gathered: the bytes `p` of it
have arrived since the frame boundary `ctx`. -/
def header_part (ctx : server_ctx_t) (p : List Nat) : server_ctx_t :=
  { ctx with packet_buf := p, buf_len := p.length, stage := 0, reset := 1,
             packet := packet_zero, expect_to_recv := HDRLEN - p.length }

/-- The parser state while the body is being gathered: the bytes `q` have
arrived since the state `s`. -/
def body_part (s : server_ctx_t) (q : List Nat) : server_ctx_t :=
  { s with packet_buf := s.packet_buf ++ q, buf_len := s.buf_len + q.length,
           expect_to_recv := HDRLEN + s.packet.datalen - (s.buf_len + q.length) }

/-- The parser state right after the header `hdr` of a frame that is not a
CLOSE has been decoded, counted from the frame boundary `ctx`. -/
def header_done (ctx : server_ctx_t) (hdr : List Nat) : server_ctx_t :=
  { ctx with packet_buf := hdr, buf_len := HDRLEN, stage := 1, reset := 1,
             packet := { packet_zero with session_id := (read_header hdr 0).1.1,
                                          rsv := (read_header hdr 0).1.2.1,
                                          datalen := (read_header hdr 0).1.2.2,
                                          offset := HDRLEN },
             expect_to_recv := (read_header hdr 0).1.2.2 }

/-- The parser state when the last byte of the body has been copied, before the
dispatch of the complete frame `hdr ++ body`. -/
def frame_done (ctx : server_ctx_t) (hdr body : List Nat) : server_ctx_t :=
  { header_done ctx hdr with packet_buf := hdr ++ body, buf_len := HDRLEN + body.length }

/-- The 7 header bytes of the wire format (spec, section 6): session id as a
big-endian u32, the cmd byte, datalen as a big-endian u16. -/
def wire_header (sid cmd len : Nat) : List Nat :=
  [sid / 16777216 % 256, sid / 65536 % 256, sid / 256 % 256, sid % 256, cmd % 256,
   len / 256 % 256, len % 256]

/-- The session `server_read_cb` builds (lines 480-524) from a frame with id
`sid` and cmd `rsv` whose body is `atyp | addrlen | addr | port | payload`. -/
def init_session (sid rsv atyp : Nat) (addr port payload : List Nat) : remote_ctx_t :=
  { remote_ctx_zero with
    session_id := sid, ctl_cmd := CTL_NORMAL, server_ctx := true,
    addrlen := addr.length, host := addr, port := port,
    send_queue := [{ data := payload, payloadlen := payload.length }],
    rx := [(rsv, payload)],
    resolved := if atyp = 3 then 0 else if atyp = 1 then 1 else 0,
    connect_reqs := if atyp = 3 then 0 else if atyp = 1 then 1 else 0,
    dns_reqs := if atyp = 3 then 1 else 0 }

/-- The body of an INIT frame in the wire format (spec, section 6). -/
def init_body (atyp : Nat) (addr port payload : List Nat) : List Nat :=
  [atyp, addr.length] ++ addr ++ port ++ payload

/-- The payloads waiting in a session's `send_queue`, head first. -/
def queued (r : remote_ctx_t) : List (List Nat) :=
  r.send_queue.map (fun p => p.data.take p.payloadlen)

/-- What holds of every session between callbacks: `ctl_cmd` is NORMAL or
CLOSE, and (until the session is freed) the payloads written upstream and the
payloads still queued are together as many as the frames dispatched to it. -/
def session_ok (r : remote_ctx_t) : Prop :=
  (r.ctl_cmd = CTL_NORMAL ∨ r.ctl_cmd = CTL_CLOSE) ∧
  (r.freed = false → r.tx.length + r.send_queue.length = r.rx.length)

/-- The offset bookkeeping of the parser inside a frame: the read offset is at
the start of the buffer while the header is gathered and right after the
header while the body is gathered. -/
def parser_ok (ctx : server_ctx_t) : Prop :=
  ctx.reset ≠ 0 →
    (ctx.stage = 0 → ctx.packet.offset = 0) ∧ (ctx.stage = 1 → ctx.packet.offset = HDRLEN)

/-- What holds of a tunnel between callbacks. -/
def tunnel_ok (ctx : server_ctx_t) : Prop :=
  parser_ok ctx ∧ ∀ r ∈ ctx.remote_map, session_ok r

/-! ## Scenarios of the spec, as runs of the event loop -/

/-- Scenario S1 up to the peer's CLOSE: the INIT frame of session 1 (header,
then body) followed by the frame `00000001 04 0000`. -/
def S1_events : List event :=
  [event.server_read 7 [0, 0, 0, 1, 1, 0, 10],
   event.server_read 10 [1, 4, 127, 0, 0, 1, 0, 80, 71, 69],
   event.server_read 7 [0, 0, 0, 1, 4, 0, 0]]

/-- The tunnel after `S1_events`. -/
def S1_state : server_ctx_t :=
  (run server_accept_cb S1_events).getD server_accept_cb

/-- The payloads of the INIT and NORMAL frames among the frames dispatched to
a session, in dispatch order. -/
def init_normal_payloads (r : remote_ctx_t) : List (List Nat) :=
  (r.rx.filter (fun f => f.1 == CTL_INIT || f.1 == CTL_NORMAL)).map Prod.snd

/-- A run in which a connected session receives a frame that is neither INIT
nor NORMAL: the INIT frame of scenario S1, the completion of the connect, then
the frame `00000001 05 0001 41` (cmd 0x05 with the body "A"). -/
def stray_events : List event :=
  [event.server_read 7 [0, 0, 0, 1, 1, 0, 10],
   event.server_read 10 [1, 4, 127, 0, 0, 1, 0, 80, 71, 69],
   event.remote_connected 1 0,
   event.server_read 7 [0, 0, 0, 1, 5, 0, 1],
   event.server_read 1 [65]]

/-- The tunnel after `stray_events`. -/
def stray_state : server_ctx_t :=
  (run server_accept_cb stray_events).getD server_accept_cb

/-- Session 1 after `stray_events`. -/
def stray_session : remote_ctx_t :=
  (RB_FIND stray_state.remote_map 1).getD remote_ctx_zero

/-- A run in which the tunnel is torn down while a name lookup is pending: the
frame `0000002A 01 0009 03 03 666F6F 0050 4745` (INIT of session 42 for the
name "foo", port 80, payload "GE"), a failed read on the tunnel (which calls
`server_exception`), the lookup returning 93.184.216.34 and the connect
completing. -/
def teardown_events : List event :=
  [event.server_read 7 [0, 0, 0, 42, 1, 0, 9],
   event.server_read 9 [3, 3, 102, 111, 111, 0, 80, 71, 69],
   event.server_read (-4095) [],
   event.remote_resolved 42 0 2 [93, 184, 216, 34] 0,
   event.remote_connected 42 0]

/-- The tunnel after the first three events of `teardown_events` (the teardown). -/
def teardown_state : server_ctx_t :=
  (run server_accept_cb (teardown_events.take 3)).getD server_accept_cb

/-- The tunnel after all of `teardown_events`. -/
def teardown_end_state : server_ctx_t :=
  (run server_accept_cb teardown_events).getD server_accept_cb

/-! ## Session ids in the table -/

/-- The session ids in the tree of a tunnel, in tree order. -/
def session_ids (ctx : server_ctx_t) : List Nat :=
  ctx.remote_map.map (fun r => r.session_id)

/-! ## The two halves of a read on the tunnel -/

/-- Lines 376-385 of `server_read_cb`: the reset left pending by the previous
frame, then the copy of the `nread` bytes read to `packet_buf + buf_len`. -/
def server_read_cb_copy (ctx : server_ctx_t) (nread : Nat) (buf : List Nat) : server_ctx_t :=
  let ctx :=
    if ctx.reset = 0 then
      let ctx := packetnbuf_reset ctx
      { ctx with packet := { ctx.packet with offset := 0 } }
    else ctx
  let ctx := { ctx with packet_buf := memcpy_at ctx.packet_buf ctx.buf_len (buf.take nread) }
  { ctx with buf_len := ctx.buf_len + nread }

/-- Lines 387-546 of `server_read_cb`: the header stage and the body stage, on
the state the copy leaves.  The three parser `assert(0)` are the results `none`
written out here (lines 390, 540 and 545); the dispatch can fail on its own. -/
def server_read_cb_stage (ctx : server_ctx_t) : Option server_ctx_t :=
  if ctx.stage = 0 then
    if ctx.buf_len ≥ EXP_TO_RECV_LEN then
      if ctx.buf_len > EXP_TO_RECV_LEN then none
      else
        let (hdr, offset) := read_header ctx.packet_buf ctx.packet.offset
        let ctx := { ctx with packet := { ctx.packet with
          session_id := hdr.1, rsv := hdr.2.1, datalen := hdr.2.2, offset := offset } }
        let ctx := { ctx with expect_to_recv := ctx.packet.datalen }
        let ctx := { ctx with stage := 1 }
        if ctx.packet.rsv = CTL_CLOSE then some (server_read_cb_close ctx)
        else some ctx
    else some { ctx with expect_to_recv := HDRLEN - ctx.buf_len }
  else if ctx.stage = 1 then
    if ctx.buf_len = ctx.packet.datalen + HDRLEN then server_read_cb_dispatch ctx
    else if ctx.buf_len < ctx.packet.datalen + HDRLEN then
      some { ctx with expect_to_recv := HDRLEN + ctx.packet.datalen - ctx.buf_len }
    else none
  else none

/-- Scenario S1 after the INIT frame of session 1 has been dispatched. -/
def S1_open_state : server_ctx_t :=
  (run server_accept_cb (S1_events.take 2)).getD server_accept_cb

/-- The tunnel after the INIT frame `00000009 01 0016 04 10 (::1) 0050 4745` of
session 9 (atyp 0x04, address ::1, port 80, payload "GE") on a fresh tunnel. -/
def ipv6_state : server_ctx_t :=
  (recv_all server_accept_cb
    [[0, 0, 0, 9, 1, 0, 22],
     [4, 16, 0, 0, 0, 0, 0, 0, 0, 0, 0, 0, 0, 0, 0, 0, 0, 1, 0, 80, 71, 69]]).getD
    server_accept_cb

/-- Scenario S1 with session 1 open, after the frame `00000001 02 0000`
(NORMAL with an empty body). -/
def zero_length_state : server_ctx_t :=
  (recv S1_open_state [0, 0, 0, 1, 2, 0, 0]).getD server_accept_cb

/-- What reads within the offered buffer keep true of the parser between reads:
the stage is 0 or 1 with `buf_len` within the header, respectively within the
frame; `expect_to_recv` is HDR when a reset is pending, and otherwise what is
missing of the header, respectively of the frame. -/
def parser_capped (ctx : server_ctx_t) : Prop :=
  ((ctx.stage = 0 ∧ ctx.buf_len ≤ HDRLEN) ∨
    (ctx.stage = 1 ∧ ctx.buf_len ≤ HDRLEN + ctx.packet.datalen)) ∧
  (ctx.reset = 0 → ctx.expect_to_recv = HDRLEN) ∧
  (ctx.reset ≠ 0 → ctx.stage = 0 → ctx.buf_len + ctx.expect_to_recv = HDRLEN) ∧
  (ctx.reset ≠ 0 → ctx.stage = 1 →
    ctx.buf_len + ctx.expect_to_recv = HDRLEN + ctx.packet.datalen)

/-- Scenario S7 after the header of the S1 frame and the first 3 bytes of its body. -/
def S7_state : server_ctx_t :=
  (recv_all server_accept_cb [[0, 0, 0, 1, 1, 0, 10], [1, 4, 127]]).getD server_accept_cb

/-- The upstream writes outstanding for a session are among the writes issued for it. -/
def writes_ok (r : remote_ctx_t) : Prop :=
  r.inflight ≤ r.tx.length

/-- A run in which a NORMAL frame reaches a session while a write is in
flight: the INIT frame of scenario S1, the completion of the connect (which
writes "GE" upstream), then the frame `00000001 02 0001 41` before that write
completes. -/
def busy_events : List event :=
  [event.server_read 7 [0, 0, 0, 1, 1, 0, 10],
   event.server_read 10 [1, 4, 127, 0, 0, 1, 0, 80, 71, 69],
   event.remote_connected 1 0,
   event.server_read 7 [0, 0, 0, 1, 2, 0, 1],
   event.server_read 1 [65]]

/-- The tunnel after `busy_events`. -/
def busy_state : server_ctx_t :=
  (run server_accept_cb busy_events).getD server_accept_cb

/-- Session 1 after `busy_events`. -/
def busy_session : remote_ctx_t :=
  (RB_FIND busy_state.remote_map 1).getD remote_ctx_zero

/-! ## Per-session FIFO delivery -/

/-- FIFO delivery for the session with id `sid`: (until the session is freed)
the payloads written upstream followed by the payloads still queued are the
payloads of the frames dispatched to it, in dispatch order. -/
def session_fifo (sid : Nat) (r : remote_ctx_t) : Prop :=
  r.session_id = sid → r.freed = false → r.tx ++ queued r = r.rx.map Prod.snd

/-- The parser state `k` (after the copy of a read) holds a complete frame that
creates session `sid` from a body shorter than the address and port it
announces: the dispatch of line 435 is reached, the frame has the id `sid`, no
session has that id, the cmd is not NORMAL, and `datalen < 4 + addrlen` where
`addrlen` is the second byte of the body (or `datalen` is not a u16). -/
def init_short (sid : Nat) (k : server_ctx_t) : Bool :=
  decide (k.stage = 1 ∧ k.buf_len = k.packet.datalen + HDRLEN ∧ k.packet.session_id = sid ∧
    RB_FIND k.remote_map sid = none ∧ k.packet.rsv ≠ CTL_NORMAL ∧
    (k.packet.datalen < 4 + k.packet_buf.getD (HDRLEN + 1) 0 ∨ 65536 ≤ k.packet.datalen))

/-- The event is a read on the tunnel that completes such a frame for `sid`. -/
def event_short (sid : Nat) (ctx : server_ctx_t) : event → Bool
  | .server_read nread buf =>
    decide (0 < nread) && init_short sid (server_read_cb_copy ctx nread.toNat buf)
  | _ => false

/-- No event of the run creates session `sid` from a body shorter than the
address and port it announces (nothing is asked of the events that follow a
failed `assert`). -/
def inits_fit (sid : Nat) : server_ctx_t → List event → Bool
  | _, [] => true
  | ctx, e :: es =>
    !event_short sid ctx e &&
      match step ctx e with
      | none => true
      | some ctx1 => inits_fit sid ctx1 es

/-- A run in which session 2 is created from a frame whose body is shorter than
the address and port it announces: the frame `00000002 01 0001 01` (INIT with
the one-byte body 01). -/
def short_events : List event :=
  [event.server_read 7 [0, 0, 0, 2, 1, 0, 1],
   event.server_read 1 [1]]

/-- The tunnel after `short_events`. -/
def short_state : server_ctx_t :=
  (run server_accept_cb short_events).getD server_accept_cb

/-! ## The dispatch with the state of a failed assertion -/

/-- Lines 480-529 of `server_read_cb` as in `server_read_cb_create`, keeping
the state in which the process stops: `.error s` is the failed `assert(0)` of
line 506, reached in state `s` (the tree is as `RB_INSERT` found it and
nothing has been queued), `.ok s` the state at the end of the branch. -/
def server_read_cb_create_steps (ctx : server_ctx_t) : Except server_ctx_t server_ctx_t :=
  let remote_ctx : remote_ctx_t := { remote_ctx_zero with ctl_cmd := CTL_NORMAL, server_ctx := true }
  let (atyp, offset) := get_header ctx.packet_buf ATYP_LEN ctx.packet.offset
  let (addrlen, offset) := get_header ctx.packet_buf ADDRLEN_LEN offset
  let packet : packet_t := { ctx.packet with atyp := atyp.getD 0 0, addrlen := addrlen.getD 0 0 }
  let remote_ctx := { remote_ctx with addrlen := packet.addrlen }
  let (host, offset) := get_header ctx.packet_buf packet.addrlen offset
  let remote_ctx := { remote_ctx with host := host }
  let (port, offset) := get_header ctx.packet_buf PORT_LEN offset
  let remote_ctx := { remote_ctx with port := port }
  let packet : packet_t := { packet with
    payloadlen := u16_sub packet.datalen (ATYP_LEN + ADDRLEN_LEN + packet.addrlen + PORT_LEN) }
  let (data, offset) := get_payload ctx.packet_buf packet.payloadlen offset
  let pkt_to_send := ALLOCATE_PACKET data packet.payloadlen
  let packet : packet_t := { packet with offset := offset }
  let remote_ctx : remote_ctx_t := { remote_ctx with session_id := packet.session_id }
  if (RB_FIND ctx.remote_map remote_ctx.session_id).isSome then
    Except.error { ctx with packet := packet }
  else
    let remote_ctx : remote_ctx_t := { remote_ctx with
      send_queue := remote_ctx.send_queue ++ [pkt_to_send],
      rx := [(packet.rsv, get_bytes ctx.packet_buf (HDRLEN + 4 + ctx.packet_buf.getD (HDRLEN + 1) 0)
                (packet.datalen - (4 + ctx.packet_buf.getD (HDRLEN + 1) 0)))] }
    let remote_ctx :=
      if packet.atyp = 3 then { remote_ctx with dns_reqs := remote_ctx.dns_reqs + 1 }
      else if packet.atyp = 1 then try_to_connect_remote { remote_ctx with resolved := 1 }
      else remote_ctx
    Except.ok { ctx with packet := packet, remote_map := RB_INSERT ctx.remote_map remote_ctx }

/-- Lines 436-530 of `server_read_cb`, statement by statement, keeping the
state in which the process stops: `.error s` is a failed `assert(0)` reached in
state `s`, `.ok s` the state at the end of the dispatch.  In the branch of a
session found, the test of line 445 comes first; then the body is copied to a
queue element (lines 447-449), the element is linked at the tail of the
session's queue (line 452), and the head of the queue is written when the
session is resolved and connected (lines 455-466).
`server_read_cb_dispatch` is this function with the state of a failure
dropped. -/
def server_read_cb_dispatch_steps (ctx : server_ctx_t) : Except server_ctx_t server_ctx_t :=
  let ctx := { ctx with reset := 0 }
  let ctx := { ctx with expect_to_recv := HDRLEN }
  match RB_FIND ctx.remote_map ctx.packet.session_id with
  | some _ =>
    if ctx.packet.rsv = CTL_INIT then Except.error ctx
    else
      let rsv := ctx.packet.rsv
      let datalen := ctx.packet.datalen
      let ctx := { ctx with packet := { ctx.packet with payloadlen := ctx.packet.datalen } }
      let (data, offset) := get_header ctx.packet_buf ctx.packet.payloadlen ctx.packet.offset
      let pkt_to_send := ALLOCATE_PACKET data ctx.packet.payloadlen
      let ctx := { ctx with packet := { ctx.packet with offset := offset } }
      let ctx := { ctx with
        remote_map := update_remote ctx.remote_map ctx.packet.session_id (fun exist_ctx =>
          { exist_ctx with
            send_queue := exist_ctx.send_queue ++ [pkt_to_send],
            rx := exist_ctx.rx ++ [(rsv, get_bytes ctx.packet_buf HDRLEN datalen)] }) }
      let ctx := { ctx with
        remote_map := update_remote ctx.remote_map ctx.packet.session_id (fun exist_ctx =>
          if exist_ctx.resolved = 1 ∧ exist_ctx.connected = 1 then write_head exist_ctx
          else exist_ctx) }
      Except.ok ctx
  | none =>
    if ctx.packet.rsv = CTL_NORMAL then Except.ok { ctx with reset := 0 }
    else server_read_cb_create_steps ctx

/-! ## Theorems -/


theorem write_header_bytes (sid rsv len : Nat) :
    write_header sid rsv len
      = (htonl (sid % 4294967296) ++ [rsv % 256] ++ htons (len % 65536), 7) := by
  simp [write_header, set_header, memcpy_at, htonl, htons, ID_LEN, RSV_LEN, DATALEN_LEN]

/-- C1: the header codec is a round trip both ways: decoding the 7 bytes the
encoder writes for (sid, cmd, len) gives back (sid, cmd, len), and encoding the
triple decoded from any 7 bytes gives back those bytes. -/
theorem header_codec_round_trip :
    (∀ sid cmd len : Nat, sid < 2 ^ 32 → cmd < 2 ^ 8 → len < 2 ^ 16 →
      (read_header (write_header sid cmd len).1 0).1 = (sid, cmd, len)) ∧
    (∀ b : List Nat, b.length = 7 → (∀ x ∈ b, x < 256) →
      (write_header (read_header b 0).1.1 (read_header b 0).1.2.1
        (read_header b 0).1.2.2).1 = b) := by
  constructor
  · intro sid cmd len hs hc hl
    rw [write_header_bytes]
    simp [read_header, get_id, get_header, get_bytes, ntohl, ntohs, htonl, htons,
      ID_LEN, RSV_LEN, DATALEN_LEN]
    omega
  · intro b hb hx
    rw [write_header_bytes]
    match b, hb with
    | [b0, b1, b2, b3, b4, b5, b6], _ =>
      simp at hx
      obtain ⟨h0, h1, h2, h3, h4, h5, h6⟩ := hx
      simp [read_header, get_id, get_header, get_bytes, ntohl, ntohs, htonl, htons,
        ID_LEN, RSV_LEN, DATALEN_LEN]
      omega

end Jedisocks

namespace Jedisocks

/-! ### Buffers -/

theorem memcpy_at_end (dst src : List Nat) : memcpy_at dst dst.length src = dst ++ src := by
  simp [memcpy_at]

theorem get_bytes_length (src : List Nat) (off len : Nat) :
    (get_bytes src off len).length = len := by
  simp [get_bytes]

theorem memcpy_at_nil (src : List Nat) : memcpy_at [] 0 src = src := by
  simp [memcpy_at]

theorem get_bytes_mid (a b c : List Nat) : get_bytes (a ++ b ++ c) a.length b.length = b := by
  simp [get_bytes]

theorem get_bytes_mid_of (a b c : List Nat) (off len : Nat) (ho : off = a.length)
    (hl : len = b.length) : get_bytes (a ++ b ++ c) off len = b := by
  subst ho hl
  exact get_bytes_mid a b c

/-! ### Reads on the tunnel -/

theorem recv_data (ctx : server_ctx_t) (c : List Nat) (hc : c ≠ []) :
    recv ctx c = server_read_cb_data ctx c.length c := by
  have : 0 < c.length := List.length_pos.mpr hc
  have h : ¬ ((c.length : Int) ≤ 0) := by omega
  simp [recv, server_read_cb, h]

theorem recv_header_part_start (ctx : server_ctx_t) (p : List Nat) (h0 : ctx.reset = 0)
    (hp : p ≠ []) (hlen : p.length < 7) : recv ctx p = some (header_part ctx p) := by
  rw [recv_data ctx p hp]
  have h7 : ¬ (7 ≤ p.length) := by omega
  simp [server_read_cb_data, h0, packetnbuf_reset, memcpy_at_nil, EXP_TO_RECV_LEN, header_part,
    h7, HDRLEN, packet_zero]

theorem recv_header_part (ctx : server_ctx_t) (p c : List Nat) (h0 : ctx.reset = 0)
    (hc : c ≠ []) : recv (header_part ctx p) c = recv ctx (p ++ c) := by
  have hpc : p ++ c ≠ [] := by simp [hc]
  rw [recv_data _ c hc, recv_data _ _ hpc]
  have ht : List.take (p.length + c.length) (p ++ c) = p ++ c := by
    rw [← List.length_append]
    exact List.take_length _
  simp [server_read_cb_data, h0, packetnbuf_reset, memcpy_at_nil, memcpy_at_end, header_part,
    packet_zero, ht]

/-- Witness of C1: the header of scenario S2 and the CLOSE header of scenario S5. -/
theorem header_codec_round_trip_witness :
    (read_header (write_header 7 2 1).1 0).1 = (7, 2, 1) ∧
    (write_header (read_header [0, 0, 0, 254, 4, 0, 0] 0).1.1
        (read_header [0, 0, 0, 254, 4, 0, 0] 0).1.2.1
        (read_header [0, 0, 0, 254, 4, 0, 0] 0).1.2.2).1 = [0, 0, 0, 254, 4, 0, 0] :=
  ⟨header_codec_round_trip.1 7 2 1 (by decide) (by decide) (by decide),
   header_codec_round_trip.2 [0, 0, 0, 254, 4, 0, 0] rfl (by decide)⟩

theorem read_header_offset (b : List Nat) : (read_header b 0).2 = 7 := by
  simp [read_header, get_id, get_header, ID_LEN, RSV_LEN, DATALEN_LEN]

theorem recv_header (ctx : server_ctx_t) (hdr : List Nat) (h0 : ctx.reset = 0)
    (hlen : hdr.length = 7) :
    recv ctx hdr =
      if (read_header hdr 0).1.2.1 = CTL_CLOSE then
        some (server_read_cb_close (header_done ctx hdr))
      else some (header_done ctx hdr) := by
  have hne : hdr ≠ [] := by
    intro h
    simp [h] at hlen
  rw [recv_data ctx hdr hne]
  have ht : List.take 7 hdr = hdr := by
    rw [← hlen]
    exact List.take_length _
  simp [server_read_cb_data, h0, packetnbuf_reset, memcpy_at_nil, EXP_TO_RECV_LEN, header_done,
    hlen, HDRLEN, packet_zero, read_header_offset, ht]

theorem recv_body_part_start (s : server_ctx_t) (q : List Nat) (hst : s.stage = 1)
    (hr : s.reset ≠ 0) (hb : s.buf_len = s.packet_buf.length) (hq : q ≠ [])
    (hlt : s.buf_len + q.length < s.packet.datalen + 7) :
    recv s q = some (body_part s q) := by
  rw [recv_data s q hq]
  have h1 : ¬ (s.packet_buf.length + q.length = s.packet.datalen + 7) := by omega
  have h2 : s.packet_buf.length + q.length < s.packet.datalen + 7 := by omega
  simp [server_read_cb_data, hr, hst, hb, memcpy_at_end, body_part, HDRLEN, h1, h2]

theorem recv_body_part (s : server_ctx_t) (q c : List Nat) (hst : s.stage = 1)
    (hr : s.reset ≠ 0) (hb : s.buf_len = s.packet_buf.length) (hc : c ≠ []) :
    recv (body_part s q) c = recv s (q ++ c) := by
  have hqc : q ++ c ≠ [] := by simp [hc]
  rw [recv_data _ c hc, recv_data _ _ hqc]
  have ht : List.take (q.length + c.length) (q ++ c) = q ++ c := by
    rw [← List.length_append]
    exact List.take_length _
  have hm : memcpy_at (s.packet_buf ++ q) (s.packet_buf.length + q.length) c
      = s.packet_buf ++ q ++ c := by
    rw [← List.length_append]
    exact memcpy_at_end _ _
  simp [server_read_cb_data, hr, hst, hb, memcpy_at_end, body_part, HDRLEN, ht, hm,
    server_read_cb_dispatch, Nat.add_assoc]

theorem recv_all_body (s : server_ctx_t) (hst : s.stage = 1) (hr : s.reset ≠ 0)
    (hb : s.buf_len = s.packet_buf.length) :
    ∀ (cs : List (List Nat)) (q : List Nat),
      s.buf_len + q.length < s.packet.datalen + 7 →
      reads_capped (body_part s q) cs = true →
      s.buf_len + q.length + cs.flatten.length = s.packet.datalen + 7 →
      recv_all (body_part s q) cs = recv s (q ++ cs.flatten) := by
  intro cs
  induction cs with
  | nil =>
    intro q hlt _ htot
    simp at htot
    omega
  | cons c rest ih =>
    intro q hlt hcap htot
    simp only [reads_capped, Bool.and_eq_true, decide_eq_true_eq] at hcap
    obtain ⟨hc1, _, hrest⟩ := hcap
    have hc : c ≠ [] := by
      intro h
      simp [h] at hc1
    rw [recv_body_part s q c hst hr hb hc] at hrest
    simp only [recv_all]
    rw [recv_body_part s q c hst hr hb hc]
    simp only [List.flatten_cons, List.length_append] at htot
    by_cases hfull : s.buf_len + (q ++ c).length < s.packet.datalen + 7
    · have hqc : q ++ c ≠ [] := by simp [hc]
      rw [recv_body_part_start s (q ++ c) hst hr hb hqc hfull] at hrest ⊢
      simp only at hrest ⊢
      rw [ih (q ++ c) hfull hrest (by simp only [List.length_append]; omega)]
      simp
    · simp only [List.length_append] at hfull
      have hj : rest.flatten = [] := by
        apply List.eq_nil_of_length_eq_zero
        omega
      simp only [List.flatten_cons, hj, List.append_nil]
      cases hX : recv s (q ++ c) with
      | none => rfl
      | some ctx1 =>
        rw [hX] at hrest
        simp only at hrest ⊢
        cases rest with
        | nil => rfl
        | cons c2 r2 =>
          simp only [reads_capped, Bool.and_eq_true, decide_eq_true_eq] at hrest
          simp only [List.flatten_cons, List.append_eq_nil] at hj
          obtain ⟨h1, _⟩ := hrest
          rw [hj.1] at h1
          simp at h1

theorem body_part_nil (ctx : server_ctx_t) (hdr : List Nat) :
    body_part (header_done ctx hdr) [] = header_done ctx hdr := by
  simp [body_part, header_done, HDRLEN]

theorem recv_all_body_start (ctx : server_ctx_t) (hdr : List Nat) (cs : List (List Nat))
    (hlen : hdr.length = 7) (hd : 1 ≤ (read_header hdr 0).1.2.2) (hcap : reads_capped (header_done ctx hdr) cs = true)
    (htot : cs.flatten.length = (read_header hdr 0).1.2.2) :
    recv_all (header_done ctx hdr) cs = recv (header_done ctx hdr) cs.flatten := by
  have h := recv_all_body (header_done ctx hdr) (by simp [header_done]) (by simp [header_done])
    (by simp [header_done, HDRLEN, hlen]) cs []
  rw [body_part_nil] at h
  simp only [List.nil_append] at h
  apply h
  · simp only [header_done, HDRLEN, List.length_nil]
    omega
  · exact hcap
  · simp only [header_done, HDRLEN, List.length_nil]
    omega

theorem recv_all_frame_from (ctx : server_ctx_t) (hdr body : List Nat) (h0 : ctx.reset = 0)
    (hlen : hdr.length = 7) (hcmd : (read_header hdr 0).1.2.1 ≠ CTL_CLOSE)
    (hd : (read_header hdr 0).1.2.2 = body.length) (hb : 1 ≤ body.length) :
    ∀ (chunks : List (List Nat)) (p : List Nat), p.length < 7 →
      reads_capped (header_part ctx p) chunks = true →
      p ++ chunks.flatten = hdr ++ body →
      recv_all (header_part ctx p) chunks = recv_all ctx [hdr, body] := by
  intro chunks
  induction chunks with
  | nil =>
    intro p hp _ hj
    have := congrArg List.length hj
    simp at this
    omega
  | cons c rest ih =>
    intro p hp hcap hj
    simp only [reads_capped, Bool.and_eq_true, decide_eq_true_eq] at hcap
    obtain ⟨hc1, hc2, hrest⟩ := hcap
    have hc : c ≠ [] := by
      intro h
      simp [h] at hc1
    have hc7 : p.length + c.length ≤ 7 := by
      simp [server_alloc_cb, header_part, HDRLEN] at hc2
      omega
    rw [recv_header_part ctx p c h0 hc] at hrest
    simp only [recv_all]
    rw [recv_header_part ctx p c h0 hc]
    have hpc : p ++ c ≠ [] := by simp [hc]
    simp only [List.flatten_cons] at hj
    by_cases hlt : (p ++ c).length < 7
    · rw [recv_header_part_start ctx (p ++ c) h0 hpc hlt] at hrest ⊢
      simp only at hrest ⊢
      exact ih (p ++ c) hlt hrest (by simpa using hj)
    · have h7 : (p ++ c).length = 7 := by
        simp only [List.length_append] at hlt ⊢
        omega
      have hsplit : p ++ c = hdr ∧ rest.flatten = body := by
        rw [← List.append_assoc] at hj
        exact List.append_inj hj (by rw [h7, hlen])
      obtain ⟨hh, hbody⟩ := hsplit
      rw [hh] at hrest ⊢
      rw [recv_header ctx hdr h0 hlen, if_neg hcmd] at hrest ⊢
      simp only at hrest ⊢
      rw [recv_all_body_start ctx hdr rest hlen (by omega) hrest (by rw [hbody, hd]), hbody]
      cases recv (header_done ctx hdr) body <;> rfl

theorem recv_all_frame (ctx : server_ctx_t) (hdr body : List Nat) (chunks : List (List Nat))
    (h0 : ctx.reset = 0) (he : ctx.expect_to_recv = HDRLEN)
    (hlen : hdr.length = 7) (hcmd : (read_header hdr 0).1.2.1 ≠ CTL_CLOSE)
    (hd : (read_header hdr 0).1.2.2 = body.length) (hb : 1 ≤ body.length)
    (hcap : reads_capped ctx chunks = true) (hj : chunks.flatten = hdr ++ body) :
    recv_all ctx chunks = recv_all ctx [hdr, body] := by
  cases chunks with
  | nil =>
    have := congrArg List.length hj
    simp at this
    omega
  | cons c rest =>
    have hcap0 := hcap
    simp only [reads_capped, Bool.and_eq_true, decide_eq_true_eq] at hcap
    obtain ⟨hc1, hc2, hrest⟩ := hcap
    have hc : c ≠ [] := by
      intro h
      simp [h] at hc1
    have hr := recv_header_part ctx [] c h0 hc
    simp only [List.nil_append] at hr
    have key := recv_all_frame_from ctx hdr body h0 hlen hcmd hd hb (c :: rest) [] (by simp)
      (by
        simp only [reads_capped, Bool.and_eq_true, decide_eq_true_eq]
        refine ⟨hc1, ?_, ?_⟩
        · simp only [server_alloc_cb, header_part, HDRLEN] at hc2 ⊢
          simp only [server_alloc_cb, he, HDRLEN] at hc2
          simpa using hc2
        · rw [hr]
          exact hrest)
      (by simpa using hj)
    simp only [recv_all] at key ⊢
    rw [hr] at key
    exact key

theorem recv_body (ctx : server_ctx_t) (hdr body : List Nat) (hlen : hdr.length = 7)
    (hb : body ≠ []) (hd : (read_header hdr 0).1.2.2 = body.length) :
    recv (header_done ctx hdr) body = server_read_cb_dispatch (frame_done ctx hdr body) := by
  rw [recv_data _ body hb]
  have hm : memcpy_at hdr 7 body = hdr ++ body := by
    rw [← hlen]
    exact memcpy_at_end _ _
  simp [server_read_cb_data, header_done, frame_done, HDRLEN, hm, hd, Nat.add_comm]

theorem recv_all_header_from (ctx : server_ctx_t) (hdr : List Nat) (h0 : ctx.reset = 0)
    (hlen : hdr.length = 7) :
    ∀ (chunks : List (List Nat)) (p : List Nat), p.length < 7 →
      reads_capped (header_part ctx p) chunks = true →
      p ++ chunks.flatten = hdr →
      recv_all (header_part ctx p) chunks = recv ctx hdr := by
  intro chunks
  induction chunks with
  | nil =>
    intro p hp _ hj
    have := congrArg List.length hj
    simp at this
    omega
  | cons c rest ih =>
    intro p hp hcap hj
    simp only [reads_capped, Bool.and_eq_true, decide_eq_true_eq] at hcap
    obtain ⟨hc1, _, hrest⟩ := hcap
    have hc : c ≠ [] := by
      intro h
      simp [h] at hc1
    rw [recv_header_part ctx p c h0 hc] at hrest
    simp only [recv_all]
    rw [recv_header_part ctx p c h0 hc]
    have hpc : p ++ c ≠ [] := by simp [hc]
    simp only [List.flatten_cons] at hj
    have hjl := congrArg List.length hj
    simp only [List.length_append] at hjl
    by_cases hlt : (p ++ c).length < 7
    · rw [recv_header_part_start ctx (p ++ c) h0 hpc hlt] at hrest ⊢
      simp only at hrest ⊢
      exact ih (p ++ c) hlt hrest (by simpa using hj)
    · simp only [List.length_append] at hlt
      have hr0 : rest.flatten = [] := by
        apply List.eq_nil_of_length_eq_zero
        omega
      rw [hr0, List.append_nil] at hj
      rw [hj] at hrest ⊢
      cases hX : recv ctx hdr with
      | none => rfl
      | some ctx1 =>
        rw [hX] at hrest
        simp only at hrest ⊢
        cases rest with
        | nil => rfl
        | cons c2 r2 =>
          simp only [reads_capped, Bool.and_eq_true, decide_eq_true_eq] at hrest
          simp only [List.flatten_cons, List.append_eq_nil] at hr0
          obtain ⟨h1, _⟩ := hrest
          rw [hr0.1] at h1
          simp at h1

theorem recv_all_header (ctx : server_ctx_t) (hdr : List Nat) (chunks : List (List Nat))
    (h0 : ctx.reset = 0) (he : ctx.expect_to_recv = HDRLEN) (hlen : hdr.length = 7)
    (hcap : reads_capped ctx chunks = true) (hj : chunks.flatten = hdr) :
    recv_all ctx chunks = recv ctx hdr := by
  cases chunks with
  | nil =>
    have := congrArg List.length hj
    simp at this
    omega
  | cons c rest =>
    simp only [reads_capped, Bool.and_eq_true, decide_eq_true_eq] at hcap
    obtain ⟨hc1, hc2, hrest⟩ := hcap
    have hc : c ≠ [] := by
      intro h
      simp [h] at hc1
    have hr := recv_header_part ctx [] c h0 hc
    simp only [List.nil_append] at hr
    have key := recv_all_header_from ctx hdr h0 hlen (c :: rest) [] (by simp)
      (by
        simp only [reads_capped, Bool.and_eq_true, decide_eq_true_eq]
        refine ⟨hc1, ?_, ?_⟩
        · simp only [server_alloc_cb, he, HDRLEN] at hc2
          simpa [server_alloc_cb, header_part, HDRLEN] using hc2
        · rw [hr]
          exact hrest)
      (by simpa using hj)
    simp only [recv_all] at key ⊢
    rw [hr] at key
    exact key

/-! ### The wire header -/

theorem write_header_wire (sid cmd len : Nat) :
    write_header sid cmd len = (wire_header sid cmd len, 7) := by
  rw [write_header_bytes]
  simp only [htonl, htons, wire_header, List.cons_append, List.nil_append, Prod.mk.injEq,
    List.cons.injEq, and_true, true_and]
  omega

theorem wire_header_length (sid cmd len : Nat) : (wire_header sid cmd len).length = 7 := rfl

theorem read_header_wire (sid cmd len : Nat) (hs : sid < 2 ^ 32) (hc : cmd < 2 ^ 8)
    (hl : len < 2 ^ 16) : (read_header (wire_header sid cmd len) 0).1 = (sid, cmd, len) := by
  simp [read_header, get_id, get_header, get_bytes, ntohl, ntohs, wire_header,
    ID_LEN, RSV_LEN, DATALEN_LEN]
  omega

/-- C3: the incremental reader is insensitive to fragmentation: from a frame
boundary, any split of a frame with a body (header of 7 bytes whose cmd is not
CLOSE, datalen = body length >= 1) into non-empty reads that each fit the
offered buffer leaves the tunnel in exactly the state (parser, session table,
queues, emitted buffers, or failed assert) reached when the header comes in
one read and the body in one read, which is the dispatch of the complete frame
`hdr ++ body` with the decoded (session_id, cmd, datalen). -/
theorem server_read_cb_fragmentation (ctx : server_ctx_t) (hdr body : List Nat)
    (chunks : List (List Nat)) (h0 : ctx.reset = 0) (he : ctx.expect_to_recv = HDRLEN)
    (hlen : hdr.length = 7) (hcmd : (read_header hdr 0).1.2.1 ≠ CTL_CLOSE)
    (hd : (read_header hdr 0).1.2.2 = body.length) (hb : 1 ≤ body.length)
    (hcap : reads_capped ctx chunks = true) (hj : chunks.flatten = hdr ++ body) :
    recv_all ctx chunks = recv_all ctx [hdr, body] ∧
    recv_all ctx chunks = server_read_cb_dispatch (frame_done ctx hdr body) := by
  have hne : body ≠ [] := by
    intro h
    simp [h] at hb
  have hsplit : recv_all ctx chunks = recv_all ctx [hdr, body] := by
    cases chunks with
    | nil =>
      have := congrArg List.length hj
      simp at this
      omega
    | cons c rest =>
      simp only [reads_capped, Bool.and_eq_true, decide_eq_true_eq] at hcap
      obtain ⟨hc1, hc2, hrest⟩ := hcap
      have hc : c ≠ [] := by
        intro h
        simp [h] at hc1
      have hr := recv_header_part ctx [] c h0 hc
      simp only [List.nil_append] at hr
      have key := recv_all_frame_from ctx hdr body h0 hlen hcmd hd hb (c :: rest) [] (by simp)
        (by
          simp only [reads_capped, Bool.and_eq_true, decide_eq_true_eq]
          refine ⟨hc1, ?_, ?_⟩
          · simp only [server_alloc_cb, he, HDRLEN] at hc2
            simpa [server_alloc_cb, header_part, HDRLEN] using hc2
          · rw [hr]
            exact hrest)
        (by simpa using hj)
      simp only [recv_all] at key ⊢
      rw [hr] at key
      exact key
  refine ⟨hsplit, ?_⟩
  rw [hsplit]
  simp only [recv_all]
  rw [recv_header ctx hdr h0 hlen, if_neg hcmd]
  simp only
  rw [recv_body ctx hdr body hlen hne hd]
  cases server_read_cb_dispatch (frame_done ctx hdr body) <;> rfl

/-- Witness of C3: the frame of scenario S1 delivered as 7 + 3 + 7 bytes. -/
theorem server_read_cb_fragmentation_witness :
    recv_all server_accept_cb
        [[0, 0, 0, 1, 1, 0, 10], [1, 4, 127], [0, 0, 1, 0, 80, 71, 69]]
      = recv_all server_accept_cb
        [[0, 0, 0, 1, 1, 0, 10], [1, 4, 127, 0, 0, 1, 0, 80, 71, 69]] ∧
    recv_all server_accept_cb
        [[0, 0, 0, 1, 1, 0, 10], [1, 4, 127], [0, 0, 1, 0, 80, 71, 69]]
      = server_read_cb_dispatch (frame_done server_accept_cb [0, 0, 0, 1, 1, 0, 10]
          [1, 4, 127, 0, 0, 1, 0, 80, 71, 69]) :=
  server_read_cb_fragmentation server_accept_cb [0, 0, 0, 1, 1, 0, 10]
    [1, 4, 127, 0, 0, 1, 0, 80, 71, 69]
    [[0, 0, 0, 1, 1, 0, 10], [1, 4, 127], [0, 0, 1, 0, 80, 71, 69]]
    rfl rfl rfl (by decide) (by decide) (by decide) (by decide) (by decide)

/-! ### The session tree -/

theorem RB_FIND_key (m : List remote_ctx_t) (sid : Nat) (r : remote_ctx_t)
    (h : RB_FIND m sid = some r) : r.session_id = sid := by
  have := List.find?_some h
  simpa using this

theorem RB_FIND_mem (m : List remote_ctx_t) (sid : Nat) (r : remote_ctx_t)
    (h : RB_FIND m sid = some r) : r ∈ m :=
  List.mem_of_find?_eq_some h

theorem RB_FIND_none (m : List remote_ctx_t) (sid : Nat) :
    RB_FIND m sid = none ↔ ∀ r ∈ m, r.session_id ≠ sid := by
  simp [RB_FIND]

theorem RB_FIND_nil (sid : Nat) : RB_FIND [] sid = none := rfl

theorem RB_FIND_cons (x : remote_ctx_t) (xs : List remote_ctx_t) (sid : Nat) :
    RB_FIND (x :: xs) sid = if x.session_id = sid then some x else RB_FIND xs sid := by
  by_cases h : x.session_id = sid <;> simp [RB_FIND, List.find?_cons, h]

theorem update_remote_cons (x : remote_ctx_t) (xs : List remote_ctx_t) (sid : Nat)
    (f : remote_ctx_t → remote_ctx_t) :
    update_remote (x :: xs) sid f
      = (if x.session_id = sid then f x else x) :: update_remote xs sid f := rfl

theorem RB_REMOVE_cons (x : remote_ctx_t) (xs : List remote_ctx_t) (sid : Nat) :
    RB_REMOVE (x :: xs) sid
      = if x.session_id = sid then RB_REMOVE xs sid else x :: RB_REMOVE xs sid := by
  by_cases h : x.session_id = sid <;> simp [RB_REMOVE, List.filter_cons, h]

theorem RB_FIND_update (m : List remote_ctx_t) (sid sid1 : Nat) (f : remote_ctx_t → remote_ctx_t)
    (hf : ∀ r, (f r).session_id = r.session_id) :
    RB_FIND (update_remote m sid f) sid1
      = if sid1 = sid then (RB_FIND m sid).map f else RB_FIND m sid1 := by
  induction m with
  | nil => simp [RB_FIND_nil, update_remote]
  | cons x xs ih =>
    rw [update_remote_cons, RB_FIND_cons, RB_FIND_cons, RB_FIND_cons, ih]
    by_cases hx : x.session_id = sid <;> by_cases h1 : sid1 = sid <;>
      by_cases h3 : x.session_id = sid1 <;> simp_all

theorem RB_FIND_remove (m : List remote_ctx_t) (sid sid1 : Nat) :
    RB_FIND (RB_REMOVE m sid) sid1 = if sid1 = sid then none else RB_FIND m sid1 := by
  induction m with
  | nil => simp [RB_FIND_nil, RB_REMOVE]
  | cons x xs ih =>
    rw [RB_REMOVE_cons, RB_FIND_cons]
    by_cases hx : x.session_id = sid <;> by_cases h1 : sid1 = sid <;>
      by_cases h3 : x.session_id = sid1 <;> simp_all [RB_FIND_cons]

theorem RB_INSERT_perm (m : List remote_ctx_t) (elm : remote_ctx_t)
    (h : RB_FIND m elm.session_id = none) : (RB_INSERT m elm).Perm (elm :: m) := by
  induction m with
  | nil => simp [RB_INSERT]
  | cons x xs ih =>
    rw [RB_FIND_none] at h
    have hx : x.session_id ≠ elm.session_id := h x (by simp)
    have hxs : RB_FIND xs elm.session_id = none := by
      rw [RB_FIND_none]
      intro r hr
      exact h r (by simp [hr])
    simp only [RB_INSERT]
    by_cases h1 : elm.session_id < x.session_id
    · simp [h1]
    · have h2 : ¬ (elm.session_id = x.session_id) := fun e => hx e.symm
      simp only [h1, h2, if_false]
      exact ((ih hxs).cons x).trans (List.Perm.swap elm x xs)

theorem RB_FIND_insert (m : List remote_ctx_t) (elm : remote_ctx_t) (sid1 : Nat)
    (h : RB_FIND m elm.session_id = none) :
    RB_FIND (RB_INSERT m elm) sid1
      = if sid1 = elm.session_id then some elm else RB_FIND m sid1 := by
  induction m with
  | nil =>
    simp only [RB_INSERT, RB_FIND_cons, RB_FIND_nil]
    by_cases h1 : sid1 = elm.session_id <;> simp_all [eq_comm]
  | cons x xs ih =>
    rw [RB_FIND_cons] at h
    have hx : ¬ (x.session_id = elm.session_id) := by
      intro e
      simp [e] at h
    simp only [hx, if_false] at h
    have ih := ih h
    simp only [RB_INSERT]
    have h2 : ¬ (elm.session_id = x.session_id) := fun e => hx e.symm
    by_cases h1 : elm.session_id < x.session_id
    · simp only [h1, if_true, RB_FIND_cons]
      by_cases h3 : sid1 = elm.session_id <;> simp_all [eq_comm]
    · simp only [h1, h2, if_false, RB_FIND_cons, ih]
      by_cases h3 : sid1 = elm.session_id <;> by_cases h5 : x.session_id = sid1 <;> simp_all

/-- C2: an upstream read of n bytes d (1 <= n <= 65535) on a session attached to
a live tunnel hands the tunnel writer exactly one buffer, of length 7 + n: the
session id as 4 big-endian bytes, 0x02, n as 2 big-endian bytes, then d. -/
theorem remote_read_cb_normal_frame (ctx : server_ctx_t) (sid : Nat) (remote_ctx : remote_ctx_t)
    (d : List Nat) (hfind : RB_FIND ctx.remote_map sid = some remote_ctx)
    (hlive : remote_ctx.server_ctx = true) (hsid : sid < 2 ^ 32)
    (h1 : 1 ≤ d.length) (h2 : d.length ≤ 65535) :
    (remote_read_cb ctx sid (d.length : Int) d).tx
        = ctx.tx ++ [[sid / 16777216, sid / 65536 % 256, sid / 256 % 256, sid % 256, 2,
                      d.length / 256, d.length % 256] ++ d] ∧
    ([sid / 16777216, sid / 65536 % 256, sid / 256 % 256, sid % 256, 2,
        d.length / 256, d.length % 256] ++ d).length = 7 + d.length := by
  have hk := RB_FIND_key _ _ _ hfind
  have hn : ¬ ((d.length : Int) ≤ 0) := by omega
  have hm : memcpy_at (wire_header sid CTL_NORMAL d.length) 7 d
      = wire_header sid CTL_NORMAL d.length ++ d := memcpy_at_end _ _
  have ht : List.take (ID_LEN + RSV_LEN + DATALEN_LEN + d.length)
      (wire_header sid CTL_NORMAL d.length ++ d) = wire_header sid CTL_NORMAL d.length ++ d := by
    apply List.take_of_length_le
    simp [wire_header, ID_LEN, RSV_LEN, DATALEN_LEN]
    omega
  constructor
  · simp only [remote_read_cb, hfind, hn, if_false, hlive, Bool.not_true, hk, write_header_wire,
      set_payload, Int.toNat_ofNat, List.take_length, hm, ht]
    simp only [wire_header, CTL_NORMAL, Bool.false_eq_true, if_false, List.cons_append,
      List.nil_append]
    have e1 : sid / 16777216 % 256 = sid / 16777216 := by omega
    have e2 : d.length / 256 % 256 = d.length / 256 := by omega
    rw [e1, e2]
  · simp
    omega

/-- Witness of C2: scenario S2, session 7 reads "X" from upstream. -/
theorem remote_read_cb_normal_frame_witness :
    (remote_read_cb
        { server_accept_cb with remote_map :=
            [{ remote_ctx_zero with session_id := 7, server_ctx := true }] } 7 1 [88]).tx
      = [[0, 0, 0, 7, 2, 0, 1, 88]] := by
  have h := (remote_read_cb_normal_frame
    { server_accept_cb with remote_map :=
        [{ remote_ctx_zero with session_id := 7, server_ctx := true }] } 7
    { remote_ctx_zero with session_id := 7, server_ctx := true } [88] rfl rfl (by decide)
    (by decide) (by decide)).1
  exact h

/-- C4: a CLOSE header for a session id that is not in the session table
(any datalen, any split of its 7 bytes into reads) makes the server hand the
tunnel writer exactly one buffer, sid (big-endian u32) | 0x05 | 0x0000, and
leaves the session table as it was. -/
theorem close_unknown_session_acks (ctx : server_ctx_t) (sid len : Nat)
    (chunks : List (List Nat)) (h0 : ctx.reset = 0) (he : ctx.expect_to_recv = HDRLEN)
    (hs : sid < 2 ^ 32) (hl : len < 2 ^ 16) (hnot : RB_FIND ctx.remote_map sid = none)
    (hcap : reads_capped ctx chunks = true)
    (hj : chunks.flatten = wire_header sid CTL_CLOSE len) :
    ∃ ctx1, recv_all ctx chunks = some ctx1 ∧
      ctx1.tx = ctx.tx ++ [[sid / 16777216, sid / 65536 % 256, sid / 256 % 256, sid % 256,
                            5, 0, 0]] ∧
      ctx1.remote_map = ctx.remote_map := by
  have hh := read_header_wire sid CTL_CLOSE len hs (by decide) hl
  have h1 : (read_header (wire_header sid CTL_CLOSE len) 0).1.1 = sid := by rw [hh]
  have h2 : (read_header (wire_header sid CTL_CLOSE len) 0).1.2.1 = CTL_CLOSE := by rw [hh]
  rw [recv_all_header ctx _ chunks h0 he (wire_header_length _ _ _) hcap hj,
    recv_header ctx _ h0 (wire_header_length _ _ _), if_pos h2]
  refine ⟨_, rfl, ?_, ?_⟩
  · simp only [server_read_cb_close, header_done, h1, hnot, send_control_packet,
      write_header_wire]
    simp only [wire_header, CTL_CLOSE_ACK, HDRLEN]
    have e1 : sid / 16777216 % 256 = sid / 16777216 := by omega
    simp [e1]
  · simp only [server_read_cb_close, header_done, h1, hnot, send_control_packet,
      write_header_wire]

/-- Witness of C4: scenario S5, the peer sends 000000FE 04 0000 on a fresh tunnel. -/
theorem close_unknown_session_acks_witness :
    ∃ ctx1, recv_all server_accept_cb [[0, 0, 0, 254, 4, 0, 0]] = some ctx1 ∧
      ctx1.tx = server_accept_cb.tx ++ [[254 / 16777216, 254 / 65536 % 256, 254 / 256 % 256,
                                         254 % 256, 5, 0, 0]] ∧
      ctx1.remote_map = server_accept_cb.remote_map :=
  close_unknown_session_acks server_accept_cb 254 0 [[0, 0, 0, 254, 4, 0, 0]] rfl rfl
    (by decide) (by decide) rfl (by decide) (by decide)

/-- C5: the dispatch of a complete NORMAL frame whose session id is not in the
session table hands nothing to the tunnel writer, leaves the session table (and
so every session and every pending queue) as it was and leaves the parser
waiting for a header (expect_to_recv = HDR, reset pending); and this is what a
NORMAL frame with a body does when it arrives, in any split into reads, at a
frame boundary. -/
theorem normal_unknown_session_dropped :
    (∀ ctx : server_ctx_t, ctx.packet.rsv = CTL_NORMAL →
      RB_FIND ctx.remote_map ctx.packet.session_id = none →
      ∃ ctx1, server_read_cb_dispatch ctx = some ctx1 ∧ ctx1.tx = ctx.tx ∧
        ctx1.remote_map = ctx.remote_map ∧ ctx1.expect_to_recv = HDRLEN ∧ ctx1.reset = 0) ∧
    (∀ (ctx : server_ctx_t) (sid : Nat) (body : List Nat) (chunks : List (List Nat)),
      ctx.reset = 0 → ctx.expect_to_recv = HDRLEN → sid < 2 ^ 32 →
      1 ≤ body.length → body.length < 2 ^ 16 →
      RB_FIND ctx.remote_map sid = none →
      reads_capped ctx chunks = true →
      chunks.flatten = wire_header sid CTL_NORMAL body.length ++ body →
      ∃ ctx1, recv_all ctx chunks = some ctx1 ∧ ctx1.tx = ctx.tx ∧
        ctx1.remote_map = ctx.remote_map ∧ ctx1.expect_to_recv = HDRLEN ∧ ctx1.reset = 0) := by
  have hdisp : ∀ ctx : server_ctx_t, ctx.packet.rsv = CTL_NORMAL →
      RB_FIND ctx.remote_map ctx.packet.session_id = none →
      ∃ ctx1, server_read_cb_dispatch ctx = some ctx1 ∧ ctx1.tx = ctx.tx ∧
        ctx1.remote_map = ctx.remote_map ∧ ctx1.expect_to_recv = HDRLEN ∧ ctx1.reset = 0 := by
    intro ctx hr hn
    refine ⟨{ ctx with reset := 0, expect_to_recv := HDRLEN }, ?_, rfl, rfl, rfl, rfl⟩
    simp only [server_read_cb_dispatch, hn, hr, if_true]
  refine ⟨hdisp, ?_⟩
  intro ctx sid body chunks h0 he hs hb1 hb2 hnot hcap hj
  have hh := read_header_wire sid CTL_NORMAL body.length hs (by decide) hb2
  have h1 : (read_header (wire_header sid CTL_NORMAL body.length) 0).1.1 = sid := by rw [hh]
  have h2 : (read_header (wire_header sid CTL_NORMAL body.length) 0).1.2.1 = CTL_NORMAL := by
    rw [hh]
  have h3 : (read_header (wire_header sid CTL_NORMAL body.length) 0).1.2.2 = body.length := by
    rw [hh]
  have hne : body ≠ [] := by
    intro h
    simp [h] at hb1
  have hnc : (read_header (wire_header sid CTL_NORMAL body.length) 0).1.2.1 ≠ CTL_CLOSE := by
    rw [h2]
    decide
  rw [recv_all_frame ctx _ body chunks h0 he (wire_header_length _ _ _) hnc h3 hb1 hcap hj]
  simp only [recv_all]
  rw [recv_header ctx _ h0 (wire_header_length _ _ _), if_neg hnc]
  simp only
  rw [recv_body ctx _ body (wire_header_length _ _ _) hne h3]
  obtain ⟨ctx1, hc1, ht, hm, hx⟩ := hdisp (frame_done ctx (wire_header sid CTL_NORMAL body.length) body)
    (by simp [frame_done, header_done, h2])
    (by simp [frame_done, header_done, h1, hnot])
  rw [hc1]
  exact ⟨ctx1, rfl, by simpa [frame_done, header_done] using ht,
    by simpa [frame_done, header_done] using hm, hx⟩

/-- Witness of C5: scenario S4, the peer sends 000000FF 02 0003 414243 with no
prior INIT, on a fresh tunnel. -/
theorem normal_unknown_session_dropped_witness :
    ∃ ctx1, recv_all server_accept_cb [[0, 0, 0, 255, 2, 0, 3], [65, 66, 67]] = some ctx1 ∧
      ctx1.tx = server_accept_cb.tx ∧ ctx1.remote_map = server_accept_cb.remote_map ∧
      ctx1.expect_to_recv = HDRLEN ∧ ctx1.reset = 0 :=
  normal_unknown_session_dropped.2 server_accept_cb 255 [65, 66, 67]
    [[0, 0, 0, 255, 2, 0, 3], [65, 66, 67]] rfl rfl (by decide) (by decide) (by decide) rfl
    (by decide) (by decide)

/-! ### Session creation -/

theorem get_bytes_one (src : List Nat) (off : Nat) :
    (get_bytes src off 1).getD 0 0 = src.getD off 0 := by
  simp only [get_bytes]
  cases h : src.drop off with
  | nil =>
    have : src.length ≤ off := List.drop_eq_nil_iff.mp h
    simp [List.getElem?_eq_none this]
  | cons x xs =>
    have hlt : off < src.length := by
      by_contra hc
      have := List.drop_eq_nil_of_le (Nat.le_of_not_lt hc)
      rw [this] at h
      cases h
    have hx : src[off] = x := by
      have := List.getElem_drop (L := src) (i := off) (j := 0) (h := by simpa using hlt)
      simp [h] at this
      simpa using this.symm
    simp [List.getElem?_eq_getElem hlt, hx]

theorem take_get_bytes (src : List Nat) (off len : Nat) :
    (get_bytes src off len).take len = get_bytes src off len := by
  apply List.take_of_length_le
  rw [get_bytes_length]

theorem u16_sub_of_le (a b : Nat) (hb : b ≤ a) (ha : a < 65536) : u16_sub a b = a - b := by
  unfold u16_sub
  omega

theorem dispatch_create (ctx : server_ctx_t) (sid rsv atyp : Nat) (addr port payload : List Nat)
    (hs : sid < 2 ^ 32) (hr : rsv < 2 ^ 8) (hrn : rsv ≠ CTL_NORMAL)
    (hport : port.length = 2)
    (hlen : (init_body atyp addr port payload).length < 2 ^ 16)
    (hnot : RB_FIND ctx.remote_map sid = none) :
    ∃ ctx1, server_read_cb_dispatch
        (frame_done ctx (wire_header sid rsv (init_body atyp addr port payload).length)
          (init_body atyp addr port payload)) = some ctx1 ∧
      ctx1.remote_map = RB_INSERT ctx.remote_map (init_session sid rsv atyp addr port payload) ∧
      ctx1.tx = ctx.tx ∧ ctx1.reset = 0 ∧ ctx1.expect_to_recv = HDRLEN ∧
      ctx1.handle_closing = ctx.handle_closing := by
  have hh := read_header_wire sid rsv (init_body atyp addr port payload).length hs hr hlen
  generalize hw : wire_header sid rsv (init_body atyp addr port payload).length = hdr at hh
  have hl7 : hdr.length = 7 := by rw [← hw]; rfl
  have h1 : (read_header hdr 0).1.1 = sid := by rw [hh]
  have h2 : (read_header hdr 0).1.2.1 = rsv := by rw [hh]
  have h3 : (read_header hdr 0).1.2.2 = (init_body atyp addr port payload).length := by rw [hh]
  have r1 : get_bytes (hdr ++ init_body atyp addr port payload) 7 1 = [atyp] :=
    get_bytes_mid_of hdr [atyp] ([addr.length] ++ addr ++ port ++ payload) 7 1
      (by simp [hl7]) rfl |> fun h => by simpa [init_body] using h
  have r2 : get_bytes (hdr ++ init_body atyp addr port payload) 8 1 = [addr.length] :=
    get_bytes_mid_of (hdr ++ [atyp]) [addr.length] (addr ++ port ++ payload) 8 1
      (by simp [hl7]) rfl |> fun h => by simpa [init_body] using h
  have r3 : get_bytes (hdr ++ init_body atyp addr port payload) 9 addr.length = addr :=
    get_bytes_mid_of (hdr ++ [atyp, addr.length]) addr (port ++ payload) 9 addr.length
      (by simp [hl7]) rfl |> fun h => by simpa [init_body] using h
  have r4 : get_bytes (hdr ++ init_body atyp addr port payload) (9 + addr.length) 2 = port :=
    get_bytes_mid_of (hdr ++ [atyp, addr.length] ++ addr) port payload (9 + addr.length) 2
      (by simp [hl7]; omega) hport.symm |> fun h => by simpa [init_body] using h
  have r5 : get_bytes (hdr ++ init_body atyp addr port payload) (11 + addr.length)
      payload.length = payload :=
    get_bytes_mid_of (hdr ++ [atyp, addr.length] ++ addr ++ port) payload []
      (11 + addr.length) payload.length (by simp [hl7, hport]; omega) rfl
      |> fun h => by simpa [init_body] using h
  have hg : (hdr ++ init_body atyp addr port payload).getD 8 0 = addr.length := by
    rw [← get_bytes_one, r2]
    rfl
  have hpl : u16_sub (init_body atyp addr port payload).length (1 + 1 + addr.length + 2)
      = payload.length := by
    rw [u16_sub_of_le _ _ (by simp [init_body, hport]; omega) (by omega)]
    simp [init_body, hport]
    omega
  have hpl2 : (init_body atyp addr port payload).length - (4 + addr.length)
      = payload.length := by
    simp [init_body, hport]
    omega
  have o1 : 7 + 1 + 1 + addr.length + 2 = 11 + addr.length := by omega
  have o2 : 7 + 1 + 1 + addr.length = 9 + addr.length := by omega
  have o3 : 7 + 4 + addr.length = 11 + addr.length := by omega
  simp only [server_read_cb_dispatch, frame_done, header_done, h1, h2, h3, hnot, hrn,
    if_false, server_read_cb_create, get_header, get_payload, ATYP_LEN, ADDRLEN_LEN,
    PORT_LEN, HDRLEN, r1, r2, List.getD_cons_zero, r3, o2, r4, hpl, o1, r5,
    Option.isSome_none, Bool.false_eq_true, hg, hpl2, o3, ALLOCATE_PACKET, packet_zero,
    Option.some.injEq, exists_eq_left', and_true]
  simp only [init_session, remote_ctx_zero, List.nil_append, try_to_connect_remote]
  congr 1
  by_cases ha3 : atyp = 3
  · simp [ha3]
  · by_cases ha1 : atyp = 1
    · simp [ha3, ha1]
    · simp [ha3, ha1]

theorem RB_INSERT_filter (m : List remote_ctx_t) (elm : remote_ctx_t)
    (h : RB_FIND m elm.session_id = none) :
    (RB_INSERT m elm).filter (fun x => x.session_id == elm.session_id) = [elm] := by
  have hp := (RB_INSERT_perm m elm h).filter (fun x => x.session_id == elm.session_id)
  have hm : m.filter (fun x => x.session_id == elm.session_id) = [] := by
    rw [List.filter_eq_nil_iff]
    intro r hr
    have := (RB_FIND_none m elm.session_id).mp h r hr
    simpa using this
  rw [List.filter_cons] at hp
  simp only [beq_self_eq_true, if_true, hm] at hp
  exact List.perm_singleton.mp hp

theorem RB_INSERT_mem (m : List remote_ctx_t) (elm x : remote_ctx_t)
    (h : RB_FIND m elm.session_id = none) : x ∈ RB_INSERT m elm ↔ x = elm ∨ x ∈ m := by
  rw [(RB_INSERT_perm m elm h).mem_iff]
  simp

theorem recv_all_init_frame (ctx : server_ctx_t) (sid rsv atyp : Nat)
    (addr port payload : List Nat) (chunks : List (List Nat))
    (h0 : ctx.reset = 0) (he : ctx.expect_to_recv = HDRLEN) (hs : sid < 2 ^ 32)
    (hr : rsv < 2 ^ 8) (hrn : rsv ≠ CTL_NORMAL) (hrc : rsv ≠ CTL_CLOSE)
    (hport : port.length = 2) (hlen : (init_body atyp addr port payload).length < 2 ^ 16)
    (hnot : RB_FIND ctx.remote_map sid = none) (hcap : reads_capped ctx chunks = true)
    (hj : chunks.flatten = wire_header sid rsv (init_body atyp addr port payload).length
            ++ init_body atyp addr port payload) :
    ∃ ctx1, recv_all ctx chunks = some ctx1 ∧
      ctx1.remote_map = RB_INSERT ctx.remote_map (init_session sid rsv atyp addr port payload) ∧
      ctx1.tx = ctx.tx ∧ ctx1.reset = 0 ∧ ctx1.expect_to_recv = HDRLEN ∧
      ctx1.handle_closing = ctx.handle_closing := by
  have hh := read_header_wire sid rsv (init_body atyp addr port payload).length hs hr hlen
  have h2 : (read_header (wire_header sid rsv (init_body atyp addr port payload).length) 0).1.2.1
      = rsv := by rw [hh]
  have h3 : (read_header (wire_header sid rsv (init_body atyp addr port payload).length) 0).1.2.2
      = (init_body atyp addr port payload).length := by rw [hh]
  have hnc : (read_header (wire_header sid rsv (init_body atyp addr port payload).length) 0).1.2.1
      ≠ CTL_CLOSE := by
    rw [h2]
    exact hrc
  have hb1 : 1 ≤ (init_body atyp addr port payload).length := by simp [init_body]
  have hne : init_body atyp addr port payload ≠ [] := by simp [init_body]
  rw [recv_all_frame ctx _ _ chunks h0 he (wire_header_length _ _ _) hnc h3 hb1 hcap hj]
  simp only [recv_all]
  rw [recv_header ctx _ h0 (wire_header_length _ _ _), if_neg hnc]
  simp only
  rw [recv_body ctx _ _ (wire_header_length _ _ _) hne h3]
  obtain ⟨ctx1, hc1, hx⟩ := dispatch_create ctx sid rsv atyp addr port payload hs hr hrn hport
    hlen hnot
  rw [hc1]
  exact ⟨ctx1, rfl, hx⟩

/-- C8: a complete INIT frame for a session id that is not in the table, with
body atyp | addrlen | addr | port(2) | payload (so datalen >= 4 + addrlen),
arriving at a frame boundary in any split into reads, creates exactly one table
entry for the id, with host = addr, port = the two port bytes unchanged,
ctl_cmd = NORMAL and a pending queue holding exactly the payload (of length
datalen - 4 - addrlen); every other entry of the table stays as it was. -/
theorem init_creates_session (ctx : server_ctx_t) (sid atyp : Nat)
    (addr port payload : List Nat) (chunks : List (List Nat))
    (h0 : ctx.reset = 0) (he : ctx.expect_to_recv = HDRLEN) (hs : sid < 2 ^ 32)
    (hport : port.length = 2) (hlen : (init_body atyp addr port payload).length < 2 ^ 16)
    (hnot : RB_FIND ctx.remote_map sid = none) (hcap : reads_capped ctx chunks = true)
    (hj : chunks.flatten = wire_header sid CTL_INIT (init_body atyp addr port payload).length
            ++ init_body atyp addr port payload) :
    ∃ ctx1 r, recv_all ctx chunks = some ctx1 ∧
      ctx1.remote_map.filter (fun x => x.session_id == sid) = [r] ∧
      RB_FIND ctx1.remote_map sid = some r ∧
      r.host = addr ∧ r.port = port ∧ r.ctl_cmd = CTL_NORMAL ∧
      r.send_queue = [{ data := payload, payloadlen := payload.length }] ∧
      payload.length = (init_body atyp addr port payload).length - 4 - addr.length ∧
      (∀ x, x ∈ ctx1.remote_map ↔ x = r ∨ x ∈ ctx.remote_map) := by
  obtain ⟨ctx1, hc1, hm, _⟩ := recv_all_init_frame ctx sid CTL_INIT atyp addr port payload chunks
    h0 he hs (by decide) (by decide) (by decide) hport hlen hnot hcap hj
  have hkey : (init_session sid CTL_INIT atyp addr port payload).session_id = sid := rfl
  have hnot1 : RB_FIND ctx.remote_map
      (init_session sid CTL_INIT atyp addr port payload).session_id = none := by
    rw [hkey]
    exact hnot
  refine ⟨ctx1, init_session sid CTL_INIT atyp addr port payload, hc1, ?_, ?_, rfl, rfl, rfl,
    rfl, ?_, ?_⟩
  · rw [hm]
    have := RB_INSERT_filter ctx.remote_map _ hnot1
    rw [hkey] at this
    exact this
  · rw [hm, RB_FIND_insert _ _ _ hnot1, hkey]
    simp
  · simp [init_body, hport]
    omega
  · intro x
    rw [hm]
    exact RB_INSERT_mem _ _ _ hnot1

/-- Witness of C8: the INIT frame of scenario S1 on a fresh tunnel. -/
theorem init_creates_session_witness :
    ∃ ctx1 r, recv_all server_accept_cb
        [[0, 0, 0, 1, 1, 0, 10], [1, 4, 127, 0, 0, 1, 0, 80, 71, 69]] = some ctx1 ∧
      ctx1.remote_map.filter (fun x => x.session_id == 1) = [r] ∧
      RB_FIND ctx1.remote_map 1 = some r ∧
      r.host = [127, 0, 0, 1] ∧ r.port = [0, 80] ∧ r.ctl_cmd = CTL_NORMAL ∧
      r.send_queue = [{ data := [71, 69], payloadlen := [71, 69].length }] ∧
      [71, 69].length = (init_body 1 [127, 0, 0, 1] [0, 80] [71, 69]).length - 4
        - [127, 0, 0, 1].length ∧
      (∀ x, x ∈ ctx1.remote_map ↔ x = r ∨ x ∈ server_accept_cb.remote_map) :=
  init_creates_session server_accept_cb 1 1 [127, 0, 0, 1] [0, 80] [71, 69]
    [[0, 0, 0, 1, 1, 0, 10], [1, 4, 127, 0, 0, 1, 0, 80, 71, 69]] rfl rfl (by decide) rfl
    (by decide) rfl (by decide) (by decide)

/-! ### What every callback preserves -/

theorem session_ok_of_same (r r1 : remote_ctx_t)
    (hc : r1.ctl_cmd = r.ctl_cmd ∨ r1.ctl_cmd = CTL_CLOSE) (ht : r1.tx = r.tx)
    (hq : r1.send_queue = r.send_queue) (hrx : r1.rx = r.rx) (hf : r1.freed = r.freed)
    (h : session_ok r) : session_ok r1 := by
  obtain ⟨h1, h2⟩ := h
  refine ⟨?_, ?_⟩
  · rcases hc with hc | hc
    · rw [hc]
      exact h1
    · exact Or.inr hc
  · intro hfr
    rw [hf] at hfr
    rw [ht, hq, hrx]
    exact h2 hfr

theorem session_ok_HANDLECLOSE (r : remote_ctx_t) (h : session_ok r) :
    session_ok (HANDLECLOSE r) := by
  unfold HANDLECLOSE
  split
  · exact session_ok_of_same r _ (Or.inl rfl) rfl rfl rfl rfl h
  · exact h

theorem session_ok_uv_close_remote (r : remote_ctx_t) (h : session_ok r) :
    session_ok (uv_close_remote r) :=
  session_ok_of_same r _ (Or.inl rfl) rfl rfl rfl rfl h

theorem session_ok_write_head (r : remote_ctx_t) (h : session_ok r) :
    session_ok (write_head r) := by
  unfold write_head
  split
  · exact h
  · rename_i packet rest hq
    obtain ⟨h1, h2⟩ := h
    refine ⟨h1, ?_⟩
    intro hfr
    have := h2 hfr
    rw [hq] at this
    simp only [List.length_append, List.length_cons, List.length_nil] at this ⊢
    omega

theorem session_ok_enqueue (r : remote_ctx_t) (pkt : pending_packet_t) (cmd : Nat)
    (payload : List Nat) (h : session_ok r) :
    session_ok { r with send_queue := r.send_queue ++ [pkt], rx := r.rx ++ [(cmd, payload)] } := by
  obtain ⟨h1, h2⟩ := h
  refine ⟨h1, ?_⟩
  intro hfr
  have := h2 hfr
  simp only [List.length_append, List.length_cons, List.length_nil] at this ⊢
  omega

theorem tunnel_ok_update (ctx : server_ctx_t) (sid : Nat) (f : remote_ctx_t → remote_ctx_t)
    (hf : ∀ r, session_ok r → session_ok (f r)) (h : tunnel_ok ctx) :
    tunnel_ok { ctx with remote_map := update_remote ctx.remote_map sid f } := by
  obtain ⟨hp, hs⟩ := h
  refine ⟨hp, ?_⟩
  intro r hr
  simp only [update_remote, List.mem_map] at hr
  obtain ⟨r0, hr0, rfl⟩ := hr
  split
  · exact hf r0 (hs r0 hr0)
  · exact hs r0 hr0

theorem sessions_ok_update (m : List remote_ctx_t) (sid : Nat) (f : remote_ctx_t → remote_ctx_t)
    (hf : ∀ r, session_ok r → session_ok (f r)) (h : ∀ r ∈ m, session_ok r) :
    ∀ r ∈ update_remote m sid f, session_ok r := by
  intro r hr
  simp only [update_remote, List.mem_map] at hr
  obtain ⟨r0, hr0, rfl⟩ := hr
  split
  · exact hf r0 (h r0 hr0)
  · exact h r0 hr0

theorem server_exception_ok (ctx : server_ctx_t) (h : tunnel_ok ctx) :
    tunnel_ok (server_exception ctx) := by
  obtain ⟨hp, hs⟩ := h
  unfold server_exception
  simp only
  split
  · refine ⟨hp, ?_⟩
    intro r hr
    simp only [List.mem_map] at hr
    obtain ⟨r0, hr0, rfl⟩ := hr
    split
    · exact session_ok_uv_close_remote _
        (session_ok_of_same r0 _ (Or.inl rfl) rfl rfl rfl rfl (hs r0 hr0))
    · exact session_ok_of_same r0 _ (Or.inl rfl) rfl rfl rfl rfl (hs r0 hr0)
  · exact ⟨hp, hs⟩

theorem send_control_packet_ok (ctx : server_ctx_t) (sid cmd : Nat) (h : tunnel_ok ctx) :
    tunnel_ok (send_control_packet sid ctx cmd) := h

theorem remote_timeout_cb_ok (ctx : server_ctx_t) (sid : Nat) (h : tunnel_ok ctx) :
    tunnel_ok (remote_timeout_cb ctx sid) := by
  apply tunnel_ok_update _ _ _ _ h
  intro r hr
  split
  · split
    · exact session_ok_uv_close_remote _ hr
    · exact session_ok_of_same r _ (Or.inl rfl) rfl rfl rfl rfl hr
  · exact hr

theorem RB_REMOVE_mem (m : List remote_ctx_t) (sid : Nat) (r : remote_ctx_t)
    (h : r ∈ RB_REMOVE m sid) : r ∈ m := by
  simp only [RB_REMOVE, List.mem_filter] at h
  exact h.1

theorem remote_after_close_cb_ok (ctx : server_ctx_t) (sid : Nat) (h : tunnel_ok ctx) :
    tunnel_ok (remote_after_close_cb ctx sid) := by
  unfold remote_after_close_cb
  split
  · exact h
  · rename_i remote_ctx hfind
    have hrem : tunnel_ok { ctx with remote_map := RB_REMOVE ctx.remote_map sid } :=
      ⟨h.1, fun r hr => h.2 r (RB_REMOVE_mem _ _ _ hr)⟩
    split
    · simp only
      split
      · exact send_control_packet_ok _ _ _ hrem
      · split
        · exact send_control_packet_ok _ _ _ hrem
        · exact hrem
    · apply tunnel_ok_update _ _ _ _ h
      intro r hr
      exact ⟨hr.1, fun hf => by simp at hf⟩

theorem remote_read_cb_ok (ctx : server_ctx_t) (sid : Nat) (nread : Int) (buf : List Nat)
    (h : tunnel_ok ctx) : tunnel_ok (remote_read_cb ctx sid nread buf) := by
  unfold remote_read_cb
  split
  · exact h
  · split
    · split
      · exact h
      · apply tunnel_ok_update _ _ _ _ h
        intro r hr
        exact session_ok_HANDLECLOSE _ (session_ok_of_same r _ (Or.inl rfl) rfl rfl rfl rfl hr)
    · split
      · exact h
      · exact h

theorem server_write_cb_ok (ctx : server_ctx_t) (status : Int) (h : tunnel_ok ctx) :
    tunnel_ok (server_write_cb ctx status) := by
  unfold server_write_cb
  split
  · split
    · split
      · exact server_exception_ok _ h
      · exact h
    · exact h
  · exact h

theorem remote_write_cb_ok (ctx : server_ctx_t) (sid : Nat) (status : Int) (h : tunnel_ok ctx) :
    tunnel_ok (remote_write_cb ctx sid status) := by
  apply tunnel_ok_update _ _ _ _ h
  intro r hr
  have h1 : session_ok { r with inflight := r.inflight - 1 } :=
    session_ok_of_same r _ (Or.inl rfl) rfl rfl rfl rfl hr
  split
  · split
    · exact session_ok_HANDLECLOSE _ (session_ok_of_same _ _ (Or.inl rfl) rfl rfl rfl rfl h1)
    · exact h1
  · exact session_ok_write_head _ h1

theorem remote_on_connect_cb_ok (ctx : server_ctx_t) (sid : Nat) (status : Int)
    (h : tunnel_ok ctx) : tunnel_ok (remote_on_connect_cb ctx sid status) := by
  apply tunnel_ok_update _ _ _ _ h
  intro r hr
  split
  · split
    · exact session_ok_HANDLECLOSE _ hr
    · exact hr
  · exact session_ok_write_head _ (session_ok_of_same r _ (Or.inl rfl) rfl rfl rfl rfl hr)

theorem remote_addr_resolved_cb_ok (ctx : server_ctx_t) (sid : Nat) (status : Int)
    (ai_family : Nat) (addr : List Nat) (r : Int) (h : tunnel_ok ctx) :
    tunnel_ok (remote_addr_resolved_cb ctx sid status ai_family addr r) := by
  apply tunnel_ok_update _ _ _ _ h
  intro x hx
  split
  · split
    · exact session_ok_HANDLECLOSE _ (session_ok_of_same x _ (Or.inl rfl) rfl rfl rfl rfl hx)
    · exact hx
  · split
    · exact session_ok_HANDLECLOSE _ (session_ok_of_same x _ (Or.inl rfl) rfl rfl rfl rfl hx)
    · have key : ∀ y : remote_ctx_t, y.ctl_cmd = x.ctl_cmd → y.tx = x.tx →
          y.send_queue = x.send_queue → y.rx = x.rx → y.freed = x.freed → session_ok y :=
        fun y a b c d e => session_ok_of_same x y (Or.inl a) b c d e hx
      by_cases hr0 : r = 0 <;> by_cases h2 : ai_family = 2 <;> by_cases h10 : ai_family = 10 <;>
        simp only [hr0, h2, h10, ne_eq, not_true_eq_false, not_false_eq_true, if_true,
          if_false] <;>
        first
          | exact key _ rfl rfl rfl rfl rfl
          | exact session_ok_HANDLECLOSE _ (key _ rfl rfl rfl rfl rfl)

theorem server_read_cb_close_ok (ctx : server_ctx_t) (h : ∀ r ∈ ctx.remote_map, session_ok r) :
    tunnel_ok (server_read_cb_close ctx) := by
  unfold server_read_cb_close
  refine ⟨fun hr => absurd rfl hr, ?_⟩
  simp only
  split
  · apply sessions_ok_update _ _ _ _ h
    intro r hr
    have h1 : session_ok { { r with ctl_cmd := CTL_CLOSE } with handle_reading := false } :=
      session_ok_of_same r _ (Or.inr rfl) rfl rfl rfl rfl hr
    split
    · split
      · exact session_ok_uv_close_remote _ h1
      · exact session_ok_of_same _ _ (Or.inl rfl) rfl rfl rfl rfl h1
    · exact h1
  · exact h

theorem RB_INSERT_subset (m : List remote_ctx_t) (elm x : remote_ctx_t)
    (h : x ∈ RB_INSERT m elm) : x = elm ∨ x ∈ m := by
  induction m with
  | nil => simpa [RB_INSERT] using h
  | cons y ys ih =>
    simp only [RB_INSERT] at h
    split at h
    · simpa using h
    · split at h
      · exact Or.inr h
      · rcases List.mem_cons.mp h with h1 | h1
        · exact Or.inr (by simp [h1])
        · rcases ih h1 with h2 | h2
          · exact Or.inl h2
          · exact Or.inr (by simp [h2])

theorem server_read_cb_create_ok (ctx ctx1 : server_ctx_t)
    (h : ∀ r ∈ ctx.remote_map, session_ok r)
    (h0 : ctx.reset = 0) (hc : server_read_cb_create ctx = some ctx1) : tunnel_ok ctx1 := by
  unfold server_read_cb_create at hc
  simp only [get_header, get_payload] at hc
  split at hc
  · cases hc
  · rename_i hfind
    simp only [Option.some.injEq] at hc
    subst hc
    refine ⟨fun hr => absurd h0 hr, ?_⟩
    intro r hr
    have hr := RB_INSERT_subset _ _ _ hr
    · rcases hr with hr | hr
      · subst hr
        have key : ∀ (y : remote_ctx_t) (p : pending_packet_t) (f : Nat × List Nat),
            y.ctl_cmd = CTL_NORMAL → y.tx = [] → y.send_queue = [p] → y.rx = [f] →
            session_ok y := by
          intro y p f hy1 hy2 hy3 hy4
          refine ⟨Or.inl hy1, fun _ => ?_⟩
          simp only [hy2, hy3, hy4, List.length_cons, List.length_nil]
        split
        · exact key _ _ _ rfl rfl rfl rfl
        · split
          · exact key _ _ _ rfl rfl rfl rfl
          · exact key _ _ _ rfl rfl rfl rfl
      · exact h r hr

theorem server_read_cb_dispatch_ok (ctx ctx1 : server_ctx_t)
    (h : ∀ r ∈ ctx.remote_map, session_ok r)
    (hc : server_read_cb_dispatch ctx = some ctx1) : tunnel_ok ctx1 := by
  unfold server_read_cb_dispatch at hc
  simp only at hc
  split at hc
  · split at hc
    · cases hc
    · simp only [Option.some.injEq] at hc
      subst hc
      refine ⟨fun hr => absurd rfl hr, ?_⟩
      apply sessions_ok_update _ _ _ _ h
      intro r hr
      have h1 := session_ok_enqueue r
        (ALLOCATE_PACKET (get_header ctx.packet_buf ctx.packet.datalen ctx.packet.offset).1
          ctx.packet.datalen) ctx.packet.rsv
        (get_bytes ctx.packet_buf HDRLEN ctx.packet.datalen) hr
      split
      · exact session_ok_write_head _ h1
      · exact h1
  · split at hc
    · simp only [Option.some.injEq] at hc
      subst hc
      exact ⟨fun hr => absurd rfl hr, h⟩
    · exact server_read_cb_create_ok
        { { ctx with reset := 0 } with expect_to_recv := HDRLEN } ctx1 h rfl hc

theorem server_read_cb_data_ok (ctx ctx1 : server_ctx_t) (nread : Nat) (buf : List Nat)
    (h : tunnel_ok ctx) (hc : server_read_cb_data ctx nread buf = some ctx1) : tunnel_ok ctx1 := by
  obtain ⟨hp, hs⟩ := h
  unfold server_read_cb_data at hc
  by_cases hr : ctx.reset = 0
  · simp only [hr, if_true, packetnbuf_reset, packet_zero] at hc
    split at hc
    · split at hc
      · cases hc
      · simp only [read_header_offset] at hc
        split at hc
        · simp only [Option.some.injEq] at hc
          subst hc
          exact server_read_cb_close_ok _ hs
        · simp only [Option.some.injEq] at hc
          subst hc
          exact ⟨fun _ => ⟨fun h01 => by simp at h01, fun _ => rfl⟩, hs⟩
    · simp only [Option.some.injEq] at hc
      subst hc
      exact ⟨fun _ => ⟨fun _ => rfl, fun h01 => by simp at h01⟩, hs⟩
  · have hp1 := hp hr
    simp only [hr, if_false] at hc
    by_cases hst : ctx.stage = 0
    · have hoff := hp1.1 hst
      simp only [hst, if_true, hoff] at hc
      split at hc
      · split at hc
        · cases hc
        · simp only [read_header_offset] at hc
          split at hc
          · simp only [Option.some.injEq] at hc
            subst hc
            exact server_read_cb_close_ok _ hs
          · simp only [Option.some.injEq] at hc
            subst hc
            exact ⟨fun _ => ⟨fun h01 => by simp at h01, fun _ => rfl⟩, hs⟩
      · simp only [Option.some.injEq] at hc
        subst hc
        exact ⟨fun _ => ⟨fun _ => hoff, fun h01 => by simp [hst] at h01⟩, hs⟩
    · simp only [hst, if_false] at hc
      by_cases hst1 : ctx.stage = 1
      · have hoff := hp1.2 hst1
        simp only [hst1, if_true] at hc
        split at hc
        · exact server_read_cb_dispatch_ok _ ctx1 (by exact hs) hc
        · split at hc
          · simp only [Option.some.injEq] at hc
            subst hc
            exact ⟨fun _ => ⟨fun h01 => by simp [hst1] at h01, fun _ => hoff⟩, hs⟩
          · cases hc
      · simp only [hst1, if_false] at hc
        cases hc

theorem server_read_cb_ok (ctx ctx1 : server_ctx_t) (nread : Int) (buf : List Nat)
    (h : tunnel_ok ctx) (hc : server_read_cb ctx nread buf = some ctx1) : tunnel_ok ctx1 := by
  unfold server_read_cb at hc
  split at hc
  · split at hc
    · simp only [Option.some.injEq] at hc
      subst hc
      exact h
    · split at hc
      · simp only [Option.some.injEq] at hc
        subst hc
        exact server_exception_ok _ h
      · simp only [Option.some.injEq] at hc
        subst hc
        exact h
  · exact server_read_cb_data_ok ctx ctx1 _ buf h hc

theorem step_ok (ctx ctx1 : server_ctx_t) (e : event) (h : tunnel_ok ctx)
    (hc : step ctx e = some ctx1) : tunnel_ok ctx1 := by
  cases e with
  | server_read nread buf => exact server_read_cb_ok ctx ctx1 nread buf h hc
  | server_written status =>
    simp only [step, Option.some.injEq] at hc
    subst hc
    exact server_write_cb_ok _ _ h
  | remote_read sid nread buf =>
    simp only [step, Option.some.injEq] at hc
    subst hc
    exact remote_read_cb_ok _ _ _ _ h
  | remote_written sid status =>
    simp only [step, Option.some.injEq] at hc
    subst hc
    exact remote_write_cb_ok _ _ _ h
  | remote_connected sid status =>
    simp only [step, Option.some.injEq] at hc
    subst hc
    exact remote_on_connect_cb_ok _ _ _ h
  | remote_resolved sid status ai_family addr r =>
    simp only [step, Option.some.injEq] at hc
    subst hc
    exact remote_addr_resolved_cb_ok _ _ _ _ _ _ h
  | remote_timeout sid =>
    simp only [step, Option.some.injEq] at hc
    subst hc
    exact remote_timeout_cb_ok _ _ h
  | remote_closed sid =>
    simp only [step, Option.some.injEq] at hc
    subst hc
    exact remote_after_close_cb_ok _ _ h

theorem run_ok (es : List event) :
    ∀ ctx ctx1 : server_ctx_t, tunnel_ok ctx → run ctx es = some ctx1 → tunnel_ok ctx1 := by
  induction es with
  | nil =>
    intro ctx ctx1 h hc
    simp only [run, Option.some.injEq] at hc
    subst hc
    exact h
  | cons e rest ih =>
    intro ctx ctx1 h hc
    simp only [run] at hc
    cases hs : step ctx e with
    | none =>
      rw [hs] at hc
      cases hc
    | some c =>
      rw [hs] at hc
      exact ih c ctx1 (step_ok ctx c e h hs) hc

theorem server_accept_cb_ok : tunnel_ok server_accept_cb :=
  ⟨fun hr => absurd rfl hr, fun r hr => by simp [server_accept_cb] at hr⟩

/-- C6: in every state the event loop can reach, when the close of a session
whose tunnel back-reference is still set completes, the session leaves the
session table (the other entries stay) and exactly one control frame
sid | cmd | 0x0000 is handed to the tunnel writer, where cmd is CLOSE_ACK (0x05)
iff ctl_cmd is CLOSE and CLOSE (0x04) iff ctl_cmd is NORMAL. -/
theorem remote_after_close_cb_control_frame (es : List event) (ctx : server_ctx_t) (sid : Nat)
    (r : remote_ctx_t) (hrun : run server_accept_cb es = some ctx)
    (hfind : RB_FIND ctx.remote_map sid = some r) (hlive : r.server_ctx = true) :
    (remote_after_close_cb ctx sid).remote_map = RB_REMOVE ctx.remote_map sid ∧
    RB_FIND (remote_after_close_cb ctx sid).remote_map sid = none ∧
    ∃ cmd, (remote_after_close_cb ctx sid).tx
        = ctx.tx ++ [[sid / 16777216 % 256, sid / 65536 % 256, sid / 256 % 256, sid % 256,
                      cmd, 0, 0]] ∧
      (cmd = 5 ↔ r.ctl_cmd = CTL_CLOSE) ∧ (cmd = 4 ↔ r.ctl_cmd = CTL_NORMAL) := by
  have hok := run_ok es server_accept_cb ctx server_accept_cb_ok hrun
  have hr := (hok.2 r (RB_FIND_mem _ _ _ hfind)).1
  have hk := RB_FIND_key _ _ _ hfind
  have hmap : (remote_after_close_cb ctx sid).remote_map = RB_REMOVE ctx.remote_map sid := by
    simp only [remote_after_close_cb, hfind, hlive, if_true]
    split
    · rfl
    · split <;> rfl
  refine ⟨hmap, ?_, ?_⟩
  · rw [hmap, RB_FIND_remove]
    simp
  · rcases hr with hr | hr
    · refine ⟨4, ?_, ?_, ?_⟩
      · simp only [remote_after_close_cb, hfind, hlive, if_true, hr, hk, send_control_packet,
          write_header_wire]
        simp [CTL_CLOSE, CTL_NORMAL, wire_header, HDRLEN]
      · simp [hr, CTL_CLOSE, CTL_NORMAL]
      · simp [hr]
    · refine ⟨5, ?_, ?_, ?_⟩
      · simp only [remote_after_close_cb, hfind, hlive, if_true, hr, hk, send_control_packet,
          write_header_wire]
        simp [CTL_CLOSE_ACK, wire_header, HDRLEN]
      · simp [hr]
      · simp [hr, CTL_CLOSE, CTL_NORMAL]

/-- Witness of C6: scenario S1, the close of session 1 completes after the peer's CLOSE. -/
theorem remote_after_close_cb_control_frame_witness :
    (remote_after_close_cb S1_state 1).remote_map = RB_REMOVE S1_state.remote_map 1 ∧
    RB_FIND (remote_after_close_cb S1_state 1).remote_map 1 = none ∧
    ∃ cmd, (remote_after_close_cb S1_state 1).tx
        = S1_state.tx ++ [[1 / 16777216 % 256, 1 / 65536 % 256, 1 / 256 % 256, 1 % 256,
                           cmd, 0, 0]] ∧
      (cmd = 5 ↔
        ({ init_session 1 1 1 [127, 0, 0, 1] [0, 80] [71, 69] with
            ctl_cmd := CTL_CLOSE, handle_closing := true } : remote_ctx_t).ctl_cmd = CTL_CLOSE) ∧
      (cmd = 4 ↔
        ({ init_session 1 1 1 [127, 0, 0, 1] [0, 80] [71, 69] with
            ctl_cmd := CTL_CLOSE, handle_closing := true } : remote_ctx_t).ctl_cmd = CTL_NORMAL) :=
  remote_after_close_cb_control_frame S1_events S1_state 1
    { init_session 1 1 1 [127, 0, 0, 1] [0, 80] [71, 69] with
        ctl_cmd := CTL_CLOSE, handle_closing := true }
    (by decide) (by decide) rfl

/-- C7: close during resolve.  A session is created by an INIT frame with
atyp = 0x03 (its name lookup is pending); a peer CLOSE for its id then hands
nothing to the tunnel writer and only records the request (ctl_cmd = CLOSE,
closing set, handle not closed, no connect); when the lookup completes with
success no connect is requested and the handle is closed; when that close
completes the session leaves the table and exactly one frame
sid | 0x05 | 0x0000 has been handed to the tunnel writer. -/
theorem close_during_resolve (ctx : server_ctx_t) (sid len : Nat)
    (addr port payload raddr : List Nat) (chunks1 : List (List Nat))
    (status r : Int) (ai_family : Nat)
    (h0 : ctx.reset = 0) (he : ctx.expect_to_recv = HDRLEN) (hs : sid < 2 ^ 32)
    (hport : port.length = 2) (hlen : (init_body 3 addr port payload).length < 2 ^ 16)
    (hl : len < 2 ^ 16) (hnot : RB_FIND ctx.remote_map sid = none)
    (hcap1 : reads_capped ctx chunks1 = true)
    (hj1 : chunks1.flatten = wire_header sid CTL_INIT (init_body 3 addr port payload).length
            ++ init_body 3 addr port payload)
    (hst : 0 ≤ status) :
    ∃ c1 c2, recv_all ctx chunks1 = some c1 ∧
      recv c1 (wire_header sid CTL_CLOSE len) = some c2 ∧ c2.tx = ctx.tx ∧
      (RB_FIND c2.remote_map sid).map
          (fun x => (x.ctl_cmd, x.closing, x.handle_closing, x.connect_reqs))
        = some (CTL_CLOSE, 1, false, 0) ∧
      (remote_addr_resolved_cb c2 sid status ai_family raddr r).tx = ctx.tx ∧
      (RB_FIND (remote_addr_resolved_cb c2 sid status ai_family raddr r).remote_map sid).map
          (fun x => (x.connect_reqs, x.handle_closing))
        = some (0, true) ∧
      RB_FIND (remote_after_close_cb
          (remote_addr_resolved_cb c2 sid status ai_family raddr r) sid).remote_map sid
        = none ∧
      (remote_after_close_cb
          (remote_addr_resolved_cb c2 sid status ai_family raddr r) sid).tx
        = ctx.tx ++ [[sid / 16777216, sid / 65536 % 256, sid / 256 % 256, sid % 256,
                      5, 0, 0]] := by
  obtain ⟨c1, hc1, hm1, ht1, hr1, he1, _⟩ := recv_all_init_frame ctx sid CTL_INIT 3 addr port
    payload chunks1 h0 he hs (by decide) (by decide) (by decide) hport hlen hnot hcap1 hj1
  have hkey : (init_session sid CTL_INIT 3 addr port payload).session_id = sid := rfl
  have hfind1 : RB_FIND c1.remote_map sid
      = some (init_session sid CTL_INIT 3 addr port payload) := by
    rw [hm1, RB_FIND_insert _ _ _ (by rw [hkey]; exact hnot), hkey]
    simp
  have hh := read_header_wire sid CTL_CLOSE len hs (by decide) hl
  have h1 : (read_header (wire_header sid CTL_CLOSE len) 0).1.1 = sid := by rw [hh]
  have h2 : (read_header (wire_header sid CTL_CLOSE len) 0).1.2.1 = CTL_CLOSE := by rw [hh]
  refine ⟨c1, server_read_cb_close (header_done c1 (wire_header sid CTL_CLOSE len)), hc1, ?_, ?_⟩
  · rw [recv_header c1 _ hr1 (wire_header_length _ _ _), if_pos h2]
  have hf2 : RB_FIND (server_read_cb_close
      (header_done c1 (wire_header sid CTL_CLOSE len))).remote_map sid
      = some { init_session sid CTL_INIT 3 addr port payload with
                ctl_cmd := CTL_CLOSE, closing := 1 } := by
    simp only [server_read_cb_close, header_done, h1, hfind1]
    rw [RB_FIND_update _ _ _ _ (by
      intro x
      dsimp only [uv_close_remote]
      split_ifs <;> rfl)]
    simp [hfind1, init_session, remote_ctx_zero]
  have htx2 : (server_read_cb_close (header_done c1 (wire_header sid CTL_CLOSE len))).tx
      = ctx.tx := by
    simp only [server_read_cb_close, header_done, h1, hfind1, ht1]
  have hns : ¬ (status < 0) := by omega
  have hf3 : RB_FIND (remote_addr_resolved_cb (server_read_cb_close
      (header_done c1 (wire_header sid CTL_CLOSE len))) sid status ai_family raddr r).remote_map
      sid
      = some { init_session sid CTL_INIT 3 addr port payload with
                ctl_cmd := CTL_CLOSE, closing := 1, handle_closing := true } := by
    simp only [remote_addr_resolved_cb]
    rw [RB_FIND_update _ _ _ _ (by
      intro x
      dsimp only [HANDLECLOSE, try_to_connect_remote]
      split_ifs <;> rfl)]
    simp [hf2, hns, HANDLECLOSE, init_session, remote_ctx_zero]
  refine ⟨htx2, ?_, ?_, ?_, ?_, ?_⟩
  · rw [hf2]
    simp [init_session, remote_ctx_zero]
  · simp only [remote_addr_resolved_cb, htx2]
  · rw [hf3]
    simp [init_session, remote_ctx_zero]
  · simp only [remote_after_close_cb, hf3, init_session, if_true]
    simp only [send_control_packet, RB_FIND_remove]
    simp [CTL_CLOSE]
  · simp only [remote_after_close_cb, hf3, init_session, if_true]
    simp only [send_control_packet, write_header_wire, remote_addr_resolved_cb, htx2]
    have e1 : sid / 16777216 % 256 = sid / 16777216 := by omega
    simp [CTL_CLOSE, CTL_CLOSE_ACK, wire_header, HDRLEN, e1]

/-- Witness of C7: scenario S3, session 42 is opened for the name "foo", port 80,
the peer closes it before the lookup returns, then the lookup returns
93.184.216.34. -/
theorem close_during_resolve_witness :
    ∃ c1 c2, recv_all server_accept_cb
        [[0, 0, 0, 42, 1, 0, 7], [3, 3, 102, 111, 111, 0, 80]] = some c1 ∧
      recv c1 (wire_header 42 CTL_CLOSE 0) = some c2 ∧ c2.tx = server_accept_cb.tx ∧
      (RB_FIND c2.remote_map 42).map
          (fun x => (x.ctl_cmd, x.closing, x.handle_closing, x.connect_reqs))
        = some (CTL_CLOSE, 1, false, 0) ∧
      (remote_addr_resolved_cb c2 42 0 2 [93, 184, 216, 34] 0).tx = server_accept_cb.tx ∧
      (RB_FIND (remote_addr_resolved_cb c2 42 0 2 [93, 184, 216, 34] 0).remote_map 42).map
          (fun x => (x.connect_reqs, x.handle_closing))
        = some (0, true) ∧
      RB_FIND (remote_after_close_cb
          (remote_addr_resolved_cb c2 42 0 2 [93, 184, 216, 34] 0) 42).remote_map 42
        = none ∧
      (remote_after_close_cb
          (remote_addr_resolved_cb c2 42 0 2 [93, 184, 216, 34] 0) 42).tx
        = server_accept_cb.tx ++ [[42 / 16777216, 42 / 65536 % 256, 42 / 256 % 256, 42 % 256,
                                   5, 0, 0]] :=
  close_during_resolve server_accept_cb 42 0 [102, 111, 111] [0, 80] [] [93, 184, 216, 34]
    [[0, 0, 0, 42, 1, 0, 7], [3, 3, 102, 111, 111, 0, 80]] 0 0 2 rfl rfl (by decide) rfl
    (by decide) (by decide) rfl (by decide) (by decide) (by decide)

/-- C9 as stated fails: after `stray_events` session 1 has had "GE" and "A"
handed to upstream writes, while the only INIT or NORMAL frame received for it
carried "GE": the body of the frame with cmd 0x05 was queued and written too. -/
theorem fifo_init_normal_only_fails :
    run server_accept_cb stray_events = some stray_state ∧
    (RB_FIND stray_state.remote_map 1).map
        (fun r => (r.freed, r.tx ++ queued r, init_normal_payloads r))
      = some (false, [[71, 69], [65]], [[71, 69]]) := by
  decide

/-- C10 fails on the code: after the teardown of `teardown_events` (a tunnel
that was not closing), session 42, whose name lookup is pending, is detached
from the tunnel but its close is not initiated and no closing request is
recorded; when the lookup returns it requests an upstream connect, and when the
connect completes it writes the queued payload "GE" upstream. -/
theorem server_exception_skips_unresolved :
    run server_accept_cb (teardown_events.take 3) = some teardown_state ∧
    teardown_state.handle_closing = true ∧
    (RB_FIND teardown_state.remote_map 42).map
        (fun r => (r.server_ctx, r.handle_closing, r.closing, r.connect_reqs, r.tx))
      = some (false, false, 0, 0, []) ∧
    run server_accept_cb teardown_events = some teardown_end_state ∧
    (RB_FIND teardown_end_state.remote_map 42).map
        (fun r => (r.handle_closing, r.connect_reqs, r.connected, r.tx))
      = some (false, 1, 1, [[71, 69]]) := by
  refine ⟨by decide, by decide, by decide, by decide, by decide⟩

/-! ### The ids in the session table -/

theorem HANDLECLOSE_session_id (r : remote_ctx_t) :
    (HANDLECLOSE r).session_id = r.session_id := by
  unfold HANDLECLOSE
  split <;> rfl

theorem write_head_session_id (r : remote_ctx_t) :
    (write_head r).session_id = r.session_id := by
  unfold write_head
  split <;> rfl

theorem update_remote_ids (m : List remote_ctx_t) (sid : Nat) (f : remote_ctx_t → remote_ctx_t)
    (hf : ∀ r, (f r).session_id = r.session_id) :
    (update_remote m sid f).map (fun r => r.session_id) = m.map (fun r => r.session_id) := by
  induction m with
  | nil => rfl
  | cons x xs ih =>
    rw [update_remote_cons, List.map_cons, List.map_cons, ih]
    split
    · rw [hf]
    · rfl

theorem RB_REMOVE_ids (m : List remote_ctx_t) (sid : Nat) :
    ((RB_REMOVE m sid).map (fun r => r.session_id)).Sublist (m.map (fun r => r.session_id)) :=
  (List.filter_sublist m).map _

theorem RB_INSERT_ids (m : List remote_ctx_t) (elm : remote_ctx_t)
    (h : RB_FIND m elm.session_id = none) :
    ((RB_INSERT m elm).map (fun r => r.session_id)).Perm
      (elm.session_id :: m.map (fun r => r.session_id)) := by
  have := (RB_INSERT_perm m elm h).map (fun r => r.session_id)
  simpa using this

theorem RB_FIND_none_ids (m : List remote_ctx_t) (sid : Nat) :
    RB_FIND m sid = none ↔ sid ∉ m.map (fun r => r.session_id) := by
  rw [RB_FIND_none]
  simp only [List.mem_map, not_exists, not_and]

theorem server_exception_ids (ctx : server_ctx_t) :
    session_ids (server_exception ctx) = session_ids ctx := by
  unfold server_exception session_ids
  simp only
  split
  · simp only [List.map_map]
    apply List.map_congr_left
    intro r _
    simp only [Function.comp, uv_close_remote]
    split <;> rfl
  · rfl

theorem remote_timeout_cb_ids (ctx : server_ctx_t) (sid : Nat) :
    session_ids (remote_timeout_cb ctx sid) = session_ids ctx :=
  update_remote_ids _ _ _ (by
    intro x
    dsimp only [uv_close_remote]
    split_ifs <;> rfl)

theorem remote_after_close_cb_ids (ctx : server_ctx_t) (sid : Nat) :
    (session_ids (remote_after_close_cb ctx sid)).Sublist (session_ids ctx) := by
  unfold remote_after_close_cb session_ids
  split
  · exact List.Sublist.refl _
  · split
    · simp only [send_control_packet]
      split
      · exact RB_REMOVE_ids _ _
      · split
        · exact RB_REMOVE_ids _ _
        · exact RB_REMOVE_ids _ _
    · have h := update_remote_ids ctx.remote_map sid
        (fun r => { r with send_queue := [], freed := true }) (fun _ => rfl)
      simp only [h]
      exact List.Sublist.refl _

theorem remote_read_cb_ids (ctx : server_ctx_t) (sid : Nat) (nread : Int) (buf : List Nat) :
    session_ids (remote_read_cb ctx sid nread buf) = session_ids ctx := by
  unfold remote_read_cb session_ids
  split
  · rfl
  · split
    · split
      · rfl
      · exact update_remote_ids _ _ _ (fun x => HANDLECLOSE_session_id _)
    · split
      · rfl
      · rfl

theorem server_write_cb_ids (ctx : server_ctx_t) (status : Int) :
    session_ids (server_write_cb ctx status) = session_ids ctx := by
  unfold server_write_cb
  split
  · split
    · split
      · exact server_exception_ids ctx
      · rfl
    · rfl
  · rfl

theorem remote_write_cb_ids (ctx : server_ctx_t) (sid : Nat) (status : Int) :
    session_ids (remote_write_cb ctx sid status) = session_ids ctx :=
  update_remote_ids _ _ _ (by
    intro x
    dsimp only
    split_ifs
    · exact HANDLECLOSE_session_id _
    · rfl
    · exact write_head_session_id _)

theorem remote_on_connect_cb_ids (ctx : server_ctx_t) (sid : Nat) (status : Int) :
    session_ids (remote_on_connect_cb ctx sid status) = session_ids ctx :=
  update_remote_ids _ _ _ (by
    intro x
    dsimp only
    split_ifs
    · exact HANDLECLOSE_session_id _
    · rfl
    · exact write_head_session_id _)

theorem remote_addr_resolved_cb_ids (ctx : server_ctx_t) (sid : Nat) (status : Int)
    (ai_family : Nat) (addr : List Nat) (r : Int) :
    session_ids (remote_addr_resolved_cb ctx sid status ai_family addr r) = session_ids ctx :=
  update_remote_ids _ _ _ (by
    intro x
    dsimp only [HANDLECLOSE, try_to_connect_remote]
    split_ifs <;> rfl)

theorem server_read_cb_close_ids (ctx : server_ctx_t) :
    session_ids (server_read_cb_close ctx) = session_ids ctx := by
  unfold server_read_cb_close session_ids
  simp only
  split
  · exact update_remote_ids _ _ _ (by
      intro x
      dsimp only [uv_close_remote]
      split_ifs <;> rfl)
  · rfl

theorem server_read_cb_create_some (ctx ctx1 : server_ctx_t)
    (hc : server_read_cb_create ctx = some ctx1) :
    ∃ r : remote_ctx_t, r.session_id = ctx.packet.session_id ∧
      RB_FIND ctx.remote_map ctx.packet.session_id = none ∧
      ctx1.remote_map = RB_INSERT ctx.remote_map r ∧
      r.inflight = 0 ∧ r.tx = [] ∧
      ctx1.stage = ctx.stage ∧ ctx1.buf_len = ctx.buf_len ∧
      ctx1.packet.datalen = ctx.packet.datalen ∧ ctx1.reset = ctx.reset ∧
      ctx1.expect_to_recv = ctx.expect_to_recv ∧ ctx1.tx = ctx.tx := by
  unfold server_read_cb_create at hc
  simp only [get_header, get_payload] at hc
  split at hc
  · cases hc
  · rename_i hfind
    simp only [Bool.not_eq_true, Option.not_isSome, Option.isNone_iff_eq_none] at hfind
    simp only [Option.some.injEq] at hc
    subst hc
    refine ⟨_, ?_, hfind, rfl, ?_, ?_, rfl, rfl, rfl, rfl, rfl, rfl⟩
    · split_ifs <;> rfl
    · simp only [try_to_connect_remote, remote_ctx_zero]
      split_ifs <;> rfl
    · simp only [try_to_connect_remote, remote_ctx_zero]
      split_ifs <;> rfl

theorem server_read_cb_create_none (ctx : server_ctx_t)
    (h : RB_FIND ctx.remote_map ctx.packet.session_id = none) :
    ∃ ctx1, server_read_cb_create ctx = some ctx1 := by
  unfold server_read_cb_create
  simp only [get_header, get_payload, h, Option.isSome_none, Bool.false_eq_true, if_false]
  exact ⟨_, rfl⟩

theorem server_read_cb_dispatch_some (ctx ctx1 : server_ctx_t)
    (hc : server_read_cb_dispatch ctx = some ctx1) :
    ctx1.stage = ctx.stage ∧ ctx1.buf_len = ctx.buf_len ∧
    ctx1.packet.datalen = ctx.packet.datalen ∧ ctx1.reset = 0 ∧
    ctx1.expect_to_recv = HDRLEN ∧ ctx1.tx = ctx.tx ∧
    (session_ids ctx1 = session_ids ctx ∨
      (RB_FIND ctx.remote_map ctx.packet.session_id = none ∧ ctx.packet.rsv ≠ CTL_NORMAL ∧
        (session_ids ctx1).Perm (ctx.packet.session_id :: session_ids ctx))) := by
  unfold server_read_cb_dispatch at hc
  simp only at hc
  split at hc
  · split at hc
    · cases hc
    · simp only [Option.some.injEq] at hc
      subst hc
      refine ⟨rfl, rfl, rfl, rfl, rfl, rfl, Or.inl ?_⟩
      exact update_remote_ids _ _ _ (by
        intro x
        split_ifs
        · exact write_head_session_id _
        · rfl)
  · rename_i hnone
    split at hc
    · simp only [Option.some.injEq] at hc
      subst hc
      exact ⟨rfl, rfl, rfl, rfl, rfl, rfl, Or.inl rfl⟩
    · rename_i hrsv
      obtain ⟨r, hk, hf, hm, _, _, h1, h2, h3, h4, h5, h6⟩ := server_read_cb_create_some _ ctx1 hc
      refine ⟨h1, h2, h3, h4, h5, h6, Or.inr ⟨hnone, hrsv, ?_⟩⟩
      simp only [session_ids, hm]
      have := RB_INSERT_ids ctx.remote_map r (by rw [hk]; exact hnone)
      rw [hk] at this
      exact this

theorem server_read_cb_dispatch_nodup (ctx ctx1 : server_ctx_t)
    (hc : server_read_cb_dispatch ctx = some ctx1) (h : (session_ids ctx).Nodup) :
    (session_ids ctx1).Nodup := by
  obtain ⟨_, _, _, _, _, _, h7⟩ := server_read_cb_dispatch_some ctx ctx1 hc
  rcases h7 with h7 | ⟨hn, _, hp⟩
  · rw [h7]
    exact h
  · rw [hp.nodup_iff]
    exact List.nodup_cons.mpr ⟨(RB_FIND_none_ids _ _).mp hn, h⟩

theorem server_read_cb_data_eq (ctx : server_ctx_t) (nread : Nat) (buf : List Nat) :
    server_read_cb_data ctx nread buf
      = server_read_cb_stage (server_read_cb_copy ctx nread buf) := rfl

theorem server_read_cb_copy_ids (ctx : server_ctx_t) (nread : Nat) (buf : List Nat) :
    session_ids (server_read_cb_copy ctx nread buf) = session_ids ctx := by
  unfold server_read_cb_copy session_ids
  simp only
  split <;> rfl

theorem server_read_cb_stage_nodup (ctx ctx1 : server_ctx_t)
    (hc : server_read_cb_stage ctx = some ctx1) (h : (session_ids ctx).Nodup) :
    (session_ids ctx1).Nodup := by
  unfold server_read_cb_stage at hc
  split at hc
  · split at hc
    · split at hc
      · cases hc
      · simp only at hc
        split at hc
        · simp only [Option.some.injEq] at hc
          subst hc
          rw [server_read_cb_close_ids]
          exact h
        · simp only [Option.some.injEq] at hc
          subst hc
          exact h
    · simp only [Option.some.injEq] at hc
      subst hc
      exact h
  · split at hc
    · split at hc
      · exact server_read_cb_dispatch_nodup _ ctx1 hc h
      · split at hc
        · simp only [Option.some.injEq] at hc
          subst hc
          exact h
        · cases hc
    · cases hc

theorem server_read_cb_data_nodup (ctx ctx1 : server_ctx_t) (nread : Nat) (buf : List Nat)
    (hc : server_read_cb_data ctx nread buf = some ctx1) (h : (session_ids ctx).Nodup) :
    (session_ids ctx1).Nodup := by
  rw [server_read_cb_data_eq] at hc
  exact server_read_cb_stage_nodup _ ctx1 hc (by rw [server_read_cb_copy_ids]; exact h)

theorem step_nodup (ctx ctx1 : server_ctx_t) (e : event) (hc : step ctx e = some ctx1)
    (h : (session_ids ctx).Nodup) : (session_ids ctx1).Nodup := by
  cases e with
  | server_read nread buf =>
    simp only [step, server_read_cb] at hc
    split at hc
    · split at hc
      · simp only [Option.some.injEq] at hc
        subst hc
        exact h
      · split at hc
        · simp only [Option.some.injEq] at hc
          subst hc
          rw [server_exception_ids]
          exact h
        · simp only [Option.some.injEq] at hc
          subst hc
          exact h
    · exact server_read_cb_data_nodup ctx ctx1 _ buf hc h
  | server_written status =>
    simp only [step, Option.some.injEq] at hc
    subst hc
    rw [server_write_cb_ids]
    exact h
  | remote_read sid nread buf =>
    simp only [step, Option.some.injEq] at hc
    subst hc
    rw [remote_read_cb_ids]
    exact h
  | remote_written sid status =>
    simp only [step, Option.some.injEq] at hc
    subst hc
    rw [remote_write_cb_ids]
    exact h
  | remote_connected sid status =>
    simp only [step, Option.some.injEq] at hc
    subst hc
    rw [remote_on_connect_cb_ids]
    exact h
  | remote_resolved sid status ai_family addr r =>
    simp only [step, Option.some.injEq] at hc
    subst hc
    rw [remote_addr_resolved_cb_ids]
    exact h
  | remote_timeout sid =>
    simp only [step, Option.some.injEq] at hc
    subst hc
    rw [remote_timeout_cb_ids]
    exact h
  | remote_closed sid =>
    simp only [step, Option.some.injEq] at hc
    subst hc
    exact (remote_after_close_cb_ids ctx sid).nodup h

theorem run_nodup (es : List event) :
    ∀ ctx ctx1 : server_ctx_t, (session_ids ctx).Nodup → run ctx es = some ctx1 →
      (session_ids ctx1).Nodup := by
  induction es with
  | nil =>
    intro ctx ctx1 h hc
    simp only [run, Option.some.injEq] at hc
    subst hc
    exact h
  | cons e rest ih =>
    intro ctx ctx1 h hc
    simp only [run] at hc
    cases hs : step ctx e with
    | none =>
      rw [hs] at hc
      cases hc
    | some c =>
      rw [hs] at hc
      exact ih c ctx1 (step_nodup ctx c e hs h) hc

theorem recv_all_frame_dispatch (ctx : server_ctx_t) (hdr body : List Nat)
    (chunks : List (List Nat)) (h0 : ctx.reset = 0) (he : ctx.expect_to_recv = HDRLEN)
    (hlen : hdr.length = 7) (hcmd : (read_header hdr 0).1.2.1 ≠ CTL_CLOSE)
    (hd : (read_header hdr 0).1.2.2 = body.length) (hb : 1 ≤ body.length)
    (hcap : reads_capped ctx chunks = true) (hj : chunks.flatten = hdr ++ body) :
    recv_all ctx chunks = server_read_cb_dispatch (frame_done ctx hdr body) := by
  have hne : body ≠ [] := by
    intro h
    simp [h] at hb
  rw [recv_all_frame ctx hdr body chunks h0 he hlen hcmd hd hb hcap hj]
  simp only [recv_all]
  rw [recv_header ctx hdr h0 hlen, if_neg hcmd]
  simp only
  rw [recv_body ctx hdr body hlen hne hd]
  cases server_read_cb_dispatch (frame_done ctx hdr body) <;> rfl

/-! ### The state at a failed assertion of the dispatch -/

theorem update_remote_twice (m : List remote_ctx_t) (sid : Nat)
    (f g : remote_ctx_t → remote_ctx_t) (hf : ∀ r, (f r).session_id = r.session_id) :
    update_remote (update_remote m sid f) sid g = update_remote m sid (fun r => g (f r)) := by
  simp only [update_remote, List.map_map]
  apply List.map_congr_left
  intro r _
  simp only [Function.comp]
  by_cases h : r.session_id = sid
  · simp [h, hf]
  · simp [h]

theorem server_read_cb_create_eq (ctx : server_ctx_t) :
    server_read_cb_create ctx = (server_read_cb_create_steps ctx).toOption := by
  unfold server_read_cb_create server_read_cb_create_steps
  simp only [get_header, get_payload]
  split <;> rfl

theorem server_read_cb_dispatch_eq (ctx : server_ctx_t) :
    server_read_cb_dispatch ctx = (server_read_cb_dispatch_steps ctx).toOption := by
  cases hfind : RB_FIND ctx.remote_map ctx.packet.session_id with
  | some r =>
    by_cases hrsv : ctx.packet.rsv = CTL_INIT
    · simp only [server_read_cb_dispatch, server_read_cb_dispatch_steps, hfind, hrsv, if_true]
      rfl
    · simp only [server_read_cb_dispatch, server_read_cb_dispatch_steps, hfind, hrsv, if_false,
        get_header, Except.toOption]
      rw [update_remote_twice]
      intro x
      rfl
  | none =>
    by_cases hrsv : ctx.packet.rsv = CTL_NORMAL
    · simp only [server_read_cb_dispatch, server_read_cb_dispatch_steps, hfind, hrsv, if_true]
      rfl
    · simp only [server_read_cb_dispatch, server_read_cb_dispatch_steps, hfind, hrsv, if_false]
      exact server_read_cb_create_eq _

/-- C12: a duplicate INIT is fatal.  The dispatch of a complete frame with
cmd = INIT whose session id is in the session table fails on the assertion of
line 446, and the state in which it fails has the session table and the
tunnel's writes as they were before the dispatch: the session found is
unchanged (its queue, its writes), nothing was queued and no write was issued.
This is what an INIT frame for a known id does when it arrives, in any split
into reads.  And in every state the event loop can reach no two entries of the
session table have the same id. -/
theorem duplicate_init_asserts :
    (∀ ctx : server_ctx_t,
      server_read_cb_dispatch ctx = (server_read_cb_dispatch_steps ctx).toOption) ∧
    (∀ (ctx : server_ctx_t) (r : remote_ctx_t),
      RB_FIND ctx.remote_map ctx.packet.session_id = some r → ctx.packet.rsv = CTL_INIT →
      server_read_cb_dispatch ctx = none ∧
      ∃ s, server_read_cb_dispatch_steps ctx = Except.error s ∧
        s.remote_map = ctx.remote_map ∧ s.tx = ctx.tx ∧
        RB_FIND s.remote_map ctx.packet.session_id = some r) ∧
    (∀ (ctx : server_ctx_t) (sid : Nat) (r : remote_ctx_t) (body : List Nat)
        (chunks : List (List Nat)),
      ctx.reset = 0 → ctx.expect_to_recv = HDRLEN → sid < 2 ^ 32 →
      1 ≤ body.length → body.length < 2 ^ 16 →
      RB_FIND ctx.remote_map sid = some r →
      reads_capped ctx chunks = true →
      chunks.flatten = wire_header sid CTL_INIT body.length ++ body →
      recv_all ctx chunks
          = server_read_cb_dispatch (frame_done ctx (wire_header sid CTL_INIT body.length) body) ∧
        (frame_done ctx (wire_header sid CTL_INIT body.length) body).remote_map
          = ctx.remote_map ∧
        recv_all ctx chunks = none ∧
        ∃ s, server_read_cb_dispatch_steps
              (frame_done ctx (wire_header sid CTL_INIT body.length) body) = Except.error s ∧
          s.remote_map = ctx.remote_map ∧ s.tx = ctx.tx ∧
          RB_FIND s.remote_map sid = some r) ∧
    (∀ (es : List event) (ctx : server_ctx_t),
      run server_accept_cb es = some ctx → (session_ids ctx).Nodup) := by
  have hdisp : ∀ (ctx : server_ctx_t) (r : remote_ctx_t),
      RB_FIND ctx.remote_map ctx.packet.session_id = some r → ctx.packet.rsv = CTL_INIT →
      server_read_cb_dispatch ctx = none ∧
      ∃ s, server_read_cb_dispatch_steps ctx = Except.error s ∧
        s.remote_map = ctx.remote_map ∧ s.tx = ctx.tx ∧
        RB_FIND s.remote_map ctx.packet.session_id = some r := by
    intro ctx r hf hr
    refine ⟨?_, ?_⟩
    · simp only [server_read_cb_dispatch, hf, hr, if_true]
    · simp only [server_read_cb_dispatch_steps, hf, hr, if_true]
      exact ⟨_, rfl, rfl, rfl, hf⟩
  refine ⟨server_read_cb_dispatch_eq, hdisp, ?_, ?_⟩
  · intro ctx sid r body chunks h0 he hs hb1 hb2 hfind hcap hj
    have hh := read_header_wire sid CTL_INIT body.length hs (by decide) hb2
    have h1 : (read_header (wire_header sid CTL_INIT body.length) 0).1.1 = sid := by rw [hh]
    have h2 : (read_header (wire_header sid CTL_INIT body.length) 0).1.2.1 = CTL_INIT := by
      rw [hh]
    have h3 : (read_header (wire_header sid CTL_INIT body.length) 0).1.2.2 = body.length := by
      rw [hh]
    have hnc : (read_header (wire_header sid CTL_INIT body.length) 0).1.2.1 ≠ CTL_CLOSE := by
      rw [h2]
      decide
    have hd := recv_all_frame_dispatch ctx _ body chunks h0 he (wire_header_length _ _ _) hnc h3
      hb1 hcap hj
    have hsid : (frame_done ctx (wire_header sid CTL_INIT body.length) body).packet.session_id
        = sid := by
      simp [frame_done, header_done, h1]
    obtain ⟨hn, s, hs1, hs2, hs3, hs4⟩ :=
      hdisp (frame_done ctx (wire_header sid CTL_INIT body.length) body) r
        (by simpa [frame_done, header_done, h1] using hfind)
        (by simp [frame_done, header_done, h2])
    refine ⟨hd, rfl, ?_, s, hs1, hs2, hs3, ?_⟩
    · rw [hd]
      exact hn
    · rw [hsid] at hs4
      exact hs4
  · intro es ctx hrun
    exact run_nodup es server_accept_cb ctx (by simp [session_ids, server_accept_cb]) hrun

/-- Witness of C12: in scenario S1 the peer sends the INIT frame of session 1 a
second time. -/
theorem duplicate_init_asserts_witness :
    (server_read_cb_dispatch (frame_done S1_open_state [0, 0, 0, 1, 1, 0, 10]
        [1, 4, 127, 0, 0, 1, 0, 80, 71, 69]) = none ∧
      ∃ s, server_read_cb_dispatch_steps (frame_done S1_open_state [0, 0, 0, 1, 1, 0, 10]
          [1, 4, 127, 0, 0, 1, 0, 80, 71, 69]) = Except.error s ∧
        s.remote_map = (frame_done S1_open_state [0, 0, 0, 1, 1, 0, 10]
          [1, 4, 127, 0, 0, 1, 0, 80, 71, 69]).remote_map ∧
        s.tx = (frame_done S1_open_state [0, 0, 0, 1, 1, 0, 10]
          [1, 4, 127, 0, 0, 1, 0, 80, 71, 69]).tx ∧
        RB_FIND s.remote_map (frame_done S1_open_state [0, 0, 0, 1, 1, 0, 10]
          [1, 4, 127, 0, 0, 1, 0, 80, 71, 69]).packet.session_id
          = some (init_session 1 1 1 [127, 0, 0, 1] [0, 80] [71, 69])) ∧
    (recv_all S1_open_state [[0, 0, 0, 1, 1, 0, 10], [1, 4, 127, 0, 0, 1, 0, 80, 71, 69]]
        = none ∧
      ∃ s, server_read_cb_dispatch_steps
            (frame_done S1_open_state (wire_header 1 CTL_INIT
              [1, 4, 127, 0, 0, 1, 0, 80, 71, 69].length)
              [1, 4, 127, 0, 0, 1, 0, 80, 71, 69]) = Except.error s ∧
        s.remote_map = S1_open_state.remote_map ∧ s.tx = S1_open_state.tx ∧
        RB_FIND s.remote_map 1 = some (init_session 1 1 1 [127, 0, 0, 1] [0, 80] [71, 69])) ∧
    (session_ids S1_state).Nodup :=
  ⟨duplicate_init_asserts.2.1
      (frame_done S1_open_state [0, 0, 0, 1, 1, 0, 10] [1, 4, 127, 0, 0, 1, 0, 80, 71, 69])
      (init_session 1 1 1 [127, 0, 0, 1] [0, 80] [71, 69]) (by decide) (by decide),
   (duplicate_init_asserts.2.2.1 S1_open_state 1
      (init_session 1 1 1 [127, 0, 0, 1] [0, 80] [71, 69])
      [1, 4, 127, 0, 0, 1, 0, 80, 71, 69]
      [[0, 0, 0, 1, 1, 0, 10], [1, 4, 127, 0, 0, 1, 0, 80, 71, 69]]
      (by decide) (by decide) (by decide) (by decide) (by decide) (by decide) (by decide)
      (by decide)).2.2,
   duplicate_init_asserts.2.2.2 S1_events S1_state (by decide)⟩

theorem server_read_cb_copy_map (ctx : server_ctx_t) (nread : Nat) (buf : List Nat) :
    (server_read_cb_copy ctx nread buf).remote_map = ctx.remote_map := by
  unfold server_read_cb_copy
  simp only
  split <;> rfl

theorem server_read_cb_stage_ids (k ctx1 : server_ctx_t)
    (hc : server_read_cb_stage k = some ctx1) :
    session_ids ctx1 = session_ids k ∨
      (server_read_cb_dispatch k = some ctx1 ∧
        RB_FIND k.remote_map k.packet.session_id = none ∧ k.packet.rsv ≠ CTL_NORMAL ∧
        (session_ids ctx1).Perm (k.packet.session_id :: session_ids k)) := by
  unfold server_read_cb_stage at hc
  split at hc
  · split at hc
    · split at hc
      · cases hc
      · simp only at hc
        split at hc
        · simp only [Option.some.injEq] at hc
          subst hc
          exact Or.inl (server_read_cb_close_ids _)
        · simp only [Option.some.injEq] at hc
          subst hc
          exact Or.inl rfl
    · simp only [Option.some.injEq] at hc
      subst hc
      exact Or.inl rfl
  · split at hc
    · split at hc
      · obtain ⟨_, _, _, _, _, _, h7⟩ := server_read_cb_dispatch_some k ctx1 hc
        rcases h7 with h7 | ⟨h8, h9, h10⟩
        · exact Or.inl h7
        · exact Or.inr ⟨hc, h8, h9, h10⟩
      · split at hc
        · simp only [Option.some.injEq] at hc
          subst hc
          exact Or.inl rfl
        · cases hc
    · cases hc

/-- C17 as stated fails: on a fresh tunnel the complete frame
`000000FF 05 0004 01 00 0050` (cmd 0x05, CLOSE_ACK, for the unknown id 0xFF)
leaves a session with id 0xFF in the session table. -/
theorem close_ack_unknown_creates_session :
    (recv_all server_accept_cb [[0, 0, 0, 255, 5, 0, 4], [1, 0, 0, 80]]).map
        (fun c => (session_ids c, session_ids server_accept_cb))
      = some ([255], []) := by
  decide

/-- C17 (amended): the dispatch of a complete frame whose session id is not in
the session table leaves the table unchanged when cmd is NORMAL, and for every
other cmd (INIT, CLOSE_ACK or an undefined value) creates a session with that
id and inserts it.  Nothing else inserts: a callback other than a read on the
tunnel adds no id to the table, and a read on the tunnel that changes the ids
in the table is the dispatch of a frame whose cmd is not NORMAL and whose id
was not in the table. -/
theorem session_created_unless_normal :
    (∀ ctx : server_ctx_t, ctx.packet.rsv = CTL_NORMAL →
      RB_FIND ctx.remote_map ctx.packet.session_id = none →
      ∃ ctx1, server_read_cb_dispatch ctx = some ctx1 ∧ ctx1.remote_map = ctx.remote_map) ∧
    (∀ ctx : server_ctx_t, ctx.packet.rsv ≠ CTL_NORMAL →
      RB_FIND ctx.remote_map ctx.packet.session_id = none →
      ∃ ctx1 r, server_read_cb_dispatch ctx = some ctx1 ∧
        r.session_id = ctx.packet.session_id ∧
        ctx1.remote_map = RB_INSERT ctx.remote_map r ∧
        RB_FIND ctx1.remote_map ctx.packet.session_id = some r) ∧
    (∀ (ctx ctx1 : server_ctx_t) (e : event), step ctx e = some ctx1 →
      (∀ nread buf, e ≠ event.server_read nread buf) →
      (session_ids ctx1).Sublist (session_ids ctx)) ∧
    (∀ (ctx ctx1 : server_ctx_t) (nread : Int) (buf : List Nat),
      server_read_cb ctx nread buf = some ctx1 → session_ids ctx1 ≠ session_ids ctx →
      server_read_cb_dispatch (server_read_cb_copy ctx nread.toNat buf) = some ctx1 ∧
        (server_read_cb_copy ctx nread.toNat buf).packet.rsv ≠ CTL_NORMAL ∧
        RB_FIND ctx.remote_map (server_read_cb_copy ctx nread.toNat buf).packet.session_id
          = none) := by
  refine ⟨?_, ?_, ?_, ?_⟩
  · intro ctx hr hn
    refine ⟨{ ctx with reset := 0, expect_to_recv := HDRLEN }, ?_, rfl⟩
    simp only [server_read_cb_dispatch, hn, hr, if_true]
  · intro ctx hr hn
    obtain ⟨ctx1, hc⟩ := server_read_cb_create_none
      { { ctx with reset := 0 } with expect_to_recv := HDRLEN } hn
    obtain ⟨r, hk, _, hm, _⟩ := server_read_cb_create_some _ ctx1 hc
    refine ⟨ctx1, r, ?_, hk, hm, ?_⟩
    · simp only [server_read_cb_dispatch, hn, hr, if_false]
      exact hc
    · have hk1 : r.session_id = ctx.packet.session_id := hk
      have hm1 : ctx1.remote_map = RB_INSERT ctx.remote_map r := hm
      rw [hm1, RB_FIND_insert _ _ _ (by rw [hk1]; exact hn), hk1]
      simp
  · intro ctx ctx1 e hc hne
    cases e with
    | server_read nread buf => exact absurd rfl (hne nread buf)
    | server_written status =>
      simp only [step, Option.some.injEq] at hc
      subst hc
      rw [server_write_cb_ids]
    | remote_read sid nread buf =>
      simp only [step, Option.some.injEq] at hc
      subst hc
      rw [remote_read_cb_ids]
    | remote_written sid status =>
      simp only [step, Option.some.injEq] at hc
      subst hc
      rw [remote_write_cb_ids]
    | remote_connected sid status =>
      simp only [step, Option.some.injEq] at hc
      subst hc
      rw [remote_on_connect_cb_ids]
    | remote_resolved sid status ai_family addr r =>
      simp only [step, Option.some.injEq] at hc
      subst hc
      rw [remote_addr_resolved_cb_ids]
    | remote_timeout sid =>
      simp only [step, Option.some.injEq] at hc
      subst hc
      rw [remote_timeout_cb_ids]
    | remote_closed sid =>
      simp only [step, Option.some.injEq] at hc
      subst hc
      exact remote_after_close_cb_ids ctx sid
  · intro ctx ctx1 nread buf hc hne
    unfold server_read_cb at hc
    split at hc
    · exfalso
      apply hne
      split at hc
      · simp only [Option.some.injEq] at hc
        subst hc
        rfl
      · split at hc
        · simp only [Option.some.injEq] at hc
          subst hc
          exact server_exception_ids ctx
        · simp only [Option.some.injEq] at hc
          subst hc
          rfl
    · rw [server_read_cb_data_eq] at hc
      rcases server_read_cb_stage_ids _ ctx1 hc with h | ⟨h1, h2, h3, _⟩
      · rw [server_read_cb_copy_ids] at h
        exact absurd h hne
      · rw [server_read_cb_copy_map] at h2
        exact ⟨h1, h3, h2⟩

/-- Witness of C17 (amended): a NORMAL frame and a frame with cmd 0x05 for the
unknown id 0xFF on a fresh tunnel, the callbacks of scenario S1, and the read
that dispatches the frame `000000FF 05 0004 01 00 0050`. -/
theorem session_created_unless_normal_witness :
    (∃ ctx1, server_read_cb_dispatch
        (frame_done server_accept_cb [0, 0, 0, 255, 2, 0, 3] [65, 66, 67]) = some ctx1 ∧
      ctx1.remote_map
        = (frame_done server_accept_cb [0, 0, 0, 255, 2, 0, 3] [65, 66, 67]).remote_map) ∧
    (∃ ctx1 r, server_read_cb_dispatch
        (frame_done server_accept_cb [0, 0, 0, 255, 5, 0, 4] [1, 0, 0, 80]) = some ctx1 ∧
      r.session_id
        = (frame_done server_accept_cb [0, 0, 0, 255, 5, 0, 4] [1, 0, 0, 80]).packet.session_id ∧
      ctx1.remote_map = RB_INSERT
        (frame_done server_accept_cb [0, 0, 0, 255, 5, 0, 4] [1, 0, 0, 80]).remote_map r ∧
      RB_FIND ctx1.remote_map
        (frame_done server_accept_cb [0, 0, 0, 255, 5, 0, 4] [1, 0, 0, 80]).packet.session_id
        = some r) ∧
    (session_ids (remote_after_close_cb S1_state 1)).Sublist (session_ids S1_state) ∧
    (server_read_cb_dispatch (server_read_cb_copy
        (header_done server_accept_cb [0, 0, 0, 255, 5, 0, 4]) (4 : Int).toNat [1, 0, 0, 80])
        = some ((recv (header_done server_accept_cb [0, 0, 0, 255, 5, 0, 4])
            [1, 0, 0, 80]).getD server_accept_cb) ∧
      (server_read_cb_copy (header_done server_accept_cb [0, 0, 0, 255, 5, 0, 4])
        (4 : Int).toNat [1, 0, 0, 80]).packet.rsv ≠ CTL_NORMAL ∧
      RB_FIND (header_done server_accept_cb [0, 0, 0, 255, 5, 0, 4]).remote_map
        (server_read_cb_copy (header_done server_accept_cb [0, 0, 0, 255, 5, 0, 4])
          (4 : Int).toNat [1, 0, 0, 80]).packet.session_id = none) :=
  ⟨session_created_unless_normal.1
      (frame_done server_accept_cb [0, 0, 0, 255, 2, 0, 3] [65, 66, 67]) (by decide) (by decide),
   session_created_unless_normal.2.1
      (frame_done server_accept_cb [0, 0, 0, 255, 5, 0, 4] [1, 0, 0, 80]) (by decide)
      (by decide),
   session_created_unless_normal.2.2.1 S1_state (remote_after_close_cb S1_state 1)
      (event.remote_closed 1) rfl (fun _ _ h => by cases h),
   session_created_unless_normal.2.2.2 (header_done server_accept_cb [0, 0, 0, 255, 5, 0, 4])
      ((recv (header_done server_accept_cb [0, 0, 0, 255, 5, 0, 4]) [1, 0, 0, 80]).getD
        server_accept_cb) 4 [1, 0, 0, 80] (by decide) (by decide)⟩

/-- C11 as stated fails: on a fresh tunnel the complete INIT frame of session 9
with atyp 0x04 (address ::1, port 80, payload "GE") hands nothing to the tunnel
writer and leaves session 9 in the table with its handle not closing; the idle
timeout that follows only records a closing request: still nothing is handed
to the tunnel writer, the handle is not closed and the id stays in the table. -/
theorem ipv6_init_not_rejected :
    recv_all server_accept_cb
        [[0, 0, 0, 9, 1, 0, 22],
         [4, 16, 0, 0, 0, 0, 0, 0, 0, 0, 0, 0, 0, 0, 0, 0, 0, 1, 0, 80, 71, 69]]
      = some ipv6_state ∧
    ipv6_state.tx = [] ∧ session_ids ipv6_state = [9] ∧
    (RB_FIND ipv6_state.remote_map 9).map (fun r => (r.handle_closing, r.closing))
      = some (false, 0) ∧
    (remote_timeout_cb ipv6_state 9).tx = [] ∧
    session_ids (remote_timeout_cb ipv6_state 9) = [9] ∧
    (RB_FIND (remote_timeout_cb ipv6_state 9).remote_map 9).map
        (fun r => (r.handle_closing, r.closing))
      = some (false, 1) := by
  refine ⟨by decide, by decide, by decide, by decide, by decide, by decide, by decide⟩

/-- C11 (amended): a complete INIT frame with atyp = 0x04 for a session id that
is not in the table, arriving at a frame boundary in any split into reads, is
not rejected at dispatch: nothing is handed to the tunnel writer, and a session
with that id is in the table afterwards, with the address, the port and the
queued payload of the frame, its handle not closing, no closing request, and
neither a name lookup nor a connect requested for it. -/
theorem ipv6_init_creates_idle_session (ctx : server_ctx_t) (sid : Nat)
    (addr port payload : List Nat) (chunks : List (List Nat))
    (h0 : ctx.reset = 0) (he : ctx.expect_to_recv = HDRLEN) (hs : sid < 2 ^ 32)
    (hport : port.length = 2) (hlen : (init_body 4 addr port payload).length < 2 ^ 16)
    (hnot : RB_FIND ctx.remote_map sid = none) (hcap : reads_capped ctx chunks = true)
    (hj : chunks.flatten = wire_header sid CTL_INIT (init_body 4 addr port payload).length
            ++ init_body 4 addr port payload) :
    ∃ ctx1 r, recv_all ctx chunks = some ctx1 ∧ ctx1.tx = ctx.tx ∧
      RB_FIND ctx1.remote_map sid = some r ∧
      r.host = addr ∧ r.port = port ∧
      r.send_queue = [{ data := payload, payloadlen := payload.length }] ∧
      r.handle_closing = false ∧ r.closing = 0 ∧ r.resolved = 0 ∧
      r.dns_reqs = 0 ∧ r.connect_reqs = 0 := by
  obtain ⟨ctx1, hc1, hm, ht, _⟩ := recv_all_init_frame ctx sid CTL_INIT 4 addr port payload chunks
    h0 he hs (by decide) (by decide) (by decide) hport hlen hnot hcap hj
  have hkey : (init_session sid CTL_INIT 4 addr port payload).session_id = sid := rfl
  refine ⟨ctx1, init_session sid CTL_INIT 4 addr port payload, hc1, ht, ?_, rfl, rfl, rfl, rfl,
    rfl, rfl, rfl, rfl⟩
  rw [hm, RB_FIND_insert _ _ _ (by rw [hkey]; exact hnot), hkey]
  simp

/-- Witness of C11 (amended): the INIT frame of session 9 for ::1, port 80,
payload "GE", on a fresh tunnel. -/
theorem ipv6_init_creates_idle_session_witness :
    ∃ ctx1 r, recv_all server_accept_cb
        [[0, 0, 0, 9, 1, 0, 22],
         [4, 16, 0, 0, 0, 0, 0, 0, 0, 0, 0, 0, 0, 0, 0, 0, 0, 1, 0, 80, 71, 69]] = some ctx1 ∧
      ctx1.tx = server_accept_cb.tx ∧
      RB_FIND ctx1.remote_map 9 = some r ∧
      r.host = [0, 0, 0, 0, 0, 0, 0, 0, 0, 0, 0, 0, 0, 0, 0, 1] ∧ r.port = [0, 80] ∧
      r.send_queue = [{ data := [71, 69], payloadlen := [71, 69].length }] ∧
      r.handle_closing = false ∧ r.closing = 0 ∧ r.resolved = 0 ∧
      r.dns_reqs = 0 ∧ r.connect_reqs = 0 :=
  ipv6_init_creates_idle_session server_accept_cb 9
    [0, 0, 0, 0, 0, 0, 0, 0, 0, 0, 0, 0, 0, 0, 0, 1] [0, 80] [71, 69]
    [[0, 0, 0, 9, 1, 0, 22],
     [4, 16, 0, 0, 0, 0, 0, 0, 0, 0, 0, 0, 0, 0, 0, 0, 0, 1, 0, 80, 71, 69]]
    rfl rfl (by decide) rfl (by decide) rfl (by decide) (by decide)

/-- C14 as stated fails: on a fresh tunnel the header `000000FE 04 0001` (CLOSE
with datalen 1) does not move the parser to READING_BODY with
expect_to_recv = 1: the close is handled (CLOSE_ACK handed to the tunnel
writer), a reset is left pending with expect_to_recv = HDR, and the byte that
follows is taken as the first byte of a new header. -/
theorem close_with_datalen_resets :
    (recv server_accept_cb [0, 0, 0, 254, 4, 0, 1]).map
        (fun c => (c.reset, c.expect_to_recv, c.tx))
      = some (0, 7, [[0, 0, 0, 254, 5, 0, 0]]) ∧
    (recv_all server_accept_cb [[0, 0, 0, 254, 4, 0, 1], [65]]).map
        (fun c => (c.stage, c.buf_len, c.expect_to_recv, c.packet_buf))
      = some (0, 1, 6, [65]) := by
  refine ⟨by decide, by decide⟩

/-- C14 (amended): when the header stage reaches buf_len == HDR (the 7 header
bytes arriving at a frame boundary in any split into reads), the decoded
header decides the next parser state: if cmd == CLOSE, whatever datalen is,
the close is handled and a reset is left pending with expect_to_recv = HDR, so
that the next read starts a header from an empty buffer (stage READING_HEADER,
buf_len counting that read alone); in every other case the parser is in
READING_BODY with expect_to_recv = datalen and buf_len = HDR, the session
table and the emitted buffers as they were. -/
theorem header_decides_stage (ctx : server_ctx_t) (hdr : List Nat) (chunks : List (List Nat))
    (h0 : ctx.reset = 0) (he : ctx.expect_to_recv = HDRLEN) (hlen : hdr.length = 7)
    (hcap : reads_capped ctx chunks = true) (hj : chunks.flatten = hdr) :
    ∃ ctx1, recv_all ctx chunks = some ctx1 ∧
      ((read_header hdr 0).1.2.1 = CTL_CLOSE →
        ctx1 = server_read_cb_close (header_done ctx hdr) ∧
        ctx1.reset = 0 ∧ ctx1.expect_to_recv = HDRLEN ∧
        ∀ p : List Nat, p ≠ [] → p.length < 7 →
          ∃ c2, recv ctx1 p = some c2 ∧ c2.stage = 0 ∧ c2.buf_len = p.length ∧
            c2.packet_buf = p ∧ c2.expect_to_recv = HDRLEN - p.length) ∧
      ((read_header hdr 0).1.2.1 ≠ CTL_CLOSE →
        ctx1.stage = 1 ∧ ctx1.expect_to_recv = (read_header hdr 0).1.2.2 ∧
        ctx1.reset ≠ 0 ∧ ctx1.buf_len = HDRLEN ∧
        ctx1.remote_map = ctx.remote_map ∧ ctx1.tx = ctx.tx) := by
  rw [recv_all_header ctx hdr chunks h0 he hlen hcap hj, recv_header ctx hdr h0 hlen]
  by_cases hc : (read_header hdr 0).1.2.1 = CTL_CLOSE
  · rw [if_pos hc]
    refine ⟨_, rfl, ?_, ?_⟩
    · intro _
      have hr : (server_read_cb_close (header_done ctx hdr)).reset = 0 := by
        simp only [server_read_cb_close]
      refine ⟨rfl, hr, ?_, ?_⟩
      · simp only [server_read_cb_close, EXP_TO_RECV_LEN, HDRLEN]
      · intro p hp hlt
        exact ⟨_, recv_header_part_start _ p hr hp hlt, rfl, rfl, rfl, rfl⟩
    · intro hn
      exact absurd hc hn
  · rw [if_neg hc]
    refine ⟨_, rfl, ?_, ?_⟩
    · intro hn
      exact absurd hn hc
    · intro _
      refine ⟨rfl, rfl, ?_, rfl, rfl, rfl⟩
      simp [header_done]

/-- Witness of C14 (amended): the CLOSE header of scenario S5 with datalen 1, on
a fresh tunnel. -/
theorem header_decides_stage_witness :
    ∃ ctx1, recv_all server_accept_cb [[0, 0, 0, 254, 4, 0, 1]] = some ctx1 ∧
      ((read_header [0, 0, 0, 254, 4, 0, 1] 0).1.2.1 = CTL_CLOSE →
        ctx1 = server_read_cb_close (header_done server_accept_cb [0, 0, 0, 254, 4, 0, 1]) ∧
        ctx1.reset = 0 ∧ ctx1.expect_to_recv = HDRLEN ∧
        ∀ p : List Nat, p ≠ [] → p.length < 7 →
          ∃ c2, recv ctx1 p = some c2 ∧ c2.stage = 0 ∧ c2.buf_len = p.length ∧
            c2.packet_buf = p ∧ c2.expect_to_recv = HDRLEN - p.length) ∧
      ((read_header [0, 0, 0, 254, 4, 0, 1] 0).1.2.1 ≠ CTL_CLOSE →
        ctx1.stage = 1 ∧ ctx1.expect_to_recv = (read_header [0, 0, 0, 254, 4, 0, 1] 0).1.2.2 ∧
        ctx1.reset ≠ 0 ∧ ctx1.buf_len = HDRLEN ∧
        ctx1.remote_map = server_accept_cb.remote_map ∧ ctx1.tx = server_accept_cb.tx) :=
  header_decides_stage server_accept_cb [0, 0, 0, 254, 4, 0, 1] [[0, 0, 0, 254, 4, 0, 1]]
    rfl rfl rfl (by decide) (by decide)

/-- C15 fails on the code at datalen 0: in scenario S1, with session 1 open,
the complete frame `00000001 02 0000` (NORMAL, empty body) leaves the parser in
READING_BODY with buf_len == HDR + datalen, and nothing is dispatched or
reset: the session has received no further frame, reset stays set and the next
buffer offered is empty (expect_to_recv = 0).  The first byte of a following
frame then fails the assertion of line 540, and a failed read tears the tunnel
down. -/
theorem zero_length_frame_not_dispatched :
    recv S1_open_state [0, 0, 0, 1, 2, 0, 0] = some zero_length_state ∧
    zero_length_state.stage = 1 ∧
    zero_length_state.buf_len = HDRLEN + zero_length_state.packet.datalen ∧
    zero_length_state.remote_map = S1_open_state.remote_map ∧
    zero_length_state.reset = 1 ∧ zero_length_state.expect_to_recv = 0 ∧
    server_alloc_cb zero_length_state = 0 ∧
    recv zero_length_state [0] = none ∧
    (server_read_cb zero_length_state (-105) []).map (fun c => c.handle_closing)
      = some true := by
  refine ⟨by decide, by decide, by decide, by decide, by decide, by decide, by decide,
    by decide, by decide⟩

/-! ### The parser under reads that fit the offered buffer -/

theorem server_read_cb_copy_reset (ctx : server_ctx_t) (nread : Nat) (buf : List Nat) :
    (server_read_cb_copy ctx nread buf).reset ≠ 0 := by
  unfold server_read_cb_copy
  simp only
  split
  · simp [packetnbuf_reset]
  · assumption

theorem server_read_cb_copy_bounds (ctx : server_ctx_t) (nread : Nat) (buf : List Nat)
    (h : parser_capped ctx) (hn : nread ≤ ctx.expect_to_recv) :
    ((server_read_cb_copy ctx nread buf).stage = 0 ∧
        (server_read_cb_copy ctx nread buf).buf_len ≤ EXP_TO_RECV_LEN) ∨
      ((server_read_cb_copy ctx nread buf).stage = 1 ∧
        (server_read_cb_copy ctx nread buf).buf_len
          ≤ (server_read_cb_copy ctx nread buf).packet.datalen + HDRLEN) := by
  obtain ⟨hst, h0, h1, h2⟩ := h
  unfold server_read_cb_copy
  simp only
  by_cases hr : ctx.reset = 0
  · left
    have := h0 hr
    simp only [hr, if_true, packetnbuf_reset, EXP_TO_RECV_LEN, HDRLEN, true_and] at this ⊢
    omega
  · simp only [hr, if_false]
    rcases hst with ⟨hs, _⟩ | ⟨hs, _⟩
    · left
      have := h1 hr hs
      simp only [EXP_TO_RECV_LEN, HDRLEN] at this ⊢
      exact ⟨hs, by omega⟩
    · right
      have := h2 hr hs
      simp only [HDRLEN] at this ⊢
      exact ⟨hs, by omega⟩

theorem server_read_cb_stage_capped (k ctx1 : server_ctx_t) (hr : k.reset ≠ 0)
    (hc : server_read_cb_stage k = some ctx1) : parser_capped ctx1 := by
  unfold server_read_cb_stage at hc
  split at hc
  · rename_i hs0
    split at hc
    · split at hc
      · cases hc
      · rename_i hge hgt
        simp only at hc
        split at hc
        · simp only [Option.some.injEq] at hc
          subst hc
          refine ⟨Or.inr ⟨?_, ?_⟩, ?_, ?_, ?_⟩
          · simp only [server_read_cb_close]
            split <;> rfl
          · have e1 : (server_read_cb_close { k with
                packet := { k.packet with
                  session_id := (read_header k.packet_buf k.packet.offset).1.1,
                  rsv := (read_header k.packet_buf k.packet.offset).1.2.1,
                  datalen := (read_header k.packet_buf k.packet.offset).1.2.2,
                  offset := (read_header k.packet_buf k.packet.offset).2 },
                expect_to_recv := (read_header k.packet_buf k.packet.offset).1.2.2,
                stage := 1 }).buf_len = k.buf_len := by
              simp only [server_read_cb_close]
              split <;> rfl
            rw [e1]
            simp only [EXP_TO_RECV_LEN, HDRLEN] at hge hgt ⊢
            omega
          · intro _
            simp only [server_read_cb_close, EXP_TO_RECV_LEN, HDRLEN]
          · intro hx
            exact absurd (by simp only [server_read_cb_close]) hx
          · intro hx
            exact absurd (by simp only [server_read_cb_close]) hx
        · simp only [Option.some.injEq] at hc
          subst hc
          simp only [EXP_TO_RECV_LEN, HDRLEN] at hge hgt
          refine ⟨Or.inr ⟨rfl, ?_⟩, ?_, ?_, ?_⟩
          · simp only [HDRLEN]
            omega
          · intro hx
            exact absurd hx hr
          · intro _ hx
            simp at hx
          · intro _ _
            simp only [HDRLEN]
            omega
    · rename_i hlt
      simp only [Option.some.injEq] at hc
      subst hc
      simp only [EXP_TO_RECV_LEN, HDRLEN, ge_iff_le, not_le] at hlt
      refine ⟨Or.inl ⟨hs0, ?_⟩, ?_, ?_, ?_⟩
      · simp only [HDRLEN]
        omega
      · intro hx
        exact absurd hx hr
      · intro _ _
        simp only [HDRLEN]
        omega
      · intro _ hx
        simp only [hs0] at hx
        cases hx
  · split at hc
    · rename_i hs1
      split at hc
      · rename_i heq
        obtain ⟨e1, e2, e3, e4, e5, _⟩ := server_read_cb_dispatch_some k ctx1 hc
        refine ⟨Or.inr ⟨by rw [e1]; exact hs1, ?_⟩, fun _ => e5, ?_, ?_⟩
        · rw [e2, e3, heq]
          omega
        · intro hx
          exact absurd e4 hx
        · intro hx
          exact absurd e4 hx
      · split at hc
        · rename_i hlt
          simp only [Option.some.injEq] at hc
          subst hc
          refine ⟨Or.inr ⟨hs1, ?_⟩, ?_, ?_, ?_⟩
          · simp only [HDRLEN] at hlt ⊢
            omega
          · intro hx
            exact absurd hx hr
          · intro _ hx
            simp only [hs1] at hx
            cases hx
          · intro _ _
            simp only [HDRLEN] at hlt ⊢
            omega
        · cases hc
    · cases hc

theorem server_read_cb_stage_none (k : server_ctx_t)
    (hb : (k.stage = 0 ∧ k.buf_len ≤ EXP_TO_RECV_LEN) ∨
      (k.stage = 1 ∧ k.buf_len ≤ k.packet.datalen + HDRLEN))
    (h : server_read_cb_stage k = none) :
    k.buf_len = k.packet.datalen + HDRLEN ∧ server_read_cb_dispatch k = none := by
  unfold server_read_cb_stage at h
  split at h
  · rename_i hs0
    split at h
    · split at h
      · rename_i hgt
        rcases hb with ⟨_, hle⟩ | ⟨hs1, _⟩
        · omega
        · rw [hs0] at hs1
          cases hs1
      · simp only at h
        split at h <;> cases h
    · cases h
  · rename_i hs0
    split at h
    · split at h
      · rename_i heq2
        exact ⟨heq2, h⟩
      · rename_i hne
        split at h
        · cases h
        · rename_i hnlt
          rcases hb with ⟨hs, _⟩ | ⟨_, hle⟩
          · exact absurd hs hs0
          · omega
    · rename_i hs1
      rcases hb with ⟨hs, _⟩ | ⟨hs, _⟩
      · exact absurd hs hs0
      · exact absurd hs hs1

theorem recv_capped (ctx ctx1 : server_ctx_t) (c : List Nat) (hc1 : 1 ≤ c.length)
    (hrecv : recv ctx c = some ctx1) : parser_capped ctx1 := by
  have hne : c ≠ [] := by
    intro h
    simp [h] at hc1
  rw [recv_data ctx c hne, server_read_cb_data_eq] at hrecv
  exact server_read_cb_stage_capped _ ctx1 (server_read_cb_copy_reset _ _ _) hrecv

theorem recv_all_capped (chunks rest : List (List Nat)) :
    ∀ ctx ctx1 : server_ctx_t, parser_capped ctx →
      reads_capped ctx (chunks ++ rest) = true → recv_all ctx chunks = some ctx1 →
      parser_capped ctx1 ∧ reads_capped ctx1 rest = true := by
  induction chunks with
  | nil =>
    intro ctx ctx1 h hcap hrun
    simp only [recv_all, Option.some.injEq] at hrun
    subst hrun
    exact ⟨h, by simpa using hcap⟩
  | cons c cs ih =>
    intro ctx ctx1 h hcap hrun
    simp only [List.cons_append, reads_capped, Bool.and_eq_true, decide_eq_true_eq] at hcap
    obtain ⟨hc1, _, hrest⟩ := hcap
    simp only [recv_all] at hrun
    cases hX : recv ctx c with
    | none =>
      rw [hX] at hrun
      cases hrun
    | some c1 =>
      rw [hX] at hrun hrest
      exact ih c1 ctx1 (recv_capped ctx c1 c hc1 hX) hrest hrun

theorem server_accept_cb_capped : parser_capped server_accept_cb := by
  refine ⟨Or.inl ⟨rfl, by decide⟩, fun _ => rfl, fun h => absurd rfl h, fun h => absurd rfl h⟩

/-- C13: starting from the accept-time state, when every read on the tunnel is
non-empty and fits the buffer offered for it, the fatal branches of the parser
are never reached: after any such sequence of reads the stage is 0 with
buf_len <= HDR or 1 with buf_len <= HDR + datalen, and the next such read is
tested in the header stage with buf_len <= HDR or in the body stage with
buf_len <= HDR + datalen (so it fails only if the dispatch of a complete frame
fails). -/
theorem parser_asserts_unreachable (chunks : List (List Nat)) (c : List Nat)
    (ctx : server_ctx_t)
    (hcap : reads_capped server_accept_cb (chunks ++ [c]) = true)
    (hrun : recv_all server_accept_cb chunks = some ctx) :
    ((ctx.stage = 0 ∧ ctx.buf_len ≤ HDRLEN) ∨
      (ctx.stage = 1 ∧ ctx.buf_len ≤ HDRLEN + ctx.packet.datalen)) ∧
    (((server_read_cb_copy ctx c.length c).stage = 0 ∧
        (server_read_cb_copy ctx c.length c).buf_len ≤ EXP_TO_RECV_LEN) ∨
      ((server_read_cb_copy ctx c.length c).stage = 1 ∧
        (server_read_cb_copy ctx c.length c).buf_len
          ≤ (server_read_cb_copy ctx c.length c).packet.datalen + HDRLEN)) ∧
    recv ctx c = server_read_cb_stage (server_read_cb_copy ctx c.length c) ∧
    (recv ctx c = none →
      (server_read_cb_copy ctx c.length c).buf_len
          = (server_read_cb_copy ctx c.length c).packet.datalen + HDRLEN ∧
        server_read_cb_dispatch (server_read_cb_copy ctx c.length c) = none) := by
  obtain ⟨hp, hc⟩ := recv_all_capped chunks [c] server_accept_cb ctx server_accept_cb_capped
    hcap hrun
  simp only [reads_capped, Bool.and_eq_true, decide_eq_true_eq] at hc
  obtain ⟨hc1, hc2, _⟩ := hc
  have hne : c ≠ [] := by
    intro h
    simp [h] at hc1
  have hb := server_read_cb_copy_bounds ctx c.length c hp hc2
  have heq : recv ctx c = server_read_cb_stage (server_read_cb_copy ctx c.length c) := by
    rw [recv_data ctx c hne, server_read_cb_data_eq]
  refine ⟨hp.1, hb, heq, ?_⟩
  intro hnone
  rw [heq] at hnone
  exact server_read_cb_stage_none _ hb hnone

/-- Witness of C13: scenario S7, the last 7 bytes of the body after the header
and 3 bytes of the body. -/
theorem parser_asserts_unreachable_witness :
    ((S7_state.stage = 0 ∧ S7_state.buf_len ≤ HDRLEN) ∨
      (S7_state.stage = 1 ∧ S7_state.buf_len ≤ HDRLEN + S7_state.packet.datalen)) ∧
    (((server_read_cb_copy S7_state [0, 0, 1, 0, 80, 71, 69].length
          [0, 0, 1, 0, 80, 71, 69]).stage = 0 ∧
        (server_read_cb_copy S7_state [0, 0, 1, 0, 80, 71, 69].length
          [0, 0, 1, 0, 80, 71, 69]).buf_len ≤ EXP_TO_RECV_LEN) ∨
      ((server_read_cb_copy S7_state [0, 0, 1, 0, 80, 71, 69].length
          [0, 0, 1, 0, 80, 71, 69]).stage = 1 ∧
        (server_read_cb_copy S7_state [0, 0, 1, 0, 80, 71, 69].length
          [0, 0, 1, 0, 80, 71, 69]).buf_len
          ≤ (server_read_cb_copy S7_state [0, 0, 1, 0, 80, 71, 69].length
              [0, 0, 1, 0, 80, 71, 69]).packet.datalen + HDRLEN)) ∧
    recv S7_state [0, 0, 1, 0, 80, 71, 69]
      = server_read_cb_stage (server_read_cb_copy S7_state [0, 0, 1, 0, 80, 71, 69].length
          [0, 0, 1, 0, 80, 71, 69]) ∧
    (recv S7_state [0, 0, 1, 0, 80, 71, 69] = none →
      (server_read_cb_copy S7_state [0, 0, 1, 0, 80, 71, 69].length
          [0, 0, 1, 0, 80, 71, 69]).buf_len
          = (server_read_cb_copy S7_state [0, 0, 1, 0, 80, 71, 69].length
              [0, 0, 1, 0, 80, 71, 69]).packet.datalen + HDRLEN ∧
        server_read_cb_dispatch (server_read_cb_copy S7_state [0, 0, 1, 0, 80, 71, 69].length
          [0, 0, 1, 0, 80, 71, 69]) = none) :=
  parser_asserts_unreachable [[0, 0, 0, 1, 1, 0, 10], [1, 4, 127]] [0, 0, 1, 0, 80, 71, 69]
    S7_state (by decide) (by decide)

theorem write_head_le (r : remote_ctx_t) :
    (write_head r).inflight ≤ r.inflight + 1 ∧ (write_head r).tx.length ≤ r.tx.length + 1 := by
  unfold write_head
  split
  · exact ⟨Nat.le_succ _, Nat.le_succ _⟩
  · simp

theorem HANDLECLOSE_writes (r : remote_ctx_t) :
    (HANDLECLOSE r).inflight = r.inflight ∧ (HANDLECLOSE r).tx = r.tx := by
  unfold HANDLECLOSE
  split <;> exact ⟨rfl, rfl⟩

theorem completion_issues_one (ctx : server_ctx_t) (sid : Nat) (r : remote_ctx_t)
    (status : Int) (hfind : RB_FIND ctx.remote_map sid = some r) :
    (∃ r1, RB_FIND (remote_on_connect_cb ctx sid status).remote_map sid = some r1 ∧
      r1.inflight ≤ r.inflight + 1 ∧ r1.tx.length ≤ r.tx.length + 1) ∧
    (∃ r1, RB_FIND (remote_write_cb ctx sid status).remote_map sid = some r1 ∧
      r1.inflight ≤ r.inflight - 1 + 1 ∧ r1.tx.length ≤ r.tx.length + 1) := by
  constructor
  · simp only [remote_on_connect_cb]
    rw [RB_FIND_update _ _ _ _ (by
      intro x
      split_ifs
      · exact HANDLECLOSE_session_id _
      · rfl
      · exact write_head_session_id _)]
    simp only [if_true, hfind, Option.map_some', Option.some.injEq, exists_eq_left']
    split_ifs
    · rw [(HANDLECLOSE_writes r).1, (HANDLECLOSE_writes r).2]
      exact ⟨Nat.le_succ _, Nat.le_succ _⟩
    · exact ⟨Nat.le_succ _, Nat.le_succ _⟩
    · exact write_head_le _
  · simp only [remote_write_cb]
    rw [RB_FIND_update _ _ _ _ (by
      intro x
      split_ifs
      · exact HANDLECLOSE_session_id _
      · rfl
      · exact write_head_session_id _)]
    simp only [if_true, hfind, Option.map_some', Option.some.injEq, exists_eq_left']
    split_ifs
    · rw [(HANDLECLOSE_writes _).1, (HANDLECLOSE_writes _).2]
      exact ⟨Nat.le_succ _, Nat.le_succ _⟩
    · exact ⟨Nat.le_succ _, Nat.le_succ _⟩
    · exact write_head_le _

/-! ### Upstream writes in flight -/

theorem writes_ok_of_same (r r1 : remote_ctx_t) (ht : r1.tx = r.tx)
    (hi : r1.inflight ≤ r.inflight) (h : writes_ok r) : writes_ok r1 := by
  unfold writes_ok at h ⊢
  rw [ht]
  omega

theorem writes_ok_HANDLECLOSE (r : remote_ctx_t) (h : writes_ok r) :
    writes_ok (HANDLECLOSE r) := by
  unfold HANDLECLOSE
  split
  · exact writes_ok_of_same r _ rfl (Nat.le_refl _) h
  · exact h

theorem writes_ok_write_head (r : remote_ctx_t) (h : writes_ok r) :
    writes_ok (write_head r) := by
  unfold write_head
  split
  · exact h
  · unfold writes_ok at h ⊢
    simp only [List.length_append, List.length_singleton]
    omega

theorem forall_update_remote (P : remote_ctx_t → Prop) (m : List remote_ctx_t) (sid : Nat)
    (f : remote_ctx_t → remote_ctx_t) (hf : ∀ r, P r → P (f r)) (h : ∀ r ∈ m, P r) :
    ∀ r ∈ update_remote m sid f, P r := by
  intro r hr
  simp only [update_remote, List.mem_map] at hr
  obtain ⟨r0, hr0, rfl⟩ := hr
  split
  · exact hf r0 (h r0 hr0)
  · exact h r0 hr0

theorem server_exception_writes (ctx : server_ctx_t) (h : ∀ r ∈ ctx.remote_map, writes_ok r) :
    ∀ r ∈ (server_exception ctx).remote_map, writes_ok r := by
  unfold server_exception
  simp only
  split
  · intro r hr
    simp only [List.mem_map] at hr
    obtain ⟨r0, hr0, rfl⟩ := hr
    split
    · exact writes_ok_of_same r0 _ rfl (Nat.le_refl _) (h r0 hr0)
    · exact writes_ok_of_same r0 _ rfl (Nat.le_refl _) (h r0 hr0)
  · exact h

theorem remote_timeout_cb_writes (ctx : server_ctx_t) (sid : Nat)
    (h : ∀ r ∈ ctx.remote_map, writes_ok r) :
    ∀ r ∈ (remote_timeout_cb ctx sid).remote_map, writes_ok r := by
  apply forall_update_remote writes_ok _ _ _ _ h
  intro r hr
  split
  · split
    · exact writes_ok_of_same r _ rfl (Nat.le_refl _) hr
    · exact writes_ok_of_same r _ rfl (Nat.le_refl _) hr
  · exact hr

theorem remote_after_close_cb_writes (ctx : server_ctx_t) (sid : Nat)
    (h : ∀ r ∈ ctx.remote_map, writes_ok r) :
    ∀ r ∈ (remote_after_close_cb ctx sid).remote_map, writes_ok r := by
  unfold remote_after_close_cb
  split
  · exact h
  · have hrem : ∀ r ∈ RB_REMOVE ctx.remote_map sid, writes_ok r :=
      fun r hr => h r (RB_REMOVE_mem _ _ _ hr)
    split
    · simp only [send_control_packet]
      split
      · exact hrem
      · split
        · exact hrem
        · exact hrem
    · apply forall_update_remote writes_ok _ _ _ _ h
      intro r hr
      exact writes_ok_of_same r _ rfl (Nat.le_refl _) hr

theorem remote_read_cb_writes (ctx : server_ctx_t) (sid : Nat) (nread : Int) (buf : List Nat)
    (h : ∀ r ∈ ctx.remote_map, writes_ok r) :
    ∀ r ∈ (remote_read_cb ctx sid nread buf).remote_map, writes_ok r := by
  unfold remote_read_cb
  split
  · exact h
  · split
    · split
      · exact h
      · apply forall_update_remote writes_ok _ _ _ _ h
        intro r hr
        exact writes_ok_HANDLECLOSE _ (writes_ok_of_same r _ rfl (Nat.le_refl _) hr)
    · split
      · exact h
      · exact h

theorem server_write_cb_writes (ctx : server_ctx_t) (status : Int)
    (h : ∀ r ∈ ctx.remote_map, writes_ok r) :
    ∀ r ∈ (server_write_cb ctx status).remote_map, writes_ok r := by
  unfold server_write_cb
  split
  · split
    · split
      · exact server_exception_writes _ h
      · exact h
    · exact h
  · exact h

theorem remote_write_cb_writes (ctx : server_ctx_t) (sid : Nat) (status : Int)
    (h : ∀ r ∈ ctx.remote_map, writes_ok r) :
    ∀ r ∈ (remote_write_cb ctx sid status).remote_map, writes_ok r := by
  apply forall_update_remote writes_ok _ _ _ _ h
  intro r hr
  have h1 : writes_ok { r with inflight := r.inflight - 1 } :=
    writes_ok_of_same r _ rfl (Nat.sub_le _ _) hr
  split
  · split
    · exact writes_ok_HANDLECLOSE _ (writes_ok_of_same _ _ rfl (Nat.le_refl _) h1)
    · exact h1
  · exact writes_ok_write_head _ h1

theorem remote_on_connect_cb_writes (ctx : server_ctx_t) (sid : Nat) (status : Int)
    (h : ∀ r ∈ ctx.remote_map, writes_ok r) :
    ∀ r ∈ (remote_on_connect_cb ctx sid status).remote_map, writes_ok r := by
  apply forall_update_remote writes_ok _ _ _ _ h
  intro r hr
  split
  · split
    · exact writes_ok_HANDLECLOSE _ hr
    · exact hr
  · exact writes_ok_write_head _ (writes_ok_of_same r _ rfl (Nat.le_refl _) hr)

theorem remote_addr_resolved_cb_writes (ctx : server_ctx_t) (sid : Nat) (status : Int)
    (ai_family : Nat) (addr : List Nat) (r : Int) (h : ∀ x ∈ ctx.remote_map, writes_ok x) :
    ∀ x ∈ (remote_addr_resolved_cb ctx sid status ai_family addr r).remote_map, writes_ok x := by
  apply forall_update_remote writes_ok _ _ _ _ h
  intro x hx
  split
  · split
    · exact writes_ok_HANDLECLOSE _ (writes_ok_of_same x _ rfl (Nat.le_refl _) hx)
    · exact hx
  · split
    · exact writes_ok_HANDLECLOSE _ (writes_ok_of_same x _ rfl (Nat.le_refl _) hx)
    · have key : ∀ y : remote_ctx_t, y.tx = x.tx → y.inflight = x.inflight → writes_ok y :=
        fun y a b => writes_ok_of_same x y a (Nat.le_of_eq b) hx
      by_cases hr0 : r = 0 <;> by_cases h2 : ai_family = 2 <;> by_cases h10 : ai_family = 10 <;>
        simp only [hr0, h2, h10, ne_eq, not_true_eq_false, not_false_eq_true, if_true,
          if_false] <;>
        first
          | exact key _ rfl rfl
          | exact writes_ok_HANDLECLOSE _ (key _ rfl rfl)

theorem server_read_cb_close_writes (ctx : server_ctx_t)
    (h : ∀ r ∈ ctx.remote_map, writes_ok r) :
    ∀ r ∈ (server_read_cb_close ctx).remote_map, writes_ok r := by
  unfold server_read_cb_close
  simp only
  split
  · apply forall_update_remote writes_ok _ _ _ _ h
    intro r hr
    split
    · split
      · exact writes_ok_of_same r _ rfl (Nat.le_refl _) hr
      · exact writes_ok_of_same r _ rfl (Nat.le_refl _) hr
    · exact writes_ok_of_same r _ rfl (Nat.le_refl _) hr
  · exact h

theorem server_read_cb_dispatch_writes (ctx ctx1 : server_ctx_t)
    (h : ∀ r ∈ ctx.remote_map, writes_ok r) (hc : server_read_cb_dispatch ctx = some ctx1) :
    ∀ r ∈ ctx1.remote_map, writes_ok r := by
  unfold server_read_cb_dispatch at hc
  simp only at hc
  split at hc
  · split at hc
    · cases hc
    · simp only [Option.some.injEq] at hc
      subst hc
      apply forall_update_remote writes_ok _ _ _ _ h
      intro r hr
      split
      · exact writes_ok_write_head _ (writes_ok_of_same r _ rfl (Nat.le_refl _) hr)
      · exact writes_ok_of_same r _ rfl (Nat.le_refl _) hr
  · split at hc
    · simp only [Option.some.injEq] at hc
      subst hc
      exact h
    · obtain ⟨r0, _, _, hm, hi, ht, _⟩ := server_read_cb_create_some _ ctx1 hc
      intro r hr
      rw [hm] at hr
      rcases RB_INSERT_subset _ _ _ hr with hr | hr
      · subst hr
        unfold writes_ok
        rw [hi, ht]
        exact Nat.le_refl _
      · exact h r hr

theorem server_read_cb_stage_writes (k ctx1 : server_ctx_t)
    (h : ∀ r ∈ k.remote_map, writes_ok r) (hc : server_read_cb_stage k = some ctx1) :
    ∀ r ∈ ctx1.remote_map, writes_ok r := by
  unfold server_read_cb_stage at hc
  split at hc
  · split at hc
    · split at hc
      · cases hc
      · simp only at hc
        split at hc
        · simp only [Option.some.injEq] at hc
          subst hc
          exact server_read_cb_close_writes _ h
        · simp only [Option.some.injEq] at hc
          subst hc
          exact h
    · simp only [Option.some.injEq] at hc
      subst hc
      exact h
  · split at hc
    · split at hc
      · exact server_read_cb_dispatch_writes k ctx1 h hc
      · split at hc
        · simp only [Option.some.injEq] at hc
          subst hc
          exact h
        · cases hc
    · cases hc

theorem step_writes (ctx ctx1 : server_ctx_t) (e : event)
    (h : ∀ r ∈ ctx.remote_map, writes_ok r) (hc : step ctx e = some ctx1) :
    ∀ r ∈ ctx1.remote_map, writes_ok r := by
  cases e with
  | server_read nread buf =>
    simp only [step, server_read_cb] at hc
    split at hc
    · split at hc
      · simp only [Option.some.injEq] at hc
        subst hc
        exact h
      · split at hc
        · simp only [Option.some.injEq] at hc
          subst hc
          exact server_exception_writes _ h
        · simp only [Option.some.injEq] at hc
          subst hc
          exact h
    · rw [server_read_cb_data_eq] at hc
      exact server_read_cb_stage_writes _ ctx1
        (by rw [server_read_cb_copy_map]; exact h) hc
  | server_written status =>
    simp only [step, Option.some.injEq] at hc
    subst hc
    exact server_write_cb_writes _ _ h
  | remote_read sid nread buf =>
    simp only [step, Option.some.injEq] at hc
    subst hc
    exact remote_read_cb_writes _ _ _ _ h
  | remote_written sid status =>
    simp only [step, Option.some.injEq] at hc
    subst hc
    exact remote_write_cb_writes _ _ _ h
  | remote_connected sid status =>
    simp only [step, Option.some.injEq] at hc
    subst hc
    exact remote_on_connect_cb_writes _ _ _ h
  | remote_resolved sid status ai_family addr r =>
    simp only [step, Option.some.injEq] at hc
    subst hc
    exact remote_addr_resolved_cb_writes _ _ _ _ _ _ h
  | remote_timeout sid =>
    simp only [step, Option.some.injEq] at hc
    subst hc
    exact remote_timeout_cb_writes _ _ h
  | remote_closed sid =>
    simp only [step, Option.some.injEq] at hc
    subst hc
    exact remote_after_close_cb_writes _ _ h

theorem run_writes (es : List event) :
    ∀ ctx ctx1 : server_ctx_t, (∀ r ∈ ctx.remote_map, writes_ok r) → run ctx es = some ctx1 →
      ∀ r ∈ ctx1.remote_map, writes_ok r := by
  induction es with
  | nil =>
    intro ctx ctx1 h hc
    simp only [run, Option.some.injEq] at hc
    subst hc
    exact h
  | cons e rest ih =>
    intro ctx ctx1 h hc
    simp only [run] at hc
    cases hs : step ctx e with
    | none =>
      rw [hs] at hc
      cases hc
    | some c =>
      rw [hs] at hc
      exact ih c ctx1 (step_writes ctx c e h hs) hc

/-- C16 as stated fails: after `busy_events` session 1 has two upstream writes
outstanding, "GE" issued by the connect completion and "A" issued by the
dispatch of the NORMAL frame while the first write was still in flight. -/
theorem two_writes_in_flight :
    run server_accept_cb busy_events = some busy_state ∧
    (RB_FIND busy_state.remote_map 1).map (fun r => (r.inflight, r.tx))
      = some (2, [[71, 69], [65]]) := by
  refine ⟨by decide, by decide⟩

/-- C16 (amended): a session can have several upstream writes outstanding.  The
dispatch of a complete frame (cmd other than INIT) to a session that is
resolved and connected issues one more write, for the head of the queue,
whatever the number of writes still in flight; connect completion and write
completion (which ends one write) each issue at most one write; and in every
state the event loop can reach, the writes outstanding for a session are at
most the writes issued for it, which (until the session is freed) are at most
the frames dispatched to it. -/
theorem writes_in_flight_bounded :
    (∀ (ctx : server_ctx_t) (r : remote_ctx_t),
      RB_FIND ctx.remote_map ctx.packet.session_id = some r → ctx.packet.rsv ≠ CTL_INIT →
      r.resolved = 1 → r.connected = 1 →
      ∃ ctx1 r1, server_read_cb_dispatch ctx = some ctx1 ∧
        RB_FIND ctx1.remote_map ctx.packet.session_id = some r1 ∧
        r1.inflight = r.inflight + 1 ∧ r1.tx.length = r.tx.length + 1) ∧
    (∀ (ctx : server_ctx_t) (sid : Nat) (r : remote_ctx_t) (status : Int),
      RB_FIND ctx.remote_map sid = some r →
      (∃ r1, RB_FIND (remote_on_connect_cb ctx sid status).remote_map sid = some r1 ∧
        r1.inflight ≤ r.inflight + 1 ∧ r1.tx.length ≤ r.tx.length + 1) ∧
      (∃ r1, RB_FIND (remote_write_cb ctx sid status).remote_map sid = some r1 ∧
        r1.inflight ≤ r.inflight - 1 + 1 ∧ r1.tx.length ≤ r.tx.length + 1)) ∧
    (∀ (es : List event) (ctx : server_ctx_t) (r : remote_ctx_t),
      run server_accept_cb es = some ctx → r ∈ ctx.remote_map →
      r.inflight ≤ r.tx.length ∧ (r.freed = false → r.tx.length ≤ r.rx.length)) := by
  refine ⟨?_, fun ctx sid r status hfind => completion_issues_one ctx sid r status hfind, ?_⟩
  · intro ctx r hfind hrsv hres hcon
    simp only [server_read_cb_dispatch, hfind, hrsv, if_false, Option.some.injEq,
      exists_and_left, exists_eq_left']
    rw [RB_FIND_update _ _ _ _ (by
      intro x
      split_ifs
      · exact write_head_session_id _
      · rfl)]
    simp only [if_true, hfind, Option.map_some', Option.some.injEq, exists_eq_left', hres, hcon,
      and_self]
    cases hq : r.send_queue with
    | nil => simp [write_head, hq]
    | cons p ps => simp [write_head, hq]
  · intro es ctx r hrun hr
    have h1 := run_writes es server_accept_cb ctx
      (fun x hx => by simp [server_accept_cb] at hx) hrun r hr
    refine ⟨h1, ?_⟩
    intro hfr
    have h2 := ((run_ok es server_accept_cb ctx server_accept_cb_ok hrun).2 r hr).2 hfr
    omega

/-- Witness of C16 (amended): the dispatch of the frame `00000001 02 0001 41` to
session 1 of `busy_events`, which has one write in flight, and session 1 after
`busy_events`. -/
theorem writes_in_flight_bounded_witness :
    (∃ ctx1 r1, server_read_cb_dispatch
        (frame_done ((run server_accept_cb (busy_events.take 3)).getD server_accept_cb)
          [0, 0, 0, 1, 2, 0, 1] [65]) = some ctx1 ∧
      RB_FIND ctx1.remote_map
        (frame_done ((run server_accept_cb (busy_events.take 3)).getD server_accept_cb)
          [0, 0, 0, 1, 2, 0, 1] [65]).packet.session_id = some r1 ∧
      r1.inflight
        = ((RB_FIND ((run server_accept_cb (busy_events.take 3)).getD
            server_accept_cb).remote_map 1).getD remote_ctx_zero).inflight + 1 ∧
      r1.tx.length
        = ((RB_FIND ((run server_accept_cb (busy_events.take 3)).getD
            server_accept_cb).remote_map 1).getD remote_ctx_zero).tx.length + 1) ∧
    ((∃ r1, RB_FIND (remote_on_connect_cb S1_open_state 1 0).remote_map 1 = some r1 ∧
        r1.inflight ≤ (init_session 1 1 1 [127, 0, 0, 1] [0, 80] [71, 69]).inflight + 1 ∧
        r1.tx.length ≤ (init_session 1 1 1 [127, 0, 0, 1] [0, 80] [71, 69]).tx.length + 1) ∧
      (∃ r1, RB_FIND (remote_write_cb S1_open_state 1 0).remote_map 1 = some r1 ∧
        r1.inflight ≤ (init_session 1 1 1 [127, 0, 0, 1] [0, 80] [71, 69]).inflight - 1 + 1 ∧
        r1.tx.length ≤ (init_session 1 1 1 [127, 0, 0, 1] [0, 80] [71, 69]).tx.length + 1)) ∧
    (busy_session.inflight ≤ busy_session.tx.length ∧
      (busy_session.freed = false → busy_session.tx.length ≤ busy_session.rx.length)) :=
  ⟨writes_in_flight_bounded.1
      (frame_done ((run server_accept_cb (busy_events.take 3)).getD server_accept_cb)
        [0, 0, 0, 1, 2, 0, 1] [65])
      ((RB_FIND ((run server_accept_cb (busy_events.take 3)).getD
        server_accept_cb).remote_map 1).getD remote_ctx_zero)
      (by decide) (by decide) (by decide) (by decide),
   writes_in_flight_bounded.2.1 S1_open_state 1
      (init_session 1 1 1 [127, 0, 0, 1] [0, 80] [71, 69]) 0 (by decide),
   writes_in_flight_bounded.2.2 busy_events busy_state busy_session (by decide) (by decide)⟩

/-! ### FIFO delivery -/

theorem session_fifo_of_same (sid : Nat) (r r1 : remote_ctx_t)
    (hid : r1.session_id = r.session_id) (ht : r1.tx = r.tx)
    (hq : r1.send_queue = r.send_queue) (hrx : r1.rx = r.rx) (hf : r1.freed = r.freed)
    (h : session_fifo sid r) : session_fifo sid r1 := by
  intro hs hfr
  rw [hid] at hs
  rw [hf] at hfr
  have := h hs hfr
  simp only [queued, ht, hq, hrx] at this ⊢
  exact this

theorem session_fifo_HANDLECLOSE (sid : Nat) (r : remote_ctx_t) (h : session_fifo sid r) :
    session_fifo sid (HANDLECLOSE r) := by
  unfold HANDLECLOSE
  split
  · exact session_fifo_of_same sid r _ rfl rfl rfl rfl rfl h
  · exact h

theorem session_fifo_write_head (sid : Nat) (r : remote_ctx_t) (h : session_fifo sid r) :
    session_fifo sid (write_head r) := by
  unfold write_head
  split
  · exact h
  · rename_i packet rest hq
    intro hs hfr
    have := h hs hfr
    simp only [queued, hq, List.map_cons] at this ⊢
    simpa using this

theorem session_fifo_enqueue (sid : Nat) (r : remote_ctx_t) (pkt : pending_packet_t)
    (cmd : Nat) (payload : List Nat) (hp : pkt.data.take pkt.payloadlen = payload)
    (h : session_fifo sid r) :
    session_fifo sid
      { r with send_queue := r.send_queue ++ [pkt], rx := r.rx ++ [(cmd, payload)] } := by
  intro hs hfr
  have := h hs hfr
  simp only [queued, List.map_append, List.map_cons, List.map_nil, hp] at this ⊢
  rw [← List.append_assoc, this]

theorem server_exception_fifo (sid : Nat) (ctx : server_ctx_t)
    (h : ∀ r ∈ ctx.remote_map, session_fifo sid r) :
    ∀ r ∈ (server_exception ctx).remote_map, session_fifo sid r := by
  unfold server_exception
  simp only
  split
  · intro r hr
    simp only [List.mem_map] at hr
    obtain ⟨r0, hr0, rfl⟩ := hr
    split
    · exact session_fifo_of_same sid r0 _ rfl rfl rfl rfl rfl (h r0 hr0)
    · exact session_fifo_of_same sid r0 _ rfl rfl rfl rfl rfl (h r0 hr0)
  · exact h

theorem remote_timeout_cb_fifo (sid : Nat) (ctx : server_ctx_t) (s : Nat)
    (h : ∀ r ∈ ctx.remote_map, session_fifo sid r) :
    ∀ r ∈ (remote_timeout_cb ctx s).remote_map, session_fifo sid r := by
  apply forall_update_remote (session_fifo sid) _ _ _ _ h
  intro r hr
  split
  · split
    · exact session_fifo_of_same sid r _ rfl rfl rfl rfl rfl hr
    · exact session_fifo_of_same sid r _ rfl rfl rfl rfl rfl hr
  · exact hr

theorem remote_after_close_cb_fifo (sid : Nat) (ctx : server_ctx_t) (s : Nat)
    (h : ∀ r ∈ ctx.remote_map, session_fifo sid r) :
    ∀ r ∈ (remote_after_close_cb ctx s).remote_map, session_fifo sid r := by
  unfold remote_after_close_cb
  split
  · exact h
  · have hrem : ∀ r ∈ RB_REMOVE ctx.remote_map s, session_fifo sid r :=
      fun r hr => h r (RB_REMOVE_mem _ _ _ hr)
    split
    · simp only [send_control_packet]
      split
      · exact hrem
      · split
        · exact hrem
        · exact hrem
    · apply forall_update_remote (session_fifo sid) _ _ _ _ h
      intro r _ _ hf
      simp at hf

theorem remote_read_cb_fifo (sid : Nat) (ctx : server_ctx_t) (s : Nat) (nread : Int)
    (buf : List Nat) (h : ∀ r ∈ ctx.remote_map, session_fifo sid r) :
    ∀ r ∈ (remote_read_cb ctx s nread buf).remote_map, session_fifo sid r := by
  unfold remote_read_cb
  split
  · exact h
  · split
    · split
      · exact h
      · apply forall_update_remote (session_fifo sid) _ _ _ _ h
        intro r hr
        exact session_fifo_HANDLECLOSE sid _
          (session_fifo_of_same sid r _ rfl rfl rfl rfl rfl hr)
    · split
      · exact h
      · exact h

theorem server_write_cb_fifo (sid : Nat) (ctx : server_ctx_t) (status : Int)
    (h : ∀ r ∈ ctx.remote_map, session_fifo sid r) :
    ∀ r ∈ (server_write_cb ctx status).remote_map, session_fifo sid r := by
  unfold server_write_cb
  split
  · split
    · split
      · exact server_exception_fifo sid _ h
      · exact h
    · exact h
  · exact h

theorem remote_write_cb_fifo (sid : Nat) (ctx : server_ctx_t) (s : Nat) (status : Int)
    (h : ∀ r ∈ ctx.remote_map, session_fifo sid r) :
    ∀ r ∈ (remote_write_cb ctx s status).remote_map, session_fifo sid r := by
  apply forall_update_remote (session_fifo sid) _ _ _ _ h
  intro r hr
  have h1 : session_fifo sid { r with inflight := r.inflight - 1 } :=
    session_fifo_of_same sid r _ rfl rfl rfl rfl rfl hr
  split
  · split
    · exact session_fifo_HANDLECLOSE sid _
        (session_fifo_of_same sid _ _ rfl rfl rfl rfl rfl h1)
    · exact h1
  · exact session_fifo_write_head sid _ h1

theorem remote_on_connect_cb_fifo (sid : Nat) (ctx : server_ctx_t) (s : Nat) (status : Int)
    (h : ∀ r ∈ ctx.remote_map, session_fifo sid r) :
    ∀ r ∈ (remote_on_connect_cb ctx s status).remote_map, session_fifo sid r := by
  apply forall_update_remote (session_fifo sid) _ _ _ _ h
  intro r hr
  split
  · split
    · exact session_fifo_HANDLECLOSE sid _ hr
    · exact hr
  · exact session_fifo_write_head sid _ (session_fifo_of_same sid r _ rfl rfl rfl rfl rfl hr)

theorem remote_addr_resolved_cb_fifo (sid : Nat) (ctx : server_ctx_t) (s : Nat) (status : Int)
    (ai_family : Nat) (addr : List Nat) (r : Int)
    (h : ∀ x ∈ ctx.remote_map, session_fifo sid x) :
    ∀ x ∈ (remote_addr_resolved_cb ctx s status ai_family addr r).remote_map,
      session_fifo sid x := by
  apply forall_update_remote (session_fifo sid) _ _ _ _ h
  intro x hx
  split
  · split
    · exact session_fifo_HANDLECLOSE sid _
        (session_fifo_of_same sid x _ rfl rfl rfl rfl rfl hx)
    · exact hx
  · split
    · exact session_fifo_HANDLECLOSE sid _
        (session_fifo_of_same sid x _ rfl rfl rfl rfl rfl hx)
    · have key : ∀ y : remote_ctx_t, y.session_id = x.session_id → y.tx = x.tx →
          y.send_queue = x.send_queue → y.rx = x.rx → y.freed = x.freed →
          session_fifo sid y :=
        fun y a b c d e => session_fifo_of_same sid x y a b c d e hx
      by_cases hr0 : r = 0 <;> by_cases h2 : ai_family = 2 <;> by_cases h10 : ai_family = 10 <;>
        simp only [hr0, h2, h10, ne_eq, not_true_eq_false, not_false_eq_true, if_true,
          if_false] <;>
        first
          | exact key _ rfl rfl rfl rfl rfl
          | exact session_fifo_HANDLECLOSE sid _ (key _ rfl rfl rfl rfl rfl)

theorem server_read_cb_close_fifo (sid : Nat) (ctx : server_ctx_t)
    (h : ∀ r ∈ ctx.remote_map, session_fifo sid r) :
    ∀ r ∈ (server_read_cb_close ctx).remote_map, session_fifo sid r := by
  unfold server_read_cb_close
  simp only
  split
  · apply forall_update_remote (session_fifo sid) _ _ _ _ h
    intro r hr
    split
    · split
      · exact session_fifo_of_same sid r _ rfl rfl rfl rfl rfl hr
      · exact session_fifo_of_same sid r _ rfl rfl rfl rfl rfl hr
    · exact session_fifo_of_same sid r _ rfl rfl rfl rfl rfl hr
  · exact h

theorem server_read_cb_create_fifo (sid : Nat) (ctx ctx1 : server_ctx_t)
    (h : ∀ r ∈ ctx.remote_map, session_fifo sid r) (ho : ctx.packet.offset = HDRLEN)
    (hwf : ctx.packet.session_id = sid →
      4 + ctx.packet_buf.getD (HDRLEN + 1) 0 ≤ ctx.packet.datalen ∧ ctx.packet.datalen < 65536)
    (hc : server_read_cb_create ctx = some ctx1) :
    ∀ r ∈ ctx1.remote_map, session_fifo sid r := by
  unfold server_read_cb_create at hc
  simp only [get_header, get_payload, ho] at hc
  split at hc
  · cases hc
  · simp only [Option.some.injEq] at hc
    subst hc
    intro r hr
    have hr := RB_INSERT_subset _ _ _ hr
    rcases hr with hr | hr
    · subst hr
      have e1 : HDRLEN + ATYP_LEN + ADDRLEN_LEN
            + (get_bytes ctx.packet_buf (HDRLEN + ATYP_LEN) ADDRLEN_LEN).getD 0 0 + PORT_LEN
          = HDRLEN + 4 + ctx.packet_buf.getD (HDRLEN + 1) 0 := by
        simp only [ADDRLEN_LEN, ATYP_LEN, PORT_LEN, get_bytes_one]
        omega
      have key : ∀ y : remote_ctx_t, y.session_id = ctx.packet.session_id → y.tx = [] →
          y.send_queue = [ALLOCATE_PACKET
            (get_bytes ctx.packet_buf (HDRLEN + 4 + ctx.packet_buf.getD (HDRLEN + 1) 0)
              (u16_sub ctx.packet.datalen (ATYP_LEN + ADDRLEN_LEN
                + (get_bytes ctx.packet_buf (HDRLEN + ATYP_LEN) ADDRLEN_LEN).getD 0 0
                + PORT_LEN)))
            (u16_sub ctx.packet.datalen (ATYP_LEN + ADDRLEN_LEN
                + (get_bytes ctx.packet_buf (HDRLEN + ATYP_LEN) ADDRLEN_LEN).getD 0 0
                + PORT_LEN))] →
          y.rx = [(ctx.packet.rsv,
            get_bytes ctx.packet_buf (HDRLEN + 4 + ctx.packet_buf.getD (HDRLEN + 1) 0)
              (ctx.packet.datalen - (4 + ctx.packet_buf.getD (HDRLEN + 1) 0)))] →
          session_fifo sid y := by
        intro y hy0 hy2 hy3 hy4 hs _
        rw [hy0] at hs
        obtain ⟨hw1, hw2⟩ := hwf hs
        have e2 : u16_sub ctx.packet.datalen (ATYP_LEN + ADDRLEN_LEN
              + (get_bytes ctx.packet_buf (HDRLEN + ATYP_LEN) ADDRLEN_LEN).getD 0 0 + PORT_LEN)
            = ctx.packet.datalen - (4 + ctx.packet_buf.getD (HDRLEN + 1) 0) := by
          simp only [ADDRLEN_LEN, ATYP_LEN, PORT_LEN, get_bytes_one]
          rw [u16_sub_of_le _ _ (by simp only [HDRLEN] at hw1; omega) hw2]
          omega
        simp only [queued, hy2, hy3, hy4, e2, ALLOCATE_PACKET, List.map_cons, List.map_nil,
          List.nil_append, take_get_bytes]
      simp only [e1]
      split
      · exact key _ rfl rfl rfl rfl
      · split
        · exact key _ rfl rfl rfl rfl
        · exact key _ rfl rfl rfl rfl
    · exact h r hr

theorem server_read_cb_dispatch_fifo (sid : Nat) (ctx ctx1 : server_ctx_t)
    (h : ∀ r ∈ ctx.remote_map, session_fifo sid r) (ho : ctx.packet.offset = HDRLEN)
    (hwf : ctx.packet.session_id = sid →
      RB_FIND ctx.remote_map ctx.packet.session_id = none → ctx.packet.rsv ≠ CTL_NORMAL →
      4 + ctx.packet_buf.getD (HDRLEN + 1) 0 ≤ ctx.packet.datalen ∧ ctx.packet.datalen < 65536)
    (hc : server_read_cb_dispatch ctx = some ctx1) :
    ∀ r ∈ ctx1.remote_map, session_fifo sid r := by
  unfold server_read_cb_dispatch at hc
  simp only at hc
  split at hc
  · split at hc
    · cases hc
    · simp only [Option.some.injEq] at hc
      subst hc
      apply forall_update_remote (session_fifo sid) _ _ _ _ h
      intro r hr
      have h1 := session_fifo_enqueue sid r
        (ALLOCATE_PACKET (get_header ctx.packet_buf ctx.packet.datalen ctx.packet.offset).1
          ctx.packet.datalen) ctx.packet.rsv
        (get_bytes ctx.packet_buf HDRLEN ctx.packet.datalen)
        (by simp only [ALLOCATE_PACKET, get_header, ho, take_get_bytes]) hr
      split
      · exact session_fifo_write_head sid _ h1
      · exact h1
  · rename_i hnone
    split at hc
    · simp only [Option.some.injEq] at hc
      subst hc
      exact h
    · rename_i hrsv
      exact server_read_cb_create_fifo sid
        { { ctx with reset := 0 } with expect_to_recv := HDRLEN } ctx1 h ho
        (fun hs => hwf hs hnone hrsv) hc

theorem server_read_cb_copy_offset (ctx : server_ctx_t) (nread : Nat) (buf : List Nat)
    (h : parser_ok ctx) (hst : (server_read_cb_copy ctx nread buf).stage = 1) :
    (server_read_cb_copy ctx nread buf).packet.offset = HDRLEN := by
  unfold server_read_cb_copy at hst ⊢
  by_cases hr : ctx.reset = 0
  · simp [hr, packetnbuf_reset] at hst
  · simp only [hr, if_false] at hst ⊢
    exact (h hr).2 hst

theorem server_read_cb_stage_fifo (sid : Nat) (k ctx1 : server_ctx_t)
    (h : ∀ r ∈ k.remote_map, session_fifo sid r)
    (ho : k.stage = 1 → k.packet.offset = HDRLEN) (hfit : init_short sid k = false)
    (hc : server_read_cb_stage k = some ctx1) :
    ∀ r ∈ ctx1.remote_map, session_fifo sid r := by
  unfold server_read_cb_stage at hc
  split at hc
  · split at hc
    · split at hc
      · cases hc
      · simp only at hc
        split at hc
        · simp only [Option.some.injEq] at hc
          subst hc
          exact server_read_cb_close_fifo sid _ h
        · simp only [Option.some.injEq] at hc
          subst hc
          exact h
    · simp only [Option.some.injEq] at hc
      subst hc
      exact h
  · split at hc
    · rename_i hst1
      split at hc
      · rename_i hlen
        refine server_read_cb_dispatch_fifo sid k ctx1 h (ho hst1) ?_ hc
        intro hs hnone hrsv
        simp only [init_short, decide_eq_false_iff_not, not_and, not_or, not_lt, not_le] at hfit
        rw [hs] at hnone
        have := hfit hst1 hlen hs hnone hrsv
        exact this
      · split at hc
        · simp only [Option.some.injEq] at hc
          subst hc
          exact h
        · cases hc
    · cases hc

theorem step_fifo (sid : Nat) (ctx ctx1 : server_ctx_t) (e : event) (hp : parser_ok ctx)
    (h : ∀ r ∈ ctx.remote_map, session_fifo sid r) (hfit : event_short sid ctx e = false)
    (hc : step ctx e = some ctx1) :
    ∀ r ∈ ctx1.remote_map, session_fifo sid r := by
  cases e with
  | server_read nread buf =>
    simp only [step, server_read_cb] at hc
    split at hc
    · split at hc
      · simp only [Option.some.injEq] at hc
        subst hc
        exact h
      · split at hc
        · simp only [Option.some.injEq] at hc
          subst hc
          exact server_exception_fifo sid _ h
        · simp only [Option.some.injEq] at hc
          subst hc
          exact h
    · rename_i hn
      rw [server_read_cb_data_eq] at hc
      have hpos : 0 < nread := by omega
      simp only [event_short, hpos, decide_True, Bool.true_and] at hfit
      exact server_read_cb_stage_fifo sid _ ctx1
        (by rw [server_read_cb_copy_map]; exact h)
        (server_read_cb_copy_offset ctx _ buf hp) hfit hc
  | server_written status =>
    simp only [step, Option.some.injEq] at hc
    subst hc
    exact server_write_cb_fifo sid _ _ h
  | remote_read s nread buf =>
    simp only [step, Option.some.injEq] at hc
    subst hc
    exact remote_read_cb_fifo sid _ _ _ _ h
  | remote_written s status =>
    simp only [step, Option.some.injEq] at hc
    subst hc
    exact remote_write_cb_fifo sid _ _ _ h
  | remote_connected s status =>
    simp only [step, Option.some.injEq] at hc
    subst hc
    exact remote_on_connect_cb_fifo sid _ _ _ h
  | remote_resolved s status ai_family addr r =>
    simp only [step, Option.some.injEq] at hc
    subst hc
    exact remote_addr_resolved_cb_fifo sid _ _ _ _ _ _ h
  | remote_timeout s =>
    simp only [step, Option.some.injEq] at hc
    subst hc
    exact remote_timeout_cb_fifo sid _ _ h
  | remote_closed s =>
    simp only [step, Option.some.injEq] at hc
    subst hc
    exact remote_after_close_cb_fifo sid _ _ h

theorem run_fifo (sid : Nat) (es : List event) :
    ∀ ctx ctx1 : server_ctx_t, tunnel_ok ctx → (∀ r ∈ ctx.remote_map, session_fifo sid r) →
      inits_fit sid ctx es = true → run ctx es = some ctx1 →
      ∀ r ∈ ctx1.remote_map, session_fifo sid r := by
  induction es with
  | nil =>
    intro ctx ctx1 _ h _ hc
    simp only [run, Option.some.injEq] at hc
    subst hc
    exact h
  | cons e rest ih =>
    intro ctx ctx1 ht h hfit hc
    simp only [run] at hc
    cases hs : step ctx e with
    | none =>
      rw [hs] at hc
      cases hc
    | some c =>
      rw [hs] at hc
      simp only [inits_fit, hs, Bool.and_eq_true, Bool.not_eq_true'] at hfit
      exact ih c ctx1 (step_ok ctx c e ht hs) (step_fifo sid ctx c e ht.1 h hfit.1 hs) hfit.2 hc

/-- The short INIT frame of `short_events` creates session 2 with a queue
element of 65533 bytes (line 496 stores `1 - 4` in the 16-bit `payloadlen`),
while the payload of the frame is empty. -/
theorem short_init_queues_wrapped_length :
    (run server_accept_cb short_events).isSome = true ∧
    (RB_FIND short_state.remote_map 2).map
        (fun r => (r.send_queue.map (fun p => p.payloadlen), r.rx))
      = some ([65533], [(1, [])]) ∧
    inits_fit 2 server_accept_cb short_events = false := by
  refine ⟨by decide, by decide, by decide⟩

/-- C9 (amended): in every state the event loop can reach, for every session
not yet freed whose id was never given a session by a frame with
datalen < 4 + addrlen, the payloads already handed to upstream writes followed
by the payloads in its pending queue are the payloads of all the frames
dispatched to it, in dispatch order: the frame that created it and every later
complete frame carrying its id (any cmd other than INIT and CLOSE).  Upstream
writes are taken as accepted. -/
theorem fifo_delivery (es : List event) (ctx : server_ctx_t) (r : remote_ctx_t)
    (hrun : run server_accept_cb es = some ctx)
    (hfit : inits_fit r.session_id server_accept_cb es = true)
    (hr : r ∈ ctx.remote_map) (hfr : r.freed = false) :
    r.tx ++ queued r = r.rx.map Prod.snd :=
  run_fifo r.session_id es server_accept_cb ctx server_accept_cb_ok
    (fun x hx => by simp [server_accept_cb] at hx) hfit hrun r hr rfl hfr

/-- Witness of C9 (amended): session 1 after `stray_events`, with "GE" and "A"
written upstream and nothing queued. -/
theorem fifo_delivery_witness :
    stray_session ∈ stray_state.remote_map ∧
    stray_session.tx ++ queued stray_session = stray_session.rx.map Prod.snd :=
  ⟨by decide,
   fifo_delivery stray_events stray_state stray_session (by decide) (by decide) (by decide)
     (by decide)⟩

end Jedisocks
